import Mathlib

/-!
Verification of the TaxiRidesharingSimulation repository.

This file is a shallow embedding, in Lean 4, of the Python sources of the
taxi ride-sharing simulator (src/geohash.py, src/location.py,
src/road_network.py, src/routing.py, src/spatio_temporal_index.py,
src/query.py, src/taxi.py, src/dispatcher.py, src/simulation.py), together
with theorems that settle the claims C1..C10 about it.

Modelling conventions:
- Python dicts become insertion-ordered association lists (`alookup`,
  `aupdate`, `aremove`); iteration order is list order, matching CPython.
- Python machine floats used for times and distances become `ℚ` (or
  `WithTop ℚ` where the code manipulates `float('inf')`).
- Trigonometric geometry (`get_distance`, `bearing`, `end_pos` from
  src/location.py) is kept abstract as a `Geo` oracle structure: the
  control flow of the embedded code is exact while the transcendental
  arithmetic is a parameter. Geohash encoding/decoding (src/geohash.py)
  is pure dyadic interval halving, hence embedded exactly over `ℚ`.
- Python exceptions (KeyError on a dict, AttributeError on None, pop from
  an empty list, ...) become an `Except PyError` result; unbounded `while`
  loops take a fuel argument and report `PyError.outOfFuel` when it runs
  out, so every theorem about a loop is a partial-correctness statement
  about the executions that terminate within the given fuel.
- The heap aliasing of Python objects (one `Query` object shared by the
  query set, the dispatcher and the taxis) is flattened: the query set is
  the heap and every other container stores ids.
- `container.py` (`Queue`, `PriorityQueue`) is not part of src/; those two
  classes are modelled from the spec (section 4.4, 4.6, 9): a FIFO queue,
  and a priority queue that pops a minimal-priority entry, stably.
-/

namespace TaxiSim

attribute [local semireducible] Rat.add Rat.sub Rat.mul Rat.inv

/-! ## Python dict model: insertion-ordered association lists -/

/-- Lookup of a key in an insertion-ordered association list (Python `d[k]`
when the key is present, `k in d` via `isSome`). -/
def alookup {κ α : Type} [DecidableEq κ] : List (κ × α) → κ → Option α
  | [], _ => none
  | (k', v) :: rest, k => if k' = k then some v else alookup rest k

/-- Python `d[k] = v`: replace the value at the first occurrence of the key,
or append a fresh binding. -/
def aupdate {κ α : Type} [DecidableEq κ] : List (κ × α) → κ → α → List (κ × α)
  | [], k, v => [(k, v)]
  | (k', v') :: rest, k, v =>
    if k' = k then (k', v) :: rest else (k', v') :: aupdate rest k v

/-- Python `d.pop(k)` (the removal part): drop the first binding of the key. -/
def aremove {κ α : Type} [DecidableEq κ] : List (κ × α) → κ → List (κ × α)
  | [], _ => []
  | (k', v') :: rest, k => if k' = k then rest else (k', v') :: aremove rest k

theorem alookup_aupdate_self {κ α : Type} [DecidableEq κ]
    (l : List (κ × α)) (k : κ) (v : α) : alookup (aupdate l k v) k = some v := by
  induction l with
  | nil => simp [aupdate, alookup]
  | cons p rest ih =>
    by_cases h : p.1 = k
    · simp [aupdate, alookup, h]
    · simp [aupdate, alookup, h, ih]

theorem alookup_aupdate_ne {κ α : Type} [DecidableEq κ]
    (l : List (κ × α)) (k k' : κ) (v : α) (h : k ≠ k') :
    alookup (aupdate l k v) k' = alookup l k' := by
  induction l with
  | nil => simp [aupdate, alookup, h]
  | cons p rest ih =>
    by_cases hp : p.1 = k
    · subst hp
      simp [aupdate, alookup, h]
    · simp [aupdate, alookup, hp, ih]

/-- Every binding of an updated association list is either the new binding
(under the old stored key) or an untouched binding of the original list. -/
theorem mem_aupdate {κ α : Type} [DecidableEq κ]
    (l : List (κ × α)) (k : κ) (v : α) :
    ∀ p ∈ aupdate l k v, p ∈ l ∨ p.2 = v := by
  induction l with
  | nil => intro p hp; simp [aupdate] at hp; simp [hp]
  | cons q rest ih =>
    intro p hp
    by_cases hq : q.1 = k
    · simp [aupdate, hq] at hp
      rcases hp with hp | hp
      · right; simp [hp]
      · left; simp [hp]
    · simp [aupdate, hq] at hp
      rcases hp with hp | hp
      · left; simp [hp]
      · rcases ih p hp with h | h
        · left; simp [h]
        · right; exact h

/-- A successful lookup locates its binding in the list. -/
theorem alookup_mem {κ α : Type} [DecidableEq κ] :
    ∀ (l : List (κ × α)) (k : κ) (v : α), alookup l k = some v → (k, v) ∈ l
  | [], k, v => by intro h; simp [alookup] at h
  | (k', v') :: rest, k, v => by
    intro h
    by_cases hp : k' = k
    · subst hp
      simp [alookup] at h
      subst h
      exact List.mem_cons_self _ _
    · simp [alookup, hp] at h
      exact List.mem_cons_of_mem _ (alookup_mem rest k v h)

/-! ## Errors raised by the Python runtime (src code has no handlers) -/

/-- The uncaught Python exceptions the embedded code can raise, plus fuel
exhaustion for loops the embedding bounds. -/
inductive PyError : Type
  | keyError : PyError
  | typeError : PyError
  | indexError : PyError
  | attributeError : PyError
  | outOfFuel : PyError
deriving DecidableEq

/-- Lift a lookup that Python would subscript directly: `none` raises. -/
def getKey {α : Type} : Option α → Except PyError α
  | none => .error .keyError
  | some a => .ok a

instance {ε α : Type} [DecidableEq ε] [DecidableEq α] :
    DecidableEq (Except ε α) := fun a b =>
  match a, b with
  | .error e, .error f =>
    if h : e = f then isTrue (by rw [h]) else isFalse (by simp [h])
  | .ok x, .ok y =>
    if h : x = y then isTrue (by rw [h]) else isFalse (by simp [h])
  | .error _, .ok _ => isFalse (by simp)
  | .ok _, .error _ => isFalse (by simp)

/-! ## src/constants.py -/

def MAX_INT : ℚ := 1061109567

def PRECISION : Nat := 5

def AVERAGE_SPEED : ℚ := 7

def TAXI_CAPACITY : ℤ := 1

def PATIENCE : ℚ := 300

def TIME_STEP : ℚ := 1

/-! ## src/geohash.py — exact dyadic embedding -/

def BASE32 : List Char :=
  ['0', '1', '2', '3', '4', '5', '6', '7', '8', '9', 'b', 'c', 'd', 'e', 'f', 'g',
   'h', 'j', 'k', 'm', 'n', 'p', 'q', 'r', 's', 't', 'u', 'v', 'w', 'x', 'y', 'z']

/-- Python-2 comparison `x > mid` where `x` may be `None` (auto-created
vertices carry `lat = lon = None`); in Python 2 `None` compares below every
number, so the comparison is `False`. -/
def pyGt : Option ℚ → ℚ → Bool
  | none, _ => false
  | some x, m => decide (m < x)

/-- The body of the encoding loop of `geo_encode`: `n` steps remain, `i` is
the Python loop counter, and the four rationals are the current latitude and
longitude intervals. -/
def geo_encode_go (lat lon : Option ℚ) :
    Nat → Nat → ℚ → ℚ → ℚ → ℚ → Nat → String → String
  | 0, _, _, _, _, _, _, acc => acc
  | n + 1, i, lat0, lat1, lon0, lon1, bits, acc =>
    if i % 2 ≠ 0 then
      let mid := (lon0 + lon1) / 2
      let bits' := if pyGt lon mid then bits * 2 + 1 else bits * 2
      let lon0' := if pyGt lon mid then mid else lon0
      let lon1' := if pyGt lon mid then lon1 else mid
      if i % 5 = 0 then
        geo_encode_go lat lon n (i + 1) lat0 lat1 lon0' lon1' 0
          (acc.push (BASE32.getD bits' '?'))
      else
        geo_encode_go lat lon n (i + 1) lat0 lat1 lon0' lon1' bits' acc
    else
      let mid := (lat0 + lat1) / 2
      let bits' := if pyGt lat mid then bits * 2 + 1 else bits * 2
      let lat0' := if pyGt lat mid then mid else lat0
      let lat1' := if pyGt lat mid then lat1 else mid
      if i % 5 = 0 then
        geo_encode_go lat lon n (i + 1) lat0' lat1' lon0 lon1 0
          (acc.push (BASE32.getD bits' '?'))
      else
        geo_encode_go lat lon n (i + 1) lat0' lat1' lon0 lon1 bits' acc

/-- `geo_encode(lat, lon, precision)` from src/geohash.py. -/
def geo_encode (lat lon : Option ℚ) (precision : Nat) : String :=
  geo_encode_go lat lon (precision * 5) 1 (-90) 90 (-180) 180 0 (String.mk [])

/-- One bit of `geo_decode`: shrink the longitude interval when `odd`,
else the latitude interval. -/
def geo_decode_bit (odd : Bool) (bit : Nat) :
    ℚ × ℚ × ℚ × ℚ → ℚ × ℚ × ℚ × ℚ
  | (lat0, lat1, lon0, lon1) =>
    if odd then
      let mid := (lon0 + lon1) / 2
      if bit = 1 then (lat0, lat1, mid, lon1) else (lat0, lat1, lon0, mid)
    else
      let mid := (lat0 + lat1) / 2
      if bit = 1 then (mid, lat1, lon0, lon1) else (lat0, mid, lon0, lon1)

/-- Fold the five bits of one base-32 character of `geo_decode`. -/
def geo_decode_char (c : Char) :
    Bool × ℚ × ℚ × ℚ × ℚ → Bool × ℚ × ℚ × ℚ × ℚ
  | (odd, iv) =>
    let bits := BASE32.indexOf c
    let step := fun (st : Bool × ℚ × ℚ × ℚ × ℚ) (j : Nat) =>
      (! st.1, geo_decode_bit st.1 ((bits >>> j) % 2) st.2)
    [4, 3, 2, 1, 0].foldl step (odd, iv)

/-- `geo_decode(geohash)` from src/geohash.py: the center of the decoded
cell. -/
def geo_decode (g : String) : ℚ × ℚ :=
  let st := g.toList.foldl (fun st c => geo_decode_char c st) (true, -90, 90, -180, 180)
  (((st.2.1 + st.2.2.1) / 2), ((st.2.2.2.1 + st.2.2.2.2) / 2))

/-! ## src/location.py — Location (geometry itself stays an oracle) -/

/-- `Location` from src/location.py: latitude and longitude (possibly `None`
for auto-created vertices) with the geohash computed in `__init__`. -/
structure Location : Type where
  lat : Option ℚ
  lon : Option ℚ
  geohash : String
deriving DecidableEq

/-- `Location.__init__`: the geohash field is always `geo_encode(lat, lon,
PRECISION)`. -/
def mkLocation (lat lon : Option ℚ) : Location :=
  ⟨lat, lon, geo_encode lat lon PRECISION⟩

/-- Oracle for the transcendental geometry of src/location.py:
`get_distance` (spherical law of cosines), `bearing`, and the raw
latitude/longitude produced by `end_pos`. The embedding re-wraps `end_pos`
through `mkLocation`, mirroring `Location.__init__`. -/
structure Geo : Type where
  dist : Location → Location → ℚ
  bearingOf : Location → Location → ℚ
  endPosRaw : Location → ℚ → ℚ → Option ℚ × Option ℚ

/-- `end_pos(start_pos, theta, d)` from src/location.py, up to the oracle:
the returned object is constructed through `Location.__init__`. -/
def end_pos (G : Geo) (p : Location) (theta d : ℚ) : Location :=
  mkLocation (G.endPosRaw p theta d).1 (G.endPosRaw p theta d).2

/-! ## src/road_network.py — graph structure -/

/-- `Vertex` from src/road_network.py. `connected_to` maps a neighbor vertex
id to the id of the edge leading to it. -/
structure Vertex : Type where
  id : Nat
  location : Location
  connected_to : List (Nat × Nat)
deriving DecidableEq

/-- `Vertex.__init__`: fresh vertex with an empty adjacency map. -/
def mkVertex (v_id : Nat) (location : Location) : Vertex :=
  ⟨v_id, location, []⟩

/-- `Vertex.add_neighbor`. -/
def Vertex.add_neighbor (v : Vertex) (nbr_id e_id : Nat) : Vertex :=
  { v with connected_to := aupdate v.connected_to nbr_id e_id }

/-- `Vertex.get_geohash`. -/
def Vertex.get_geohash (v : Vertex) : String := v.location.geohash

/-- `Edge` from src/road_network.py. -/
structure Edge : Type where
  id : Nat
  start_vid : Nat
  end_vid : Nat
  weight : ℚ
deriving DecidableEq

/-- `RoadNetwork` from src/road_network.py. -/
structure RoadNetwork : Type where
  num_vertex : Nat
  num_edge : Nat
  vertex_set : List (Nat × Vertex)
  edge_set : List (Nat × Edge)
deriving DecidableEq

/-- `RoadNetwork.__init__`. -/
def RoadNetwork.empty : RoadNetwork := ⟨0, 0, [], []⟩

/-- `RoadNetwork.add_vertex(v_id, lat, lon)`: increment `num_vertex` only
when the id is new, then unconditionally store a fresh `Vertex` (with an
empty adjacency map) under the id. -/
def RoadNetwork.add_vertex (rn : RoadNetwork) (v_id : Nat)
    (lat lon : Option ℚ) : RoadNetwork :=
  let rn :=
    if (alookup rn.vertex_set v_id).isSome then rn
    else { rn with num_vertex := rn.num_vertex + 1 }
  { rn with vertex_set := aupdate rn.vertex_set v_id (mkVertex v_id (mkLocation lat lon)) }

/-- `RoadNetwork.add_edge(e_id, start_vid, end_vid, weight)`: auto-create
missing endpoints (with `None` coordinates), store the edge, and record the
adjacency on the start vertex. The embedded adjacency write mirrors the
Python in-place mutation of the stored vertex. -/
def RoadNetwork.add_edge (rn : RoadNetwork) (e_id start_vid end_vid : Nat)
    (weight : ℚ) : RoadNetwork :=
  let rn :=
    if (alookup rn.edge_set e_id).isSome then rn
    else { rn with num_edge := rn.num_edge + 1 }
  let rn :=
    if (alookup rn.vertex_set start_vid).isSome then rn
    else rn.add_vertex start_vid none none
  let rn :=
    if (alookup rn.vertex_set end_vid).isSome then rn
    else rn.add_vertex end_vid none none
  let rn := { rn with edge_set := aupdate rn.edge_set e_id ⟨e_id, start_vid, end_vid, weight⟩ }
  match alookup rn.vertex_set start_vid with
  | some v => { rn with vertex_set := aupdate rn.vertex_set start_vid (v.add_neighbor end_vid e_id) }
  | none => rn

/-- `RoadNetwork.get_vertex` (returns `None` when absent). -/
def RoadNetwork.get_vertex (rn : RoadNetwork) (v_id : Nat) : Option Vertex :=
  alookup rn.vertex_set v_id

/-- `RoadNetwork.get_edge` (returns `None` when absent; Python also returns
`None` when subscripted with the `None` id a fresh taxi carries). -/
def RoadNetwork.get_edge (rn : RoadNetwork) (e_id : Option Nat) : Option Edge :=
  match e_id with
  | none => none
  | some e => alookup rn.edge_set e

/-- `RoadNetwork.get_neighbors(s_vid)` — raises KeyError on an unknown id. -/
def RoadNetwork.get_neighbors (rn : RoadNetwork) (s_vid : Nat) :
    Except PyError (List Nat) :=
  match alookup rn.vertex_set s_vid with
  | none => .error .keyError
  | some v => .ok (v.connected_to.map (·.1))

/-- `RoadNetwork.get_eid(start_vid, end_vid)`: `None` when there is no such
edge; KeyError when the start vertex is unknown. -/
def RoadNetwork.get_eid (rn : RoadNetwork) (start_vid end_vid : Nat) :
    Except PyError (Option Nat) :=
  match alookup rn.vertex_set start_vid with
  | none => .error .keyError
  | some v => .ok (alookup v.connected_to end_vid)

/-- `RoadNetwork.get_weight(start_vid, end_vid)`: the edge weight, or
`float('inf')` (here `⊤`) when the start vertex has no edge to the end
vertex; KeyError when the start vertex — or a dangling edge id — is
unknown. -/
def RoadNetwork.get_weight (rn : RoadNetwork) (start_vid end_vid : Nat) :
    Except PyError (WithTop ℚ) :=
  match alookup rn.vertex_set start_vid with
  | none => .error .keyError
  | some v =>
    match alookup v.connected_to end_vid with
    | some e_id =>
      match alookup rn.edge_set e_id with
      | some e => .ok (e.weight : WithTop ℚ)
      | none => .error .keyError
    | none => .ok ⊤

/-- `RoadNetwork.get_straight_distance(start_vid, end_vid)` with the
distance oracle; AttributeError (on `None.location`) when an endpoint is
unknown, as in Python. -/
def RoadNetwork.get_straight_distance (G : Geo) (rn : RoadNetwork)
    (start_vid end_vid : Nat) : Except PyError ℚ :=
  match rn.get_vertex start_vid, rn.get_vertex end_vid with
  | some a, some b => .ok (G.dist a.location b.location)
  | _, _ => .error .attributeError

/-! ### Claim C9: `add_vertex` on an existing id -/

/-- C9: calling `RoadNetwork.add_vertex` with a `v_id` that is already
present replaces the stored `Vertex` by a fresh one whose adjacency map is
empty (so the outgoing edges recorded there are lost), leaves `edge_set`
untouched, and does not increment `num_vertex`. -/
theorem C9_add_vertex_replaces (rn : RoadNetwork) (v_id : Nat)
    (lat lon : Option ℚ) (h : (alookup rn.vertex_set v_id).isSome) :
    (rn.add_vertex v_id lat lon).num_vertex = rn.num_vertex ∧
    alookup (rn.add_vertex v_id lat lon).vertex_set v_id =
      some ⟨v_id, mkLocation lat lon, []⟩ ∧
    (rn.add_vertex v_id lat lon).edge_set = rn.edge_set := by
  refine ⟨?_, ?_, ?_⟩
  · simp [RoadNetwork.add_vertex, h]
  · simp [RoadNetwork.add_vertex, h, alookup_aupdate_self, mkVertex, mkLocation]
  · simp [RoadNetwork.add_vertex, h]

/-- Witness for C9 at a concrete road network: a one-vertex network with an
outgoing edge recorded, re-adding the vertex resets its adjacency. -/
theorem C9_add_vertex_replaces_witness :
    ((alookup (RoadNetwork.empty.add_vertex 1 (some 10) (some 20)).vertex_set 1).isSome) ∧
    ((RoadNetwork.empty.add_vertex 1 (some 10) (some 20)).add_vertex 1 (some 3) (some 4)).num_vertex =
      (RoadNetwork.empty.add_vertex 1 (some 10) (some 20)).num_vertex :=
  ⟨by decide, (C9_add_vertex_replaces (RoadNetwork.empty.add_vertex 1 (some 10) (some 20)) 1
      (some 3) (some 4) (by decide)).1⟩

/-! ## src/road_network.py — Path, construct_path -/

/-- `Path` from src/road_network.py. The edge list may contain `None`
entries because `get_eid` returns `None` for a missing edge; `distance` is
a float that can be `inf` (via `get_weight`), hence `WithTop ℚ`. -/
structure Path : Type where
  vertex_list : List Nat
  edge_list : List (Option Nat)
  distance : WithTop ℚ
deriving DecidableEq

/-- The `came_from` dictionary of the searches. -/
abbrev CameFrom : Type := List (Nat × Option Nat)

/-- The reverse walk of `construct_path`: follow `came_from` from `e_vid`
until `s_vid`, accumulating the visited ids in Python append order; a hit
on a key outside `came_from` discards everything (`v_list = []`). The fuel
bounds the unbounded Python `while`. -/
def construct_path_walk (cf : CameFrom) (s_vid : Nat) :
    Nat → Option Nat → List Nat → Option (List Nat)
  | 0, _, _ => none
  | _ + 1, none, _ => some []
  | fuel + 1, some c, acc =>
    if c = s_vid then some acc
    else
      match alookup cf c with
      | none => some []
      | some pred =>
        construct_path_walk cf s_vid fuel pred
          (match pred with
           | some p => acc ++ [p]
           | none => acc)

/-- The edge-list/distance construction of `construct_path`: for each pair
of consecutive vertices record `get_eid` and add `get_weight`. -/
def construct_edges (rn : RoadNetwork) :
    List Nat → Except PyError (List (Option Nat) × WithTop ℚ)
  | [] => .ok ([], 0)
  | [_] => .ok ([], 0)
  | u :: v :: rest =>
    match rn.get_eid u v with
    | .error err => .error err
    | .ok e =>
      match rn.get_weight u v with
      | .error err => .error err
      | .ok w =>
        match construct_edges rn (v :: rest) with
        | .error err => .error err
        | .ok (es, d) => .ok (e :: es, w + d)

/-- `construct_path(road_network, s_vid, e_vid, came_from)` from
src/road_network.py. -/
def construct_path (rn : RoadNetwork) (s_vid e_vid : Nat) (cf : CameFrom)
    (fuel : Nat) : Except PyError Path :=
  match construct_path_walk cf s_vid fuel (some e_vid) [e_vid] with
  | none => .error .outOfFuel
  | some l =>
    match construct_edges rn l.reverse with
    | .error err => .error err
    | .ok (es, d) => .ok ⟨l.reverse, es, d⟩

/-! ## container.py is not under src/: queue models -/

/-- Modelled from the spec: `container.PriorityQueue.get` (container.py is
missing from src/). Spec section 4.2/9: a priority queue that pops an entry
of minimal priority; ties resolve to the earliest-inserted entry (stable),
and path distances must not depend on the tie-break. `put` is list append. -/
def pq_get {κ α : Type} [LinearOrder κ] :
    List (κ × α) → Option ((κ × α) × List (κ × α))
  | [] => none
  | x :: xs =>
    match pq_get xs with
    | none => some (x, [])
    | some (y, ys) => if x.1 ≤ y.1 then some (x, xs) else some (y, x :: ys)

/-! ## src/road_network.py — the four searches -/

/-- Inner scan of `bfs` (and `is_reachable`): push unvisited neighbors on
the FIFO frontier and record their predecessor. -/
def bfs_scan (current : Nat) :
    List Nat → List Nat → CameFrom → List Nat × CameFrom
  | [], frontier, cf => (frontier, cf)
  | nbr :: rest, frontier, cf =>
    if (alookup cf nbr).isSome then bfs_scan current rest frontier cf
    else bfs_scan current rest (frontier ++ [nbr]) (cf ++ [(nbr, some current)])

/-- Main loop of `bfs` from src/road_network.py (fuel-bounded). -/
def bfs_loop (rn : RoadNetwork) (e_vid : Nat) :
    Nat → List Nat → CameFrom → Except PyError CameFrom
  | 0, _, _ => .error .outOfFuel
  | fuel + 1, frontier, cf =>
    match frontier with
    | [] => .ok cf
    | current :: rest =>
      if current = e_vid then .ok cf
      else
        match rn.get_neighbors current with
        | .error err => .error err
        | .ok nbrs =>
          match bfs_scan current nbrs rest cf with
          | (fr', cf') => bfs_loop rn e_vid fuel fr' cf'

/-- `bfs(road_network, s_vid, e_vid)` from src/road_network.py. -/
def bfs (rn : RoadNetwork) (s_vid e_vid : Nat) (fuel : Nat) :
    Except PyError Path :=
  match bfs_loop rn e_vid fuel [s_vid] [(s_vid, none)] with
  | .error err => .error err
  | .ok cf => construct_path rn s_vid e_vid cf fuel

/-- Neighbor relaxation of `dijkstra`: on strict cost improvement (or first
visit) update `cost_so_far`, push a duplicate with priority `new_cost`, and
overwrite `came_from`. -/
def dijkstra_relax (rn : RoadNetwork) (current : Nat) (cost_cur : WithTop ℚ) :
    List Nat → List (WithTop ℚ × Nat) → CameFrom → List (Nat × WithTop ℚ) →
    Except PyError (List (WithTop ℚ × Nat) × CameFrom × List (Nat × WithTop ℚ))
  | [], frontier, cf, cost => .ok (frontier, cf, cost)
  | nbr :: rest, frontier, cf, cost =>
    match rn.get_weight current nbr with
    | .error err => .error err
    | .ok w =>
      let new_cost := cost_cur + w
      let relax :=
        match alookup cost nbr with
        | none => true
        | some c => decide (new_cost < c)
      if relax then
        dijkstra_relax rn current cost_cur rest (frontier ++ [(new_cost, nbr)])
          (aupdate cf nbr (some current)) (aupdate cost nbr new_cost)
      else
        dijkstra_relax rn current cost_cur rest frontier cf cost

/-- Main loop of `dijkstra` from src/road_network.py (fuel-bounded). -/
def dijkstra_loop (rn : RoadNetwork) (e_vid : Nat) :
    Nat → List (WithTop ℚ × Nat) → CameFrom → List (Nat × WithTop ℚ) →
    Except PyError CameFrom
  | 0, _, _, _ => .error .outOfFuel
  | fuel + 1, frontier, cf, cost =>
    match pq_get frontier with
    | none => .ok cf
    | some ((_, current), rest) =>
      if current = e_vid then .ok cf
      else
        match rn.get_neighbors current with
        | .error err => .error err
        | .ok nbrs =>
          match alookup cost current with
          | none => .error .keyError
          | some cost_cur =>
            match dijkstra_relax rn current cost_cur nbrs rest cf cost with
            | .error err => .error err
            | .ok (fr', cf', cost') => dijkstra_loop rn e_vid fuel fr' cf' cost'

/-- `dijkstra(road_network, s_vid, e_vid)` from src/road_network.py. -/
def dijkstra (rn : RoadNetwork) (s_vid e_vid : Nat) (fuel : Nat) :
    Except PyError Path :=
  match dijkstra_loop rn e_vid fuel [(0, s_vid)] [(s_vid, none)] [(s_vid, 0)] with
  | .error err => .error err
  | .ok cf => construct_path rn s_vid e_vid cf fuel

/-- Neighbor scan of `greedy_bfs`: push unvisited neighbors with the
straight-line distance to the goal as priority. -/
def greedy_scan (G : Geo) (rn : RoadNetwork) (current e_vid : Nat) :
    List Nat → List (WithTop ℚ × Nat) → CameFrom →
    Except PyError (List (WithTop ℚ × Nat) × CameFrom)
  | [], frontier, cf => .ok (frontier, cf)
  | nbr :: rest, frontier, cf =>
    if (alookup cf nbr).isSome then greedy_scan G rn current e_vid rest frontier cf
    else
      match rn.get_straight_distance G nbr e_vid with
      | .error err => .error err
      | .ok pr =>
        greedy_scan G rn current e_vid rest (frontier ++ [((pr : WithTop ℚ), nbr)])
          (cf ++ [(nbr, some current)])

/-- Main loop of `greedy_bfs` from src/road_network.py (fuel-bounded). -/
def greedy_loop (G : Geo) (rn : RoadNetwork) (e_vid : Nat) :
    Nat → List (WithTop ℚ × Nat) → CameFrom → Except PyError CameFrom
  | 0, _, _ => .error .outOfFuel
  | fuel + 1, frontier, cf =>
    match pq_get frontier with
    | none => .ok cf
    | some ((_, current), rest) =>
      if current = e_vid then .ok cf
      else
        match rn.get_neighbors current with
        | .error err => .error err
        | .ok nbrs =>
          match greedy_scan G rn current e_vid nbrs rest cf with
          | .error err => .error err
          | .ok (fr', cf') => greedy_loop G rn e_vid fuel fr' cf'

/-- `greedy_bfs(road_network, s_vid, e_vid)` from src/road_network.py. -/
def greedy_bfs (G : Geo) (rn : RoadNetwork) (s_vid e_vid : Nat) (fuel : Nat) :
    Except PyError Path :=
  match greedy_loop G rn e_vid fuel [(0, s_vid)] [(s_vid, none)] with
  | .error err => .error err
  | .ok cf => construct_path rn s_vid e_vid cf fuel

/-- Neighbor relaxation of `get_shortest_path` (A*): like Dijkstra but the
pushed priority adds the straight-line distance from the neighbor to the
goal. -/
def astar_relax (G : Geo) (rn : RoadNetwork) (current e_vid : Nat)
    (cost_cur : WithTop ℚ) :
    List Nat → List (WithTop ℚ × Nat) → CameFrom → List (Nat × WithTop ℚ) →
    Except PyError (List (WithTop ℚ × Nat) × CameFrom × List (Nat × WithTop ℚ))
  | [], frontier, cf, cost => .ok (frontier, cf, cost)
  | nbr :: rest, frontier, cf, cost =>
    match rn.get_weight current nbr with
    | .error err => .error err
    | .ok w =>
      let new_cost := cost_cur + w
      let relax :=
        match alookup cost nbr with
        | none => true
        | some c => decide (new_cost < c)
      if relax then
        match rn.get_straight_distance G nbr e_vid with
        | .error err => .error err
        | .ok h =>
          astar_relax G rn current e_vid cost_cur rest
            (frontier ++ [(new_cost + (h : WithTop ℚ), nbr)])
            (aupdate cf nbr (some current)) (aupdate cost nbr new_cost)
      else
        astar_relax G rn current e_vid cost_cur rest frontier cf cost

/-- Main loop of `get_shortest_path` (A*) from src/road_network.py. -/
def astar_loop (G : Geo) (rn : RoadNetwork) (e_vid : Nat) :
    Nat → List (WithTop ℚ × Nat) → CameFrom → List (Nat × WithTop ℚ) →
    Except PyError CameFrom
  | 0, _, _, _ => .error .outOfFuel
  | fuel + 1, frontier, cf, cost =>
    match pq_get frontier with
    | none => .ok cf
    | some ((_, current), rest) =>
      if current = e_vid then .ok cf
      else
        match rn.get_neighbors current with
        | .error err => .error err
        | .ok nbrs =>
          match alookup cost current with
          | none => .error .keyError
          | some cost_cur =>
            match astar_relax G rn current e_vid cost_cur nbrs rest cf cost with
            | .error err => .error err
            | .ok (fr', cf', cost') => astar_loop G rn e_vid fuel fr' cf' cost'

/-- `get_shortest_path(road_network, s_vid, e_vid)` (A*, the production
route search) from src/road_network.py. -/
def get_shortest_path (G : Geo) (rn : RoadNetwork) (s_vid e_vid : Nat)
    (fuel : Nat) : Except PyError Path :=
  match astar_loop G rn e_vid fuel [(0, s_vid)] [(s_vid, none)] [(s_vid, 0)] with
  | .error err => .error err
  | .ok cf => construct_path rn s_vid e_vid cf fuel

/-! ## Claim C6: A* path distance vs Dijkstra -/

/-- The weight `construct_path` adds for one recorded edge-list entry: `⊤`
(Python `inf`) for a `None` entry or a dangling id, else the stored edge's
weight. -/
def edgeWeightOf (rn : RoadNetwork) : Option Nat → WithTop ℚ
  | none => ⊤
  | some e =>
    match alookup rn.edge_set e with
    | some ed => (ed.weight : WithTop ℚ)
    | none => ⊤

theorem get_weight_eq_edgeWeightOf (rn : RoadNetwork) (u v : Nat)
    (e : Option Nat) (w : WithTop ℚ)
    (he : rn.get_eid u v = .ok e) (hw : rn.get_weight u v = .ok w) :
    w = edgeWeightOf rn e := by
  unfold RoadNetwork.get_eid at he
  unfold RoadNetwork.get_weight at hw
  cases hv : alookup rn.vertex_set u with
  | none => rw [hv] at he; exact absurd he (by simp)
  | some vx =>
    rw [hv] at he hw
    simp only at he hw
    cases hc : alookup vx.connected_to v with
    | none =>
      rw [hc] at he hw
      cases he; cases hw
      simp [edgeWeightOf]
    | some eid =>
      rw [hc] at he hw
      simp only at hw
      cases he
      cases hed : alookup rn.edge_set eid with
      | none => rw [hed] at hw; exact absurd hw (by simp)
      | some ed =>
        rw [hed] at hw
        cases hw
        simp [edgeWeightOf, hed]

theorem construct_edges_sum (rn : RoadNetwork) :
    ∀ l es d, construct_edges rn l = .ok (es, d) →
      d = (es.map (edgeWeightOf rn)).sum
  | [] => by
    intro es d h
    simp only [construct_edges] at h
    cases h
    simp
  | [u] => by
    intro es d h
    simp only [construct_edges] at h
    cases h
    simp
  | u :: v :: rest => by
    intro es d h
    simp only [construct_edges] at h
    cases he : rn.get_eid u v with
    | error err => rw [he] at h; exact absurd h (by simp)
    | ok e =>
      rw [he] at h
      cases hw : rn.get_weight u v with
      | error err => rw [hw] at h; exact absurd h (by simp)
      | ok w =>
        rw [hw] at h
        cases hrec : construct_edges rn (v :: rest) with
        | error err => rw [hrec] at h; exact absurd h (by simp)
        | ok esd =>
          obtain ⟨es', d'⟩ := esd
          rw [hrec] at h
          simp at h
          obtain ⟨hes, hd⟩ := h
          have ih := construct_edges_sum rn (v :: rest) es' d' hrec
          rw [← hes, ← hd, ih, List.map_cons, List.sum_cons,
            get_weight_eq_edgeWeightOf rn u v e w he hw]

theorem construct_path_distance (rn : RoadNetwork) (s_vid e_vid : Nat)
    (cf : CameFrom) (fuel : Nat) (p : Path)
    (h : construct_path rn s_vid e_vid cf fuel = .ok p) :
    p.distance = (p.edge_list.map (edgeWeightOf rn)).sum := by
  unfold construct_path at h
  cases hwalk : construct_path_walk cf s_vid fuel (some e_vid) [e_vid] with
  | none => rw [hwalk] at h; exact absurd h (by simp)
  | some l =>
    rw [hwalk] at h
    simp only at h
    cases hce : construct_edges rn l.reverse with
    | error err => rw [hce] at h; exact absurd h (by simp)
    | ok esd =>
      obtain ⟨es, d⟩ := esd
      rw [hce] at h
      cases h
      exact construct_edges_sum rn l.reverse es d hce

/-- C6, amended: the path returned by `get_shortest_path` (A*) has total
distance equal to the sum of its recorded edge weights. (The second half
of the original claim — that this distance is `≤` the Dijkstra distance —
is refuted by `C6_astar_not_le_dijkstra_cex` below.) -/
theorem C6_astar_distance_eq_edge_sum (G : Geo) (rn : RoadNetwork)
    (s_vid e_vid fuel : Nat) (p : Path)
    (h : get_shortest_path G rn s_vid e_vid fuel = .ok p) :
    p.distance = (p.edge_list.map (edgeWeightOf rn)).sum := by
  unfold get_shortest_path at h
  cases hl : astar_loop G rn e_vid fuel [(0, s_vid)] [(s_vid, none)] [(s_vid, 0)] with
  | error err => rw [hl] at h; exact absurd h (by simp)
  | ok cf =>
    rw [hl] at h
    exact construct_path_distance rn s_vid e_vid cf fuel p h

/-- Concrete geometry oracle for the counterexample: the straight-line
distance is the absolute latitude difference (a scaled version of what
`get_distance` yields for four vertices on one meridian: vertices 0, 2, 3
at the same point and vertex 1 far away). -/
def cexG : Geo :=
  ⟨fun a b => |(a.lat.getD 0) - (b.lat.getD 0)|, fun _ _ => 0,
   fun p _ _ => (p.lat, p.lon)⟩

/-- Counterexample road network: two routes 0→1→3 (total weight 2) and
0→2→3 (total weight 10); the CSV-loaded edge weights are much smaller than
the straight-line distance from vertex 1 to the goal, so the straight-line
heuristic overestimates through vertex 1. -/
def cexRN : RoadNetwork :=
  ((((((RoadNetwork.empty.add_vertex 0 (some 0) (some 0)).add_vertex 1
      (some 10) (some 0)).add_vertex 2 (some 0) (some 0)).add_vertex 3
      (some 0) (some 0)).add_edge 10 0 1 1).add_edge 11 1 3 1).add_edge 12 0 2 5
    |>.add_edge 13 2 3 5

/-- C6 counterexample: on `cexRN` the A* production search returns the
path 0→2→3 of distance 10 while Dijkstra returns 0→1→3 of distance 2, so
the A* distance is not `≤` the Dijkstra distance — the original claim is
false as stated. -/
theorem C6_astar_not_le_dijkstra_cex :
    get_shortest_path cexG cexRN 0 3 10 =
      .ok ⟨[0, 2, 3], [some 12, some 13], (10 : WithTop ℚ)⟩ ∧
    dijkstra cexRN 0 3 10 =
      .ok ⟨[0, 1, 3], [some 10, some 11], (2 : WithTop ℚ)⟩ ∧
    ¬ ((10 : WithTop ℚ) ≤ (2 : WithTop ℚ)) :=
  ⟨by decide, by decide, by decide⟩

/-- Witness for C6 at the concrete counterexample network. -/
theorem C6_astar_distance_eq_edge_sum_witness :
    (⟨[0, 2, 3], [some 12, some 13], (10 : WithTop ℚ)⟩ : Path).distance =
      ((⟨[0, 2, 3], [some 12, some 13], (10 : WithTop ℚ)⟩ : Path).edge_list.map
        (edgeWeightOf cexRN)).sum :=
  C6_astar_distance_eq_edge_sum cexG cexRN 0 3 10 _ (by decide)

/-! ## Claim C7: unreachable targets give the empty path -/

/-- One directed road-network hop: `b` is a recorded neighbor of `a`. -/
def Adj (rn : RoadNetwork) (a b : Nat) : Prop :=
  ∃ v, alookup rn.vertex_set a = some v ∧ b ∈ v.connected_to.map (·.1)

/-- Graph reachability along recorded edges. -/
def Reaches (rn : RoadNetwork) (s e : Nat) : Prop :=
  Relation.ReflTransGen (Adj rn) s e

theorem get_neighbors_adj (rn : RoadNetwork) (current : Nat)
    (nbrs : List Nat) (h : rn.get_neighbors current = .ok nbrs) :
    ∀ n ∈ nbrs, Adj rn current n := by
  unfold RoadNetwork.get_neighbors at h
  cases hv : alookup rn.vertex_set current with
  | none => rw [hv] at h; exact absurd h (by simp)
  | some v =>
    rw [hv] at h
    cases h
    intro n hn
    exact ⟨v, hv, hn⟩

theorem mem_aupdate_key {κ α : Type} [DecidableEq κ]
    (l : List (κ × α)) (k : κ) (v : α) :
    ∀ p ∈ aupdate l k v, p.1 = k ∨ p ∈ l := by
  induction l with
  | nil =>
    intro p hp
    simp [aupdate] at hp
    left; simp [hp]
  | cons q rest ih =>
    intro p hp
    by_cases hq : q.1 = k
    · simp [aupdate, hq] at hp
      rcases hp with hp | hp
      · left; rw [hp, ← hq]
      · right; simp [hp]
    · simp [aupdate, hq] at hp
      rcases hp with hp | hp
      · right; simp [hp]
      · rcases ih p hp with h | h
        · left; exact h
        · right; simp [h]

theorem pq_get_mem {α : Type} :
    ∀ (l : List (WithTop ℚ × α)) (x : WithTop ℚ × α) (rest : List (WithTop ℚ × α)),
      pq_get l = some (x, rest) → x ∈ l ∧ ∀ y ∈ rest, y ∈ l
  | [] => by intro x rest h; simp [pq_get] at h
  | a :: as => by
    intro x rest h
    simp only [pq_get] at h
    cases hrec : pq_get as with
    | none =>
      rw [hrec] at h
      simp at h
      obtain ⟨rfl, rfl⟩ := h
      exact ⟨by simp, by intro y hy; simp at hy⟩
    | some yr =>
      obtain ⟨y, ys⟩ := yr
      rw [hrec] at h
      simp only at h
      by_cases hle : a.1 ≤ y.1
      · rw [if_pos hle] at h
        simp at h
        obtain ⟨rfl, rfl⟩ := h
        exact ⟨by simp, by intro z hz; simp [hz]⟩
      · rw [if_neg hle] at h
        simp at h
        obtain ⟨rfl, rfl⟩ := h
        have ihm := pq_get_mem as y ys hrec
        refine ⟨by right; exact ihm.1, ?_⟩
        intro z hz
        rcases List.mem_cons.mp hz with hz | hz
        · simp [hz]
        · simp [ihm.2 z hz]

theorem bfs_scan_inv (rn : RoadNetwork) (s current : Nat)
    (hcur : Reaches rn s current) :
    ∀ (nbrs frontier : List Nat) (cf : CameFrom),
      (∀ n ∈ nbrs, Adj rn current n) →
      (∀ x ∈ frontier, Reaches rn s x) → (∀ p ∈ cf, Reaches rn s p.1) →
      (∀ x ∈ (bfs_scan current nbrs frontier cf).1, Reaches rn s x) ∧
      (∀ p ∈ (bfs_scan current nbrs frontier cf).2, Reaches rn s p.1)
  | [], frontier, cf => by
    intro _ hf hc
    exact ⟨by simpa [bfs_scan] using hf, by simpa [bfs_scan] using hc⟩
  | nbr :: rest, frontier, cf => by
    intro hadj hf hc
    have hrest : ∀ n ∈ rest, Adj rn current n := fun n hn => hadj n (by simp [hn])
    by_cases hmem : (alookup cf nbr).isSome
    · simpa [bfs_scan, hmem] using
        bfs_scan_inv rn s current hcur rest frontier cf hrest hf hc
    · have hnbr : Reaches rn s nbr := hcur.tail (hadj nbr (by simp))
      have hf' : ∀ x ∈ frontier ++ [nbr], Reaches rn s x := by
        intro x hx
        rcases List.mem_append.mp hx with hx | hx
        · exact hf x hx
        · simp at hx; rw [hx]; exact hnbr
      have hc' : ∀ p ∈ cf ++ [(nbr, some current)], Reaches rn s p.1 := by
        intro p hp
        rcases List.mem_append.mp hp with hp | hp
        · exact hc p hp
        · simp at hp; rw [hp]; exact hnbr
      simpa [bfs_scan, hmem] using
        bfs_scan_inv rn s current hcur rest (frontier ++ [nbr])
          (cf ++ [(nbr, some current)]) hrest hf' hc'

theorem bfs_loop_inv (rn : RoadNetwork) (s e_vid : Nat) :
    ∀ (fuel : Nat) (frontier : List Nat) (cf cf' : CameFrom),
      (∀ x ∈ frontier, Reaches rn s x) → (∀ p ∈ cf, Reaches rn s p.1) →
      bfs_loop rn e_vid fuel frontier cf = .ok cf' →
      ∀ p ∈ cf', Reaches rn s p.1
  | 0, frontier, cf, cf' => by
    intro _ _ h
    simp [bfs_loop] at h
  | fuel + 1, frontier, cf, cf' => by
    intro hf hc h
    cases frontier with
    | nil =>
      simp [bfs_loop] at h
      rw [← h]; exact hc
    | cons current rest =>
      simp only [bfs_loop] at h
      by_cases he : current = e_vid
      · rw [if_pos he] at h
        cases h; exact hc
      · rw [if_neg he] at h
        cases hn : rn.get_neighbors current with
        | error err => rw [hn] at h; exact absurd h (by simp)
        | ok nbrs =>
          rw [hn] at h
          have hsi := bfs_scan_inv rn s current (hf current (by simp)) nbrs rest cf
            (get_neighbors_adj rn current nbrs hn)
            (fun x hx => hf x (by simp [hx])) hc
          exact bfs_loop_inv rn s e_vid fuel _ _ cf' hsi.1 hsi.2 h

theorem dijkstra_relax_inv (rn : RoadNetwork) (s current : Nat)
    (cost_cur : WithTop ℚ) (hcur : Reaches rn s current) :
    ∀ (nbrs : List Nat) (frontier : List (WithTop ℚ × Nat)) (cf : CameFrom)
      (cost : List (Nat × WithTop ℚ)) fr' cf' cost',
      (∀ n ∈ nbrs, Adj rn current n) →
      (∀ x ∈ frontier, Reaches rn s x.2) → (∀ p ∈ cf, Reaches rn s p.1) →
      dijkstra_relax rn current cost_cur nbrs frontier cf cost = .ok (fr', cf', cost') →
      (∀ x ∈ fr', Reaches rn s x.2) ∧ (∀ p ∈ cf', Reaches rn s p.1)
  | [], frontier, cf, cost, fr', cf', cost' => by
    intro _ hf hc h
    simp [dijkstra_relax] at h
    exact ⟨by rw [← h.1]; exact hf, by rw [← h.2.1]; exact hc⟩
  | nbr :: rest, frontier, cf, cost, fr', cf', cost' => by
    intro hadj hf hc h
    have hrest : ∀ n ∈ rest, Adj rn current n := fun n hn => hadj n (by simp [hn])
    simp only [dijkstra_relax] at h
    cases hw : rn.get_weight current nbr with
    | error err => rw [hw] at h; exact absurd h (by simp)
    | ok w =>
      rw [hw] at h
      simp only at h
      by_cases hrel : (match alookup cost nbr with
        | none => true
        | some c => decide (cost_cur + w < c)) = true
      · rw [if_pos hrel] at h
        have hnbr : Reaches rn s nbr := hcur.tail (hadj nbr (by simp))
        have hf' : ∀ x ∈ frontier ++ [(cost_cur + w, nbr)], Reaches rn s x.2 := by
          intro x hx
          rcases List.mem_append.mp hx with hx | hx
          · exact hf x hx
          · simp at hx; rw [hx]; exact hnbr
        have hc' : ∀ p ∈ aupdate cf nbr (some current), Reaches rn s p.1 := by
          intro p hp
          rcases mem_aupdate_key cf nbr (some current) p hp with hp | hp
          · rw [hp]; exact hnbr
          · exact hc p hp
        exact dijkstra_relax_inv rn s current cost_cur hcur rest _ _ _ fr' cf' cost'
          hrest hf' hc' h
      · rw [if_neg hrel] at h
        exact dijkstra_relax_inv rn s current cost_cur hcur rest _ _ _ fr' cf' cost'
          hrest hf hc h

theorem dijkstra_loop_inv (rn : RoadNetwork) (s e_vid : Nat) :
    ∀ (fuel : Nat) (frontier : List (WithTop ℚ × Nat)) (cf cf' : CameFrom)
      (cost : List (Nat × WithTop ℚ)),
      (∀ x ∈ frontier, Reaches rn s x.2) → (∀ p ∈ cf, Reaches rn s p.1) →
      dijkstra_loop rn e_vid fuel frontier cf cost = .ok cf' →
      ∀ p ∈ cf', Reaches rn s p.1
  | 0, frontier, cf, cf', cost => by
    intro _ _ h
    simp [dijkstra_loop] at h
  | fuel + 1, frontier, cf, cf', cost => by
    intro hf hc h
    simp only [dijkstra_loop] at h
    cases hpq : pq_get frontier with
    | none =>
      rw [hpq] at h
      simp only at h
      cases h; exact hc
    | some xr =>
      obtain ⟨⟨pri, current⟩, rest⟩ := xr
      rw [hpq] at h
      simp only at h
      have hmem := pq_get_mem frontier (pri, current) rest hpq
      have hcur : Reaches rn s current := hf _ hmem.1
      by_cases he : current = e_vid
      · rw [if_pos he] at h
        cases h; exact hc
      · rw [if_neg he] at h
        cases hn : rn.get_neighbors current with
        | error err => rw [hn] at h; exact absurd h (by simp)
        | ok nbrs =>
          rw [hn] at h
          simp only at h
          cases hcc : alookup cost current with
          | none => rw [hcc] at h; exact absurd h (by simp)
          | some cost_cur =>
            rw [hcc] at h
            simp only at h
            cases hrel : dijkstra_relax rn current cost_cur nbrs rest cf cost with
            | error err => rw [hrel] at h; exact absurd h (by simp)
            | ok st =>
              obtain ⟨fr', cf2, cost2⟩ := st
              rw [hrel] at h
              simp only at h
              have hri := dijkstra_relax_inv rn s current cost_cur hcur nbrs rest cf cost
                fr' cf2 cost2 (get_neighbors_adj rn current nbrs hn)
                (fun x hx => hf x (hmem.2 x hx)) hc hrel
              exact dijkstra_loop_inv rn s e_vid fuel fr' cf2 cf' cost2 hri.1 hri.2 h

theorem greedy_scan_inv (G : Geo) (rn : RoadNetwork) (s current e_vid : Nat)
    (hcur : Reaches rn s current) :
    ∀ (nbrs : List Nat) (frontier : List (WithTop ℚ × Nat)) (cf : CameFrom) fr' cf',
      (∀ n ∈ nbrs, Adj rn current n) →
      (∀ x ∈ frontier, Reaches rn s x.2) → (∀ p ∈ cf, Reaches rn s p.1) →
      greedy_scan G rn current e_vid nbrs frontier cf = .ok (fr', cf') →
      (∀ x ∈ fr', Reaches rn s x.2) ∧ (∀ p ∈ cf', Reaches rn s p.1)
  | [], frontier, cf, fr', cf' => by
    intro _ hf hc h
    simp [greedy_scan] at h
    exact ⟨by rw [← h.1]; exact hf, by rw [← h.2]; exact hc⟩
  | nbr :: rest, frontier, cf, fr', cf' => by
    intro hadj hf hc h
    have hrest : ∀ n ∈ rest, Adj rn current n := fun n hn => hadj n (by simp [hn])
    simp only [greedy_scan] at h
    by_cases hmem : (alookup cf nbr).isSome
    · rw [if_pos hmem] at h
      exact greedy_scan_inv G rn s current e_vid hcur rest frontier cf fr' cf'
        hrest hf hc h
    · rw [if_neg hmem] at h
      cases hsd : rn.get_straight_distance G nbr e_vid with
      | error err => rw [hsd] at h; exact absurd h (by simp)
      | ok pr =>
        rw [hsd] at h
        have hnbr : Reaches rn s nbr := hcur.tail (hadj nbr (by simp))
        have hf' : ∀ x ∈ frontier ++ [((pr : WithTop ℚ), nbr)], Reaches rn s x.2 := by
          intro x hx
          rcases List.mem_append.mp hx with hx | hx
          · exact hf x hx
          · simp at hx; rw [hx]; exact hnbr
        have hc' : ∀ p ∈ cf ++ [(nbr, some current)], Reaches rn s p.1 := by
          intro p hp
          rcases List.mem_append.mp hp with hp | hp
          · exact hc p hp
          · simp at hp; rw [hp]; exact hnbr
        exact greedy_scan_inv G rn s current e_vid hcur rest _ _ fr' cf'
          hrest hf' hc' h

theorem greedy_loop_inv (G : Geo) (rn : RoadNetwork) (s e_vid : Nat) :
    ∀ (fuel : Nat) (frontier : List (WithTop ℚ × Nat)) (cf cf' : CameFrom),
      (∀ x ∈ frontier, Reaches rn s x.2) → (∀ p ∈ cf, Reaches rn s p.1) →
      greedy_loop G rn e_vid fuel frontier cf = .ok cf' →
      ∀ p ∈ cf', Reaches rn s p.1
  | 0, frontier, cf, cf' => by
    intro _ _ h
    simp [greedy_loop] at h
  | fuel + 1, frontier, cf, cf' => by
    intro hf hc h
    simp only [greedy_loop] at h
    cases hpq : pq_get frontier with
    | none =>
      rw [hpq] at h
      simp only at h
      cases h; exact hc
    | some xr =>
      obtain ⟨⟨pri, current⟩, rest⟩ := xr
      rw [hpq] at h
      simp only at h
      have hmem := pq_get_mem frontier (pri, current) rest hpq
      have hcur : Reaches rn s current := hf _ hmem.1
      by_cases he : current = e_vid
      · rw [if_pos he] at h
        cases h; exact hc
      · rw [if_neg he] at h
        cases hn : rn.get_neighbors current with
        | error err => rw [hn] at h; exact absurd h (by simp)
        | ok nbrs =>
          rw [hn] at h
          simp only at h
          cases hsc : greedy_scan G rn current e_vid nbrs rest cf with
          | error err => rw [hsc] at h; exact absurd h (by simp)
          | ok st =>
            obtain ⟨fr', cf2⟩ := st
            rw [hsc] at h
            simp only at h
            have hsi := greedy_scan_inv G rn s current e_vid hcur nbrs rest cf fr' cf2
              (get_neighbors_adj rn current nbrs hn)
              (fun x hx => hf x (hmem.2 x hx)) hc hsc
            exact greedy_loop_inv G rn s e_vid fuel fr' cf2 cf' hsi.1 hsi.2 h

theorem astar_relax_inv (G : Geo) (rn : RoadNetwork) (s current e_vid : Nat)
    (cost_cur : WithTop ℚ) (hcur : Reaches rn s current) :
    ∀ (nbrs : List Nat) (frontier : List (WithTop ℚ × Nat)) (cf : CameFrom)
      (cost : List (Nat × WithTop ℚ)) fr' cf' cost',
      (∀ n ∈ nbrs, Adj rn current n) →
      (∀ x ∈ frontier, Reaches rn s x.2) → (∀ p ∈ cf, Reaches rn s p.1) →
      astar_relax G rn current e_vid cost_cur nbrs frontier cf cost = .ok (fr', cf', cost') →
      (∀ x ∈ fr', Reaches rn s x.2) ∧ (∀ p ∈ cf', Reaches rn s p.1)
  | [], frontier, cf, cost, fr', cf', cost' => by
    intro _ hf hc h
    simp [astar_relax] at h
    exact ⟨by rw [← h.1]; exact hf, by rw [← h.2.1]; exact hc⟩
  | nbr :: rest, frontier, cf, cost, fr', cf', cost' => by
    intro hadj hf hc h
    have hrest : ∀ n ∈ rest, Adj rn current n := fun n hn => hadj n (by simp [hn])
    simp only [astar_relax] at h
    cases hw : rn.get_weight current nbr with
    | error err => rw [hw] at h; exact absurd h (by simp)
    | ok w =>
      rw [hw] at h
      simp only at h
      by_cases hrel : (match alookup cost nbr with
        | none => true
        | some c => decide (cost_cur + w < c)) = true
      · rw [if_pos hrel] at h
        cases hsd : rn.get_straight_distance G nbr e_vid with
        | error err => rw [hsd] at h; exact absurd h (by simp)
        | ok hv =>
          rw [hsd] at h
          have hnbr : Reaches rn s nbr := hcur.tail (hadj nbr (by simp))
          have hf' : ∀ x ∈ frontier ++ [(cost_cur + w + (hv : WithTop ℚ), nbr)],
              Reaches rn s x.2 := by
            intro x hx
            rcases List.mem_append.mp hx with hx | hx
            · exact hf x hx
            · simp at hx; rw [hx]; exact hnbr
          have hc' : ∀ p ∈ aupdate cf nbr (some current), Reaches rn s p.1 := by
            intro p hp
            rcases mem_aupdate_key cf nbr (some current) p hp with hp | hp
            · rw [hp]; exact hnbr
            · exact hc p hp
          exact astar_relax_inv G rn s current e_vid cost_cur hcur rest _ _ _
            fr' cf' cost' hrest hf' hc' h
      · rw [if_neg hrel] at h
        exact astar_relax_inv G rn s current e_vid cost_cur hcur rest _ _ _
          fr' cf' cost' hrest hf hc h

theorem astar_loop_inv (G : Geo) (rn : RoadNetwork) (s e_vid : Nat) :
    ∀ (fuel : Nat) (frontier : List (WithTop ℚ × Nat)) (cf cf' : CameFrom)
      (cost : List (Nat × WithTop ℚ)),
      (∀ x ∈ frontier, Reaches rn s x.2) → (∀ p ∈ cf, Reaches rn s p.1) →
      astar_loop G rn e_vid fuel frontier cf cost = .ok cf' →
      ∀ p ∈ cf', Reaches rn s p.1
  | 0, frontier, cf, cf', cost => by
    intro _ _ h
    simp [astar_loop] at h
  | fuel + 1, frontier, cf, cf', cost => by
    intro hf hc h
    simp only [astar_loop] at h
    cases hpq : pq_get frontier with
    | none =>
      rw [hpq] at h
      simp only at h
      cases h; exact hc
    | some xr =>
      obtain ⟨⟨pri, current⟩, rest⟩ := xr
      rw [hpq] at h
      simp only at h
      have hmem := pq_get_mem frontier (pri, current) rest hpq
      have hcur : Reaches rn s current := hf _ hmem.1
      by_cases he : current = e_vid
      · rw [if_pos he] at h
        cases h; exact hc
      · rw [if_neg he] at h
        cases hn : rn.get_neighbors current with
        | error err => rw [hn] at h; exact absurd h (by simp)
        | ok nbrs =>
          rw [hn] at h
          simp only at h
          cases hcc : alookup cost current with
          | none => rw [hcc] at h; exact absurd h (by simp)
          | some cost_cur =>
            rw [hcc] at h
            simp only at h
            cases hrel : astar_relax G rn current e_vid cost_cur nbrs rest cf cost with
            | error err => rw [hrel] at h; exact absurd h (by simp)
            | ok st =>
              obtain ⟨fr', cf2, cost2⟩ := st
              rw [hrel] at h
              simp only at h
              have hri := astar_relax_inv G rn s current e_vid cost_cur hcur nbrs rest
                cf cost fr' cf2 cost2 (get_neighbors_adj rn current nbrs hn)
                (fun x hx => hf x (hmem.2 x hx)) hc hrel
              exact astar_loop_inv G rn s e_vid fuel fr' cf2 cf' cost2 hri.1 hri.2 h

theorem construct_path_unreachable (rn : RoadNetwork) (s_vid e_vid : Nat)
    (cf : CameFrom) (fuel : Nat) (hs : e_vid ≠ s_vid)
    (hcf : alookup cf e_vid = none) (hfuel : fuel ≠ 0) :
    construct_path rn s_vid e_vid cf fuel = .ok ⟨[], [], 0⟩ := by
  obtain ⟨f, rfl⟩ : ∃ f, fuel = f + 1 := ⟨fuel - 1, by omega⟩
  simp [construct_path, construct_path_walk, hs, hcf, construct_edges]

/-- C7: for each of the four searches, if the target is unreachable from
the source, any terminating run returns the `Path` with empty vertex list,
empty edge list and distance 0. -/
theorem C7_unreachable_empty_path (G : Geo) (rn : RoadNetwork)
    (s_vid e_vid fuel : Nat) (p : Path) (hur : ¬ Reaches rn s_vid e_vid)
    (h : bfs rn s_vid e_vid fuel = .ok p ∨
         dijkstra rn s_vid e_vid fuel = .ok p ∨
         greedy_bfs G rn s_vid e_vid fuel = .ok p ∨
         get_shortest_path G rn s_vid e_vid fuel = .ok p) :
    p.vertex_list = [] ∧ p.edge_list = [] ∧ p.distance = 0 := by
  have hs : e_vid ≠ s_vid := by
    intro hh
    exact hur (hh ▸ Relation.ReflTransGen.refl)
  have hfin : ∀ cf' : CameFrom, (∀ q ∈ cf', Reaches rn s_vid q.1) → fuel ≠ 0 →
      construct_path rn s_vid e_vid cf' fuel = .ok p →
      p.vertex_list = [] ∧ p.edge_list = [] ∧ p.distance = 0 := by
    intro cf' hcf hfuel hcp
    have hnone : alookup cf' e_vid = none := by
      cases hl : alookup cf' e_vid with
      | none => rfl
      | some q => exact absurd (hcf _ (alookup_mem cf' e_vid q hl)) hur
    rw [construct_path_unreachable rn s_vid e_vid cf' fuel hs hnone hfuel] at hcp
    cases hcp
    exact ⟨rfl, rfl, rfl⟩
  have hs0 : Reaches rn s_vid s_vid := Relation.ReflTransGen.refl
  rcases h with h | h | h | h
  · unfold bfs at h
    cases hl : bfs_loop rn e_vid fuel [s_vid] [(s_vid, none)] with
    | error err => rw [hl] at h; exact absurd h (by simp)
    | ok cf =>
      rw [hl] at h
      have hfuel : fuel ≠ 0 := by
        intro hz; rw [hz] at hl; simp [bfs_loop] at hl
      exact hfin cf (bfs_loop_inv rn s_vid e_vid fuel [s_vid] [(s_vid, none)] cf
        (by intro x hx; simp at hx; rw [hx]; exact hs0)
        (by intro q hq; simp at hq; rw [hq]; exact hs0) hl) hfuel h
  · unfold dijkstra at h
    cases hl : dijkstra_loop rn e_vid fuel [(0, s_vid)] [(s_vid, none)] [(s_vid, 0)] with
    | error err => rw [hl] at h; exact absurd h (by simp)
    | ok cf =>
      rw [hl] at h
      have hfuel : fuel ≠ 0 := by
        intro hz; rw [hz] at hl; simp [dijkstra_loop] at hl
      exact hfin cf (dijkstra_loop_inv rn s_vid e_vid fuel [(0, s_vid)] [(s_vid, none)] cf
        [(s_vid, 0)]
        (by intro x hx; simp at hx; rw [hx]; exact hs0)
        (by intro q hq; simp at hq; rw [hq]; exact hs0) hl) hfuel h
  · unfold greedy_bfs at h
    cases hl : greedy_loop G rn e_vid fuel [(0, s_vid)] [(s_vid, none)] with
    | error err => rw [hl] at h; exact absurd h (by simp)
    | ok cf =>
      rw [hl] at h
      have hfuel : fuel ≠ 0 := by
        intro hz; rw [hz] at hl; simp [greedy_loop] at hl
      exact hfin cf (greedy_loop_inv G rn s_vid e_vid fuel [(0, s_vid)] [(s_vid, none)] cf
        (by intro x hx; simp at hx; rw [hx]; exact hs0)
        (by intro q hq; simp at hq; rw [hq]; exact hs0) hl) hfuel h
  · unfold get_shortest_path at h
    cases hl : astar_loop G rn e_vid fuel [(0, s_vid)] [(s_vid, none)] [(s_vid, 0)] with
    | error err => rw [hl] at h; exact absurd h (by simp)
    | ok cf =>
      rw [hl] at h
      have hfuel : fuel ≠ 0 := by
        intro hz; rw [hz] at hl; simp [astar_loop] at hl
      exact hfin cf (astar_loop_inv G rn s_vid e_vid fuel [(0, s_vid)] [(s_vid, none)] cf
        [(s_vid, 0)]
        (by intro x hx; simp at hx; rw [hx]; exact hs0)
        (by intro q hq; simp at hq; rw [hq]; exact hs0) hl) hfuel h

/-- Two isolated vertices: 1 is unreachable from 0. -/
def wrn : RoadNetwork :=
  (RoadNetwork.empty.add_vertex 0 (some 0) (some 0)).add_vertex 1 (some 1) (some 1)

theorem wrn_unreachable : ¬ Reaches wrn 0 1 := by
  intro h
  rcases Relation.ReflTransGen.cases_head h with h01 | ⟨c, hadj, _⟩
  · exact absurd h01 (by decide)
  · obtain ⟨v, hv, hmem⟩ := hadj
    have hv0 : alookup wrn.vertex_set 0 =
        some (mkVertex 0 (mkLocation (some 0) (some 0))) := by rfl
    rw [hv0] at hv
    cases hv
    simp [mkVertex] at hmem

/-- Trivial geometry oracle for witnesses. -/
def geo0 : Geo := ⟨fun _ _ => 0, fun _ _ => 0, fun p _ _ => (p.lat, p.lon)⟩

/-- Witness for C7 on a concrete two-vertex road network with no edges. -/
theorem C7_unreachable_empty_path_witness :
    (⟨[], [], 0⟩ : Path).vertex_list = [] ∧
    (⟨[], [], 0⟩ : Path).edge_list = [] ∧
    (⟨[], [], 0⟩ : Path).distance = 0 :=
  C7_unreachable_empty_path geo0 wrn 0 1 5 ⟨[], [], 0⟩ wrn_unreachable
    (Or.inl (by decide))

/-! ## src/spatio_temporal_index.py — grid cells and the database -/

/-- Python `set.add` on a vertex-id set, modelled as an insertion-ordered
duplicate-free list (iteration order of a Python set is opaque; no claim
depends on it beyond argmin tie-breaks, which the spec leaves open). -/
def setAdd (l : List Nat) (x : Nat) : List Nat := if x ∈ l then l else l ++ [x]

/-- `GridCell` from src/spatio_temporal_index.py. `taxi_list` maps a taxi id
to the (absolute) time the taxi is predicted to enter the cell. -/
structure GridCell : Type where
  geohash : String
  center_location : Location
  anchor : Option Nat
  vertex_list : List Nat
  spatial_grid_list : List (String × ℚ)
  temporal_grid_list : List (String × ℚ)
  taxi_list : List (Nat × ℚ)
deriving DecidableEq

/-- `GridCell.__init__` (center from `geo_decode`). -/
def mkGridCell (g : String) : GridCell :=
  ⟨g, mkLocation (some (geo_decode g).1) (some (geo_decode g).2), none, [], [], [], []⟩

/-- `GridCell.remove_taxi`: `taxi_list.pop(taxi_id)` raises KeyError when
the taxi is not registered. -/
def GridCell.remove_taxi (c : GridCell) (taxi_id : Nat) : Except PyError GridCell :=
  if (alookup c.taxi_list taxi_id).isSome then
    .ok { c with taxi_list := aremove c.taxi_list taxi_id }
  else .error .keyError

/-- `GridCell.add_taxi`. -/
def GridCell.add_taxi (c : GridCell) (taxi_id : Nat) (t_arrive : ℚ) : GridCell :=
  { c with taxi_list := aupdate c.taxi_list taxi_id t_arrive }

/-- `MatrixCell` from src/spatio_temporal_index.py. -/
structure MatrixCell : Type where
  d : ℚ
  t : ℚ
deriving DecidableEq

/-- `SpatioTemporalDatabase` from src/spatio_temporal_index.py. -/
structure SpatioTemporalDatabase : Type where
  num_grid : Nat
  grid : List (String × GridCell)
  grid_distance_matrix : List (String × List (String × MatrixCell))
deriving DecidableEq

/-- `SpatioTemporalDatabase.__init__` with no arguments. -/
def SpatioTemporalDatabase.empty : SpatioTemporalDatabase := ⟨0, [], []⟩

/-- One iteration of `SpatioTemporalDatabase.load_road_network`: create the
vertex's geohash cell if absent, then insert the vertex id. -/
def load_road_network_step (db : SpatioTemporalDatabase) (p : Nat × Vertex) :
    SpatioTemporalDatabase :=
  let geohash := p.2.get_geohash
  match alookup db.grid geohash with
  | none =>
    let cell := mkGridCell geohash
    let cell := { cell with vertex_list := setAdd cell.vertex_list p.1 }
    { db with grid := aupdate db.grid geohash cell, num_grid := db.num_grid + 1 }
  | some cell =>
    let cell' := { cell with vertex_list := setAdd cell.vertex_list p.1 }
    { db with grid := aupdate db.grid geohash cell' }

/-- `SpatioTemporalDatabase.load_road_network`: scan all vertices (in
insertion order) and create grid cells. -/
def SpatioTemporalDatabase.load_road_network (db : SpatioTemporalDatabase)
    (rn : RoadNetwork) : SpatioTemporalDatabase :=
  rn.vertex_set.foldl load_road_network_step db

/-- `SpatioTemporalDatabase.init_dynamic_info`: register every taxi's id in
its current cell with the simulation start time; raises KeyError when a
taxi's cell is not in the grid. (The `taxis` argument carries just the
`(id, geohash)` projection the loop reads.) -/
def SpatioTemporalDatabase.init_dynamic_info (db : SpatioTemporalDatabase)
    (taxis : List (Nat × String)) (start_time : ℚ) :
    Except PyError SpatioTemporalDatabase :=
  match taxis with
  | [] => .ok db
  | (identifier, geohash) :: rest =>
    match alookup db.grid geohash with
    | none => .error .keyError
    | some cell =>
      SpatioTemporalDatabase.init_dynamic_info
        { db with grid := aupdate db.grid geohash (cell.add_taxi identifier start_time) }
        rest start_time

/-! ## src/routing.py — ScheduleNode and map_match -/

/-- `ScheduleNode` from src/routing.py. -/
structure ScheduleNode : Type where
  query_id : Nat
  is_origin : Bool
  matched_vid : Option Nat
deriving DecidableEq

/-- The scan of `map_match`: keep the vertex of the cell closest to the
location (`min_dis` starts at `float('inf')`); `get_vertex` returning
`None` raises AttributeError on `.location`. -/
def map_match_scan (G : Geo) (rn : RoadNetwork) (location : Location) :
    List Nat → Option Nat → WithTop ℚ → Except PyError (Option Nat)
  | [], best, _ => .ok best
  | v_id :: rest, best, min_dis =>
    match rn.get_vertex v_id with
    | none => .error .attributeError
    | some vertex =>
      let dis := G.dist vertex.location location
      if (dis : WithTop ℚ) < min_dis then
        map_match_scan G rn location rest (some v_id) (dis : WithTop ℚ)
      else map_match_scan G rn location rest best min_dis

/-- `map_match(query_id, location, is_origin, road_network, database)` from
src/routing.py. `database.grid[geohash]` raises KeyError when the
location's cell does not exist. -/
def map_match (G : Geo) (query_id : Nat) (location : Location)
    (is_origin : Bool) (rn : RoadNetwork) (db : SpatioTemporalDatabase) :
    Except PyError ScheduleNode :=
  match alookup db.grid location.geohash with
  | none => .error .keyError
  | some cell =>
    match map_match_scan G rn location cell.vertex_list none ⊤ with
    | .error err => .error err
    | .ok matched_vid => .ok ⟨query_id, is_origin, matched_vid⟩

/-! ## src/query.py — TimeWindow and Query -/

/-- `TimeWindow` from src/query.py. -/
structure TimeWindow : Type where
  early : ℚ
  late : ℚ
deriving DecidableEq

/-- The four query status constants of src/constants.py. -/
inductive QStatus : Type
  | waiting : QStatus
  | riding : QStatus
  | satisfied : QStatus
  | cancelled : QStatus
deriving DecidableEq

/-- `Query` from src/query.py. The two schedule nodes are those installed
by `init_schedule_node` before the simulation runs (they default to `None`
in `__init__`; every query entering `Simulation.run` has them set). -/
structure Query : Type where
  id : Nat
  timestamp : ℚ
  origin : Location
  destination : Location
  o_geohash : String
  d_geohash : String
  o_schedule_node : ScheduleNode
  d_schedule_node : ScheduleNode
  pickup_window : TimeWindow
  delivery_window : TimeWindow
  matched_taxi : Option Nat
  status : QStatus
  waiting_time : ℚ
deriving DecidableEq

/-- `Query.__init__` (with the schedule nodes of `init_schedule_node`). -/
def mkQuery (identifier : Nat) (timestamp : ℚ) (origin destination : Location)
    (o_node d_node : ScheduleNode) : Query :=
  ⟨identifier, timestamp, origin, destination,
   geo_encode origin.lat origin.lon PRECISION,
   geo_encode destination.lat destination.lon PRECISION,
   o_node, d_node, ⟨timestamp, timestamp + PATIENCE⟩,
   ⟨timestamp, timestamp + MAX_INT⟩, none, .waiting, 0⟩

/-- `Query.update_status` (including `Query.cancel`): a WAITING query ages
by one step and is cancelled once the time passes `pickup_window.late`. -/
def Query.update_status (q : Query) (timestamp : ℚ) : Query :=
  if q.status = .waiting then
    let q := { q with waiting_time := q.waiting_time + 1 }
    if q.pickup_window.late < timestamp then { q with status := .cancelled } else q
  else q

/-! ## src/taxi.py — the Taxi record -/

/-- `Taxi` from src/taxi.py (fields of `__init__`; `num_riders` is a Python
int so it is `ℤ` here). `serving_queries` stores query ids — the shared query objects live in the query set. -/
structure Taxi : Type where
  id : Nat
  speed : ℚ
  capacity : ℤ
  location : Location
  geohash : String
  num_riders : ℤ
  schedule : List ScheduleNode
  route : Option Path
  serving_queries : List Nat
  v_id : Option Nat
  e_id : Option Nat
  eid_index : Option Nat
  driving_distance : ℚ
deriving DecidableEq

/-- `Taxi.__init__` with the default speed/capacity. -/
def mkTaxi (identifier : Nat) (location : Location) : Taxi :=
  ⟨identifier, AVERAGE_SPEED, TAXI_CAPACITY, location,
   geo_encode location.lat location.lon PRECISION, 0, [], none, [], none,
   none, none, 0⟩

/-- `Taxi.is_available`: fewer riders than capacity AND non-empty schedule. -/
def Taxi.is_available (t : Taxi) : Bool :=
  decide (t.num_riders < t.capacity) && decide (t.schedule.length ≠ 0)

/-- `Taxi.update_route`: route from the taxi's current vertex (or the just
popped node's vertex) to the head of the schedule, through A*. A `None`
vertex id on either side is modelled as a TypeError: in Python a `None`
start crashes inside the search and a `None` goal crashes in the heuristic
(the searches are only reached with map-matched, hence non-`None`, ids). -/
def Taxi.update_route (G : Geo) (rn : RoadNetwork) (fuel : Nat) (t : Taxi)
    (schedule_node : Option ScheduleNode) : Except PyError Taxi :=
  match t.schedule with
  | [] => .ok { t with route := none }
  | first :: _ =>
    let from_vid :=
      match schedule_node with
      | none => t.v_id
      | some n => n.matched_vid
    match from_vid, first.matched_vid with
    | some f, some tv =>
      match get_shortest_path G rn f tv fuel with
      | .error err => .error err
      | .ok path =>
        match path.edge_list with
        | [] => .ok { t with route := some path }
        | e0 :: _ => .ok { t with route := some path, e_id := e0, eid_index := some 0 }
    | _, _ => .error .typeError

/-- `Taxi.__update_pos`: move to the new position; when the geohash
changes, remove the taxi from the old cell's taxi list and register it in
the entered cell with the current timestamp (both by direct grid
subscripting, which raises KeyError on a missing cell or unregistered
taxi). -/
def Taxi.update_pos (t : Taxi) (timestamp : ℚ) (new_pos : Location)
    (db : SpatioTemporalDatabase) :
    Except PyError (Taxi × SpatioTemporalDatabase) :=
  let t := { t with location := new_pos }
  let next_geohash := geo_encode new_pos.lat new_pos.lon PRECISION
  if next_geohash = t.geohash then .ok (t, db)
  else
    match alookup db.grid t.geohash with
    | none => .error .keyError
    | some old_cell =>
      match old_cell.remove_taxi t.id with
      | .error err => .error err
      | .ok old_cell' =>
        let db' := { db with grid := aupdate db.grid t.geohash old_cell' }
        match alookup db'.grid next_geohash with
        | none => .error .keyError
        | some new_cell =>
          let new_cell' := new_cell.add_taxi t.id timestamp
          let db'' := { db' with grid := aupdate db'.grid next_geohash new_cell' }
          .ok ({ t with geohash := next_geohash }, db'')

/-! ## src/dispatcher.py — candidate search and scheduling -/

/-- The cell walk of `Dispatcher.__single_side_search`: stop at the first
temporal-list entry with `t_ij + timestamp > pickup_window.late`; from each
earlier entry's cell collect the taxis with `t_ij + eta ≤ late`. -/
def single_side_search_cells (db : SpatioTemporalDatabase) (timestamp : ℚ)
    (late : ℚ) : List (String × ℚ) → Except PyError (List Nat)
  | [] => .ok []
  | (grid_id, t_ij) :: rest =>
    if late < t_ij + timestamp then .ok []
    else
      match alookup db.grid grid_id with
      | none => .error .keyError
      | some grid =>
        let here := grid.taxi_list.filterMap
          (fun te => if t_ij + te.2 ≤ late then some te.1 else none)
        match single_side_search_cells db timestamp late rest with
        | .error err => .error err
        | .ok more => .ok (here ++ more)

/-- `Dispatcher.__single_side_search(timestamp, query, database)`. -/
def single_side_search (timestamp : ℚ) (q : Query)
    (db : SpatioTemporalDatabase) : Except PyError (List Nat) :=
  match alookup db.grid q.o_geohash with
  | none => .error .keyError
  | some o_cell =>
    single_side_search_cells db timestamp q.pickup_window.late
      o_cell.temporal_grid_list

/-- The selection loop of `Dispatcher.__schedule`: skip unavailable taxis;
keep the taxi with the strictly smallest great-circle distance to the
query origin (`min_dis` starts at `MAX_INT`, `picked` at the first
candidate). -/
def schedule_pick (G : Geo) (q : Query) (taxi_set : List (Nat × Taxi)) :
    List Nat → Nat → ℚ → Except PyError Nat
  | [], picked, _ => .ok picked
  | taxi_id :: rest, picked, min_dis =>
    match alookup taxi_set taxi_id with
    | none => .error .keyError
    | some taxi =>
      if taxi.is_available then
        let dis := G.dist taxi.location q.origin
        if dis < min_dis then schedule_pick G q taxi_set rest taxi_id dis
        else schedule_pick G q taxi_set rest picked min_dis
      else schedule_pick G q taxi_set rest picked min_dis

/-- `Dispatcher.__schedule(query, candi_taxi_list, taxi_set, road_network)`:
returns the success flag together with the updated query (matched taxi)
and taxi set (appended schedule pair, recomputed route). On an empty
candidate list nothing is modified. -/
def dispatcher_schedule (G : Geo) (rn : RoadNetwork) (fuel : Nat) (q : Query)
    (candi_taxi_list : List Nat) (taxi_set : List (Nat × Taxi)) :
    Except PyError (Bool × Query × List (Nat × Taxi)) :=
  match candi_taxi_list with
  | [] => .ok (false, q, taxi_set)
  | first :: _ =>
    match schedule_pick G q taxi_set candi_taxi_list first MAX_INT with
    | .error err => .error err
    | .ok picked_taxi_id =>
      match alookup taxi_set picked_taxi_id with
      | none => .error .keyError
      | some picked_taxi =>
        let q' := { q with matched_taxi := some picked_taxi_id }
        let picked_taxi := { picked_taxi with
          schedule := picked_taxi.schedule ++ [q'.o_schedule_node, q'.d_schedule_node] }
        match picked_taxi.update_route G rn fuel none with
        | .error err => .error err
        | .ok picked_taxi' =>
          .ok (true, q', aupdate taxi_set picked_taxi_id picked_taxi')

/-! ## Claim C3: the single-side candidate search -/

/-- The single-side search written from the claim's words (refinement
spec side): keep the prefix of the temporal grid list strictly before the
first entry with `t_ij + timestamp > pickup_window.late`, and from each
kept entry's cell include exactly the registered taxis `(taxi_id, eta)`
with `t_ij + eta ≤ late`. -/
def single_side_search_words (db : SpatioTemporalDatabase)
    (timestamp late : ℚ) (tgl : List (String × ℚ)) : List Nat :=
  (tgl.takeWhile (fun it => it.2 + timestamp ≤ late)).flatMap
    (fun it =>
      match alookup db.grid it.1 with
      | none => []
      | some grid => grid.taxi_list.filterMap
          (fun te => if it.2 + te.2 ≤ late then some te.1 else none))

theorem single_side_search_cells_eq_words (db : SpatioTemporalDatabase)
    (timestamp late : ℚ) :
    ∀ tgl : List (String × ℚ),
      (∀ it ∈ tgl.takeWhile (fun it => it.2 + timestamp ≤ late),
        (alookup db.grid it.1).isSome) →
      single_side_search_cells db timestamp late tgl =
        .ok (single_side_search_words db timestamp late tgl)
  | [] => by
    intro _
    simp [single_side_search_cells, single_side_search_words]
  | (grid_id, t_ij) :: rest => by
    intro hpres
    by_cases hstop : late < t_ij + timestamp
    · have hpred : ¬ (t_ij + timestamp ≤ late) := not_le.mpr hstop
      simp [single_side_search_cells, single_side_search_words, hstop, hpred]
    · have hpred : t_ij + timestamp ≤ late := not_lt.mp hstop
      have hhead : (alookup db.grid grid_id).isSome := by
        apply hpres (grid_id, t_ij)
        simp [List.takeWhile, hpred]
      cases hg : alookup db.grid grid_id with
      | none => rw [hg] at hhead; simp at hhead
      | some grid =>
        have hrest : ∀ it ∈ rest.takeWhile (fun it => it.2 + timestamp ≤ late),
            (alookup db.grid it.1).isSome := by
          intro it hit
          apply hpres it
          simp [List.takeWhile, hpred]
          exact Or.inr hit
        have ih := single_side_search_cells_eq_words db timestamp late rest hrest
        simp only [single_side_search_cells, single_side_search_words]
        rw [if_neg hstop, hg, ih]
        simp only [single_side_search_words]
        have : List.takeWhile (fun it => decide (it.2 + timestamp ≤ late))
            ((grid_id, t_ij) :: rest) =
            (grid_id, t_ij) :: List.takeWhile (fun it => decide (it.2 + timestamp ≤ late)) rest := by
          simp [List.takeWhile, hpred]
        rw [this, List.flatMap_cons, hg]

/-- C3: with the origin cell present and every cell of the kept prefix
present in the grid (as the loaded grid guarantees), the code's
single-side search returns exactly the taxis described by the spec: walk
the temporal list in stored (ascending) order, stop at the first entry
with `t_ij + timestamp > pickup_window.late`, and from each earlier entry
keep exactly the registered taxis with `t_ij + eta ≤ late`. -/
theorem C3_single_side_search_exact (timestamp : ℚ) (q : Query)
    (db : SpatioTemporalDatabase) (o_cell : GridCell)
    (hcell : alookup db.grid q.o_geohash = some o_cell)
    (hpres : ∀ it ∈ o_cell.temporal_grid_list.takeWhile
        (fun it => it.2 + timestamp ≤ q.pickup_window.late),
      (alookup db.grid it.1).isSome) :
    single_side_search timestamp q db =
      .ok (single_side_search_words db timestamp q.pickup_window.late
        o_cell.temporal_grid_list) := by
  unfold single_side_search
  rw [hcell]
  exact single_side_search_cells_eq_words db timestamp q.pickup_window.late
    o_cell.temporal_grid_list hpres

/-- A concrete location for witnesses (latitude 0, longitude 0). -/
def loc0 : Location := mkLocation (some 0) (some 0)

/-- A schedule-node pair for witnesses. -/
def node0 : ScheduleNode := ⟨7, true, some 0⟩

def node0d : ScheduleNode := ⟨7, false, some 0⟩

/-- Witness query: patience window `[0, 300]`, origin geohash key `g0`. -/
def wq : Query :=
  ⟨7, 0, loc0, loc0, "g0", "g0", node0, node0d, ⟨0, 300⟩, ⟨0, MAX_INT⟩,
   none, .waiting, 0⟩

/-- Witness database for C3: the origin cell `g0` has temporal neighbors
`g0` (0 s), `g1` (100 s) and `g2` (400 s); the 400 s entry is past the
patience bound and is cut off together with its taxi. -/
def wdb : SpatioTemporalDatabase :=
  ⟨3,
   [("g0", ⟨"g0", loc0, none, [0], [], [("g0", 0), ("g1", 100), ("g2", 400)],
      [(1, 5)]⟩),
    ("g1", ⟨"g1", loc0, none, [0], [], [], [(2, 250), (3, 150)]⟩),
    ("g2", ⟨"g2", loc0, none, [0], [], [], [(4, 0)]⟩)], []⟩

/-- Witness for C3 at a concrete database: taxi 2 (ETA 250, via the 100 s
cell: 350 > 300) and taxi 4 (in the 400 s cell) are excluded; taxis 1 and
3 are kept. -/
theorem C3_single_side_search_exact_witness :
    single_side_search 0 wq wdb =
      .ok (single_side_search_words wdb 0 wq.pickup_window.late
        (⟨"g0", loc0, none, [0], [], [("g0", 0), ("g1", 100), ("g2", 400)],
          [(1, 5)]⟩ : GridCell).temporal_grid_list) :=
  C3_single_side_search_exact 0 wq wdb _ (by decide) (by decide)

/-! ## Claim C5: map-matching an endpoint whose cell has no vertices -/

theorem setAdd_ne_nil (l : List Nat) (x : Nat) : setAdd l x ≠ [] := by
  unfold setAdd
  by_cases h : x ∈ l
  · simp [h]
    intro hl
    rw [hl] at h
    simp at h
  · simp [h]

theorem load_step_cells_nonempty (db : SpatioTemporalDatabase)
    (p : Nat × Vertex) (hdb : ∀ c ∈ db.grid, c.2.vertex_list ≠ []) :
    ∀ c ∈ (load_road_network_step db p).grid, c.2.vertex_list ≠ [] := by
  intro c hc
  simp only [load_road_network_step] at hc
  cases hg : alookup db.grid p.2.get_geohash with
  | none =>
    rw [hg] at hc
    simp only at hc
    rcases mem_aupdate _ _ _ c hc with h | h
    · exact hdb c h
    · rw [h]; simpa using setAdd_ne_nil _ _
  | some cell =>
    rw [hg] at hc
    simp only at hc
    rcases mem_aupdate _ _ _ c hc with h | h
    · exact hdb c h
    · rw [h]; simpa using setAdd_ne_nil _ _

theorem load_cells_nonempty :
    ∀ (l : List (Nat × Vertex)) (db : SpatioTemporalDatabase),
      (∀ c ∈ db.grid, c.2.vertex_list ≠ []) →
      ∀ c ∈ (l.foldl load_road_network_step db).grid, c.2.vertex_list ≠ []
  | [], db => by intro hdb; simpa using hdb
  | p :: rest, db => by
    intro hdb
    simpa using load_cells_nonempty rest (load_road_network_step db p)
      (load_step_cells_nonempty db p hdb)

theorem map_match_scan_isSome (G : Geo) (rn : RoadNetwork) (location : Location) :
    ∀ (lst : List Nat) (best : Option Nat) (min_dis : WithTop ℚ) (r : Option Nat),
      best.isSome → map_match_scan G rn location lst best min_dis = .ok r →
      r.isSome
  | [], best, min_dis, r => by
    intro hb h
    simp [map_match_scan] at h
    rw [← h]; exact hb
  | v_id :: rest, best, min_dis, r => by
    intro hb h
    simp only [map_match_scan] at h
    cases hv : rn.get_vertex v_id with
    | none => rw [hv] at h; exact absurd h (by simp)
    | some vertex =>
      rw [hv] at h
      simp only at h
      by_cases hlt : (G.dist vertex.location location : WithTop ℚ) < min_dis
      · rw [if_pos hlt] at h
        exact map_match_scan_isSome G rn location rest _ _ r (by simp) h
      · rw [if_neg hlt] at h
        exact map_match_scan_isSome G rn location rest _ _ r hb h

theorem map_match_scan_ok (G : Geo) (rn : RoadNetwork) (location : Location) :
    ∀ (lst : List Nat) (best : Option Nat) (min_dis : WithTop ℚ),
      (∀ v ∈ lst, (rn.get_vertex v).isSome) →
      ∃ r, map_match_scan G rn location lst best min_dis = .ok r
  | [], best, min_dis => by
    intro _
    exact ⟨best, by simp [map_match_scan]⟩
  | v_id :: rest, best, min_dis => by
    intro hres
    have hv : (rn.get_vertex v_id).isSome := hres v_id (by simp)
    cases hvx : rn.get_vertex v_id with
    | none => rw [hvx] at hv; simp at hv
    | some vertex =>
      have hrest : ∀ v ∈ rest, (rn.get_vertex v).isSome :=
        fun v hv' => hres v (by simp [hv'])
      simp only [map_match_scan]
      rw [hvx]
      simp only []
      by_cases hlt : (G.dist vertex.location location : WithTop ℚ) < min_dis
      · rw [if_pos hlt]
        exact map_match_scan_ok G rn location rest _ _ hrest
      · rw [if_neg hlt]
        exact map_match_scan_ok G rn location rest _ _ hrest

/-- C5, amended: (i) after `load_road_network` every grid cell holds at
least one vertex (so an endpoint cell "with no vertices" is one that is
absent from the grid); (ii) on an absent cell `map_match` raises KeyError
(`database.grid[geohash]`), it does not return a `ScheduleNode`; (iii) on
a present (hence non-empty) cell whose vertices resolve, `map_match`
returns a node whose matched vertex id is always `some` vertex. -/
theorem C5_map_match_empty_cell (G : Geo) (rn : RoadNetwork) :
    (∀ (db : SpatioTemporalDatabase),
      (∀ c ∈ db.grid, c.2.vertex_list ≠ []) →
      ∀ c ∈ (db.load_road_network rn).grid, c.2.vertex_list ≠ []) ∧
    (∀ (db : SpatioTemporalDatabase) (query_id : Nat) (location : Location)
      (is_origin : Bool), alookup db.grid location.geohash = none →
      map_match G query_id location is_origin rn db = .error .keyError) ∧
    (∀ (db : SpatioTemporalDatabase) (query_id : Nat) (location : Location)
      (is_origin : Bool) (cell : GridCell),
      alookup db.grid location.geohash = some cell →
      cell.vertex_list ≠ [] →
      (∀ v ∈ cell.vertex_list, (rn.get_vertex v).isSome) →
      ∃ node, map_match G query_id location is_origin rn db = .ok node ∧
        node.matched_vid.isSome = true ∧ node.query_id = query_id ∧
        node.is_origin = is_origin) := by
  refine ⟨?_, ?_, ?_⟩
  · intro db hdb
    exact load_cells_nonempty rn.vertex_set db hdb
  · intro db query_id location is_origin habs
    unfold map_match
    rw [habs]
  · intro db query_id location is_origin cell hcell hne hres
    have hmm : map_match G query_id location is_origin rn db =
        (match map_match_scan G rn location cell.vertex_list none ⊤ with
         | .error err => .error err
         | .ok mv => .ok ⟨query_id, is_origin, mv⟩) := by
      unfold map_match
      rw [hcell]
    cases hl : cell.vertex_list with
    | nil => exact absurd hl hne
    | cons v rest =>
      rw [hl] at hmm
      have hv : (rn.get_vertex v).isSome := by
        apply hres; rw [hl]; simp
      cases hvx : rn.get_vertex v with
      | none => rw [hvx] at hv; simp at hv
      | some vertex =>
        have hscan1 : map_match_scan G rn location (v :: rest) none ⊤ =
            map_match_scan G rn location rest (some v)
              ((G.dist vertex.location location : WithTop ℚ)) := by
          simp only [map_match_scan]
          rw [hvx]
          simp only []
          rw [if_pos (WithTop.coe_lt_top _)]
        rw [hscan1] at hmm
        cases hs : map_match_scan G rn location rest (some v)
            ((G.dist vertex.location location : WithTop ℚ)) with
        | error err =>
          obtain ⟨r, hr⟩ := map_match_scan_ok G rn location rest (some v)
            ((G.dist vertex.location location : WithTop ℚ))
            (fun v' hv' => hres v' (by rw [hl]; simp [hv']))
          rw [hr] at hs
          exact absurd hs (by simp)
        | ok mv =>
          rw [hs] at hmm
          have hms : mv.isSome :=
            map_match_scan_isSome G rn location rest (some v) _ mv (by simp) hs
          exact ⟨⟨query_id, is_origin, mv⟩, hmm, hms, rfl, rfl⟩

/-- One-vertex road network at the origin for the C5 counterexample. -/
def c5rn : RoadNetwork := RoadNetwork.empty.add_vertex 0 (some 0) (some 0)

/-- The loaded database of `c5rn`: one cell, at the origin's geohash. -/
def c5db : SpatioTemporalDatabase :=
  SpatioTemporalDatabase.empty.load_road_network c5rn

/-- A query endpoint far from every vertex: its geohash cell holds no
vertices, hence is absent from the loaded grid. -/
def c5loc : Location := mkLocation (some 50) (some 50)

/-- C5 counterexample: on an endpoint whose cell has no vertices the code
raises KeyError inside `map_match` (`database.grid[geohash]`); it does not
return a `ScheduleNode` with a `none` matched vertex id. -/
theorem C5_map_match_raises_cex :
    map_match geo0 7 c5loc true c5rn c5db = .error .keyError ∧
    ∀ node : ScheduleNode, map_match geo0 7 c5loc true c5rn c5db ≠ .ok node :=
  ⟨by decide, by intro node h; rw [show map_match geo0 7 c5loc true c5rn c5db =
      .error .keyError from by decide] at h; exact absurd h (by simp)⟩

/-- The single grid cell of `c5db` (the origin's geohash under this
code's strict-inequality encoder is the string 7zzzz). -/
def c5cell : GridCell := { mkGridCell ("7zzzz") with vertex_list := [0] }

/-- Witness for C5 (iii is exercised on the loaded one-cell database at
the vertex's own location; i and ii at the same database). -/
theorem C5_map_match_empty_cell_witness :
    (∀ c ∈ (SpatioTemporalDatabase.empty.load_road_network c5rn).grid,
      c.2.vertex_list ≠ []) ∧
    map_match geo0 7 c5loc true c5rn c5db = .error .keyError ∧
    ∃ node, map_match geo0 7 loc0 true c5rn c5db = .ok node ∧
      node.matched_vid.isSome = true ∧ node.query_id = 7 ∧
      node.is_origin = true :=
  ⟨(C5_map_match_empty_cell geo0 c5rn).1 SpatioTemporalDatabase.empty
      (by decide),
   (C5_map_match_empty_cell geo0 c5rn).2.1 c5db 7 c5loc true (by decide),
   (C5_map_match_empty_cell geo0 c5rn).2.2 c5db 7 loc0 true c5cell (by decide)
      (by decide) (by decide)⟩

/-! ## Claim C10: the grid transfer in `Taxi.__update_pos` -/

theorem alookup_eq_none_of_not_mem {κ α : Type} [DecidableEq κ] :
    ∀ (l : List (κ × α)) (k : κ), k ∉ l.map (·.1) → alookup l k = none
  | [], _ => by intro _; rfl
  | (k', v') :: rest, k => by
    intro h
    have hk : k' ≠ k := by
      intro hh
      exact h (by simp [hh])
    have hrest : k ∉ rest.map (·.1) := by
      intro hh
      exact h (by simp; right; simpa using hh)
    simp only [alookup]
    rw [if_neg hk]
    exact alookup_eq_none_of_not_mem rest k hrest

theorem alookup_aremove_self {κ α : Type} [DecidableEq κ] :
    ∀ (l : List (κ × α)) (k : κ), (l.map (·.1)).Nodup →
      alookup (aremove l k) k = none
  | [], _ => by intro _; rfl
  | (k', v') :: rest, k => by
    intro hnd
    rw [List.map_cons] at hnd
    have h1 : k' ∉ rest.map (·.1) := (List.nodup_cons.mp hnd).1
    have h2 : (rest.map (·.1)).Nodup := (List.nodup_cons.mp hnd).2
    by_cases hk : k' = k
    · subst hk
      simp only [aremove, if_pos rfl]
      exact alookup_eq_none_of_not_mem rest k' h1
    · simp only [aremove, if_neg hk, alookup]
      exact alookup_aremove_self rest k h2

theorem alookup_aupdate_isSome {κ α : Type} [DecidableEq κ]
    (l : List (κ × α)) (k g : κ) (v : α) :
    (alookup (aupdate l k v) g).isSome ↔ g = k ∨ (alookup l g).isSome := by
  by_cases h : g = k
  · subst h
    simp [alookup_aupdate_self]
  · rw [alookup_aupdate_ne l k g v (fun hh => h hh.symm)]
    simp [h]

theorem load_step_key_isSome (db : SpatioTemporalDatabase) (p : Nat × Vertex)
    (g : String) :
    (alookup (load_road_network_step db p).grid g).isSome ↔
      (alookup db.grid g).isSome ∨ p.2.get_geohash = g := by
  simp only [load_road_network_step]
  cases hg : alookup db.grid p.2.get_geohash with
  | none =>
    simp only
    rw [alookup_aupdate_isSome]
    constructor
    · rintro (h | h)
      · right; exact h.symm
      · left; exact h
    · rintro (h | h)
      · right; exact h
      · left; exact h.symm
  | some cell =>
    simp only
    rw [alookup_aupdate_isSome]
    constructor
    · rintro (h | h)
      · right; exact h.symm
      · left; exact h
    · rintro (h | h)
      · right; exact h
      · left; exact h.symm

theorem load_key_isSome :
    ∀ (l : List (Nat × Vertex)) (db : SpatioTemporalDatabase) (g : String),
      (alookup (l.foldl load_road_network_step db).grid g).isSome ↔
        (alookup db.grid g).isSome ∨ ∃ p ∈ l, p.2.get_geohash = g
  | [], db, g => by simp
  | p :: rest, db, g => by
    rw [List.foldl_cons, load_key_isSome rest _ g, load_step_key_isSome]
    constructor
    · rintro ((h | h) | ⟨q, hq, hg⟩)
      · exact Or.inl h
      · exact Or.inr ⟨p, by simp, h⟩
      · exact Or.inr ⟨q, by simp [hq], hg⟩
    · rintro (h | ⟨q, hq, hg⟩)
      · exact Or.inl (Or.inl h)
      · rcases List.mem_cons.mp hq with hq | hq
        · subst hq; exact Or.inl (Or.inr hg)
        · exact Or.inr ⟨q, hq, hg⟩

/-- Closed form of the geohash-change branch of `Taxi.__update_pos` when
every lookup succeeds. -/
theorem update_pos_eq (t : Taxi) (timestamp : ℚ) (new_pos : Location)
    (db : SpatioTemporalDatabase) (oc nc : GridCell)
    (hne : geo_encode new_pos.lat new_pos.lon PRECISION ≠ t.geohash)
    (hoc : alookup db.grid t.geohash = some oc)
    (hmem : (alookup oc.taxi_list t.id).isSome)
    (hnc : alookup db.grid (geo_encode new_pos.lat new_pos.lon PRECISION) = some nc) :
    t.update_pos timestamp new_pos db =
      .ok ({ t with location := new_pos, geohash := geo_encode new_pos.lat new_pos.lon PRECISION }, { db with grid := aupdate (aupdate db.grid t.geohash ({ oc with taxi_list := aremove oc.taxi_list t.id })) (geo_encode new_pos.lat new_pos.lon PRECISION) (nc.add_taxi t.id timestamp) }) := by
  unfold Taxi.update_pos
  rw [if_neg hne, hoc]
  simp only
  unfold GridCell.remove_taxi
  rw [if_pos hmem]
  simp only
  rw [alookup_aupdate_ne db.grid t.geohash
    (geo_encode new_pos.lat new_pos.lon PRECISION) _ (fun hh => hne hh.symm), hnc]

theorem update_pos_err1 (t : Taxi) (timestamp : ℚ) (new_pos : Location)
    (db : SpatioTemporalDatabase)
    (hne : geo_encode new_pos.lat new_pos.lon PRECISION ≠ t.geohash)
    (hoc : alookup db.grid t.geohash = none) :
    t.update_pos timestamp new_pos db = .error .keyError := by
  unfold Taxi.update_pos
  rw [if_neg hne, hoc]

theorem update_pos_err2 (t : Taxi) (timestamp : ℚ) (new_pos : Location)
    (db : SpatioTemporalDatabase) (oc : GridCell)
    (hne : geo_encode new_pos.lat new_pos.lon PRECISION ≠ t.geohash)
    (hoc : alookup db.grid t.geohash = some oc)
    (hmem : alookup oc.taxi_list t.id = none) :
    t.update_pos timestamp new_pos db = .error .keyError := by
  unfold Taxi.update_pos
  rw [if_neg hne, hoc]
  simp only
  unfold GridCell.remove_taxi
  rw [hmem]
  simp

theorem update_pos_err3 (t : Taxi) (timestamp : ℚ) (new_pos : Location)
    (db : SpatioTemporalDatabase) (oc : GridCell)
    (hne : geo_encode new_pos.lat new_pos.lon PRECISION ≠ t.geohash)
    (hoc : alookup db.grid t.geohash = some oc)
    (hmem : (alookup oc.taxi_list t.id).isSome)
    (hnc : alookup db.grid (geo_encode new_pos.lat new_pos.lon PRECISION) = none) :
    t.update_pos timestamp new_pos db = .error .keyError := by
  unfold Taxi.update_pos
  rw [if_neg hne, hoc]
  simp only
  unfold GridCell.remove_taxi
  rw [if_pos hmem]
  simp only
  rw [alookup_aupdate_ne db.grid t.geohash
    (geo_encode new_pos.lat new_pos.lon PRECISION) _ (fun hh => hne hh.symm), hnc]

/-- C10: the grid transfer in `Taxi.__update_pos`. (i) Without a geohash
change only the position moves. (ii) With a change, the update succeeds
exactly when the taxi's current geohash is a grid key whose cell holds the
taxi's id in its taxi list and the entered geohash is a grid key. (iii) On
success the taxi is removed from the old cell's taxi list and registered
in the new cell's with the current timestamp. (iv) A geohash is a key of
the loaded grid exactly when some road-network vertex hashes to it, so
every grid cell comes from at least one vertex. -/
theorem C10_update_pos_grid_transfer (t : Taxi) (timestamp : ℚ)
    (new_pos : Location) (db : SpatioTemporalDatabase) :
    (geo_encode new_pos.lat new_pos.lon PRECISION = t.geohash →
      t.update_pos timestamp new_pos db = .ok ({ t with location := new_pos }, db)) ∧
    (geo_encode new_pos.lat new_pos.lon PRECISION ≠ t.geohash →
      ((∃ res, t.update_pos timestamp new_pos db = .ok res) ↔
        ((∃ oc, alookup db.grid t.geohash = some oc ∧
            (alookup oc.taxi_list t.id).isSome) ∧
          (alookup db.grid (geo_encode new_pos.lat new_pos.lon PRECISION)).isSome))) ∧
    (∀ t' db', geo_encode new_pos.lat new_pos.lon PRECISION ≠ t.geohash →
      t.update_pos timestamp new_pos db = .ok (t', db') →
      t'.geohash = geo_encode new_pos.lat new_pos.lon PRECISION ∧
      t'.location = new_pos ∧
      (∀ oc, alookup db.grid t.geohash = some oc →
        (oc.taxi_list.map (fun p => p.1)).Nodup →
        ∃ oc2, alookup db'.grid t.geohash = some oc2 ∧
          alookup oc2.taxi_list t.id = none) ∧
      (∃ nc2, alookup db'.grid (geo_encode new_pos.lat new_pos.lon PRECISION) = some nc2 ∧
        alookup nc2.taxi_list t.id = some timestamp)) ∧
    (∀ (rn : RoadNetwork) (g : String),
      (alookup (SpatioTemporalDatabase.empty.load_road_network rn).grid g).isSome ↔
        ∃ p ∈ rn.vertex_set, p.2.get_geohash = g) := by
  refine ⟨?_, ?_, ?_, ?_⟩
  · intro h
    simp [Taxi.update_pos, h]
  · intro hne
    constructor
    · rintro ⟨res, hres⟩
      cases hoc : alookup db.grid t.geohash with
      | none =>
        rw [update_pos_err1 t timestamp new_pos db hne hoc] at hres
        exact absurd hres (by simp)
      | some oc =>
        cases hmem : alookup oc.taxi_list t.id with
        | none =>
          rw [update_pos_err2 t timestamp new_pos db oc hne hoc hmem] at hres
          exact absurd hres (by simp)
        | some eta =>
          cases hnc : alookup db.grid (geo_encode new_pos.lat new_pos.lon PRECISION) with
          | none =>
            rw [update_pos_err3 t timestamp new_pos db oc hne hoc (by simp [hmem]) hnc] at hres
            exact absurd hres (by simp)
          | some nc =>
            exact ⟨⟨oc, rfl, by simp [hmem]⟩, by simp⟩
    · rintro ⟨⟨oc, hoc, hmem⟩, hnc⟩
      obtain ⟨nc, hnc⟩ := Option.isSome_iff_exists.mp hnc
      exact ⟨_, update_pos_eq t timestamp new_pos db oc nc hne hoc hmem hnc⟩
  · intro t' db' hne hres
    cases hoc : alookup db.grid t.geohash with
    | none =>
      rw [update_pos_err1 t timestamp new_pos db hne hoc] at hres
      exact absurd hres (by simp)
    | some oc =>
      cases hmem : alookup oc.taxi_list t.id with
      | none =>
        rw [update_pos_err2 t timestamp new_pos db oc hne hoc hmem] at hres
        exact absurd hres (by simp)
      | some eta =>
        cases hnc : alookup db.grid (geo_encode new_pos.lat new_pos.lon PRECISION) with
        | none =>
          rw [update_pos_err3 t timestamp new_pos db oc hne hoc (by simp [hmem]) hnc] at hres
          exact absurd hres (by simp)
        | some nc =>
          rw [update_pos_eq t timestamp new_pos db oc nc hne hoc (by simp [hmem]) hnc] at hres
          simp only [Except.ok.injEq, Prod.mk.injEq] at hres
          obtain ⟨ht, hdb⟩ := hres
          refine ⟨by rw [← ht], by rw [← ht], ?_, ?_⟩
          · intro oc0 hoc0 hnd
            injection hoc0 with hh
            subst hh
            refine ⟨{ oc with taxi_list := aremove oc.taxi_list t.id }, ?_, ?_⟩
            · rw [← hdb]
              simp only
              rw [alookup_aupdate_ne _ _ _ _ hne, alookup_aupdate_self]
            · exact alookup_aremove_self oc.taxi_list t.id hnd
          · refine ⟨nc.add_taxi t.id timestamp, ?_, ?_⟩
            · rw [← hdb]
              simp only
              rw [alookup_aupdate_self]
            · unfold GridCell.add_taxi
              simp only
              rw [alookup_aupdate_self]
  · intro rn g
    unfold SpatioTemporalDatabase.load_road_network
    rw [load_key_isSome]
    simp [SpatioTemporalDatabase.empty, alookup]

/-- Concrete cell, taxi and database for the C10 witness: the taxi sits in
cell `g0` (registered there) and drives to the origin, whose cell under the
embedded encoder is `7zzzz`; both are grid keys. -/
def c10cell : GridCell := ⟨"g0", loc0, none, [0], [], [], [(21, 0)]⟩

def c10t : Taxi := ⟨21, 7, 1, loc0, "g0", 0, [], none, [], none, none, none, 0⟩

def c10db : SpatioTemporalDatabase :=
  ⟨2, [("g0", c10cell), ("7zzzz", mkGridCell ("7zzzz"))], []⟩

/-- Witness for C10: with both cells present and the taxi registered, the
geohash-changing update succeeds. -/
theorem C10_update_pos_grid_transfer_witness :
    ∃ res, c10t.update_pos 4 loc0 c10db = .ok res :=
  ((C10_update_pos_grid_transfer c10t 4 loc0 c10db).2.1 (by decide)).mpr
    ⟨⟨c10cell, by decide, by decide⟩, by decide⟩

/-! ## src/taxi.py — pickup, dropoff, motion; src/simulation.py — the step -/

/-- `Taxi.serve_query`: the query boards — status RIDING, the query id
enters `serving_queries`, `num_riders` increments. -/
def Taxi.serve_query (t : Taxi) (q : Query) : Taxi × Query :=
  ({ t with serving_queries := setAdd t.serving_queries q.id,
            num_riders := t.num_riders + 1 },
   { q with status := .riding })

/-- `Taxi.satisfy_query`: the query alights — the status is set to
SATISFIED, then `serving_queries.pop(query.id)` runs; when the id is not
registered the pop raises KeyError, so the error value carries the state
at the raise: the taxi untouched (in particular `num_riders` NOT yet
decremented) and the query already marked SATISFIED. -/
def Taxi.satisfy_query (t : Taxi) (q : Query) :
    Except (Taxi × Query) (Taxi × Query) :=
  let q' := { q with status := .satisfied }
  if q.id ∈ t.serving_queries then
    .ok ({ t with serving_queries := t.serving_queries.erase q.id,
                  num_riders := t.num_riders - 1 }, q')
  else .error (t, q')

/-- `Taxi.__get_next_eid` against the given route: `None` at the last
edge; a `None` index raises TypeError, an out-of-range one IndexError. -/
def Taxi.get_next_eid (t : Taxi) (route : Path) :
    Except PyError (Option (Option Nat)) :=
  match t.eid_index with
  | none => .error .typeError
  | some i =>
    if i = route.edge_list.length - 1 then .ok none
    else
      match route.edge_list.get? (i + 1) with
      | none => .error .indexError
      | some oe => .ok (some oe)

/-- The removal loop in `Taxi.drive` for a cancelled query: pop the first
schedule item with the query's id. -/
def remove_first_node : List ScheduleNode → Nat → List ScheduleNode
  | [], _ => []
  | n :: rest, qid => if n.query_id = qid then rest else n :: remove_first_node rest qid

/-- The edge walk of `SpatioTemporalDatabase.update_taxi_list`: record the
predicted entry time `timestamp + dis / AVERAGE_SPEED` at every geohash
boundary of the new route. -/
def update_taxi_list_loop (rn : RoadNetwork) (taxi_id : Nat) (timestamp : ℚ) :
    List (Option Nat) → String → ℚ → SpatioTemporalDatabase →
    Except PyError SpatioTemporalDatabase
  | [], _, _, db => .ok db
  | e_id :: rest, cur_geohash, dis, db =>
    match rn.get_edge e_id with
    | none => .error .attributeError
    | some next_edge =>
      match rn.get_vertex next_edge.end_vid with
      | none => .error .attributeError
      | some end_vertex =>
        let next_geohash := end_vertex.get_geohash
        let dis' := dis + next_edge.weight
        if next_geohash ≠ cur_geohash then
          match alookup db.grid next_geohash with
          | none => .error .keyError
          | some cell =>
            let cell' := cell.add_taxi taxi_id (timestamp + dis' / AVERAGE_SPEED)
            update_taxi_list_loop rn taxi_id timestamp rest next_geohash dis'
              { db with grid := aupdate db.grid next_geohash cell' }
        else
          update_taxi_list_loop rn taxi_id timestamp rest cur_geohash dis' db

/-- `SpatioTemporalDatabase.update_taxi_list(timestamp, taxi, route,
road_network)` (the taxi contributes only its id). -/
def SpatioTemporalDatabase.update_taxi_list (db : SpatioTemporalDatabase)
    (timestamp : ℚ) (taxi_id : Nat) (route : Option Path) (rn : RoadNetwork) :
    Except PyError SpatioTemporalDatabase :=
  match route with
  | none => .ok db
  | some r =>
    if r.edge_list.length = 0 then .ok db
    else
      match r.vertex_list with
      | [] => .error .indexError
      | cur_vid :: _ =>
        match rn.get_vertex cur_vid with
        | none => .error .attributeError
        | some v =>
          update_taxi_list_loop rn taxi_id timestamp r.edge_list v.get_geohash 0 db

/-- `Dispatcher` from src/dispatcher.py with queries flattened to ids:
`failed_queries` is the FIFO retry queue, `waiting_queries` the
dispatched-and-waiting map's key set, the last two are append-only logs. -/
structure Dispatcher : Type where
  failed_queries : List Nat
  waiting_queries : List Nat
  completed_queries : List Nat
  cancelled_queries : List Nat
deriving DecidableEq

/-- The mutable simulation state of `Simulation.run`: the arrival priority
queue (timestamp-keyed ids), the query heap, the taxi set, the
spatio-temporal database and the dispatcher. -/
structure SimState : Type where
  query_queue : List (ℚ × Nat)
  query_set : List (Nat × Query)
  taxi_set : List (Nat × Taxi)
  db : SpatioTemporalDatabase
  dispatcher : Dispatcher
deriving DecidableEq

/-- Route recomputation and index notification at the end of the arrival
branch of `Taxi.drive`. -/
def drive_finish (G : Geo) (rn : RoadNetwork) (fuel : Nat) (timestamp : ℚ)
    (st : SimState) (tid : Nat) (t : Taxi) (node : ScheduleNode) :
    Except PyError SimState :=
  match t.update_route G rn fuel (some node) with
  | .error err => .error err
  | .ok t' =>
    match st.db.update_taxi_list timestamp t'.id t'.route rn with
    | .error err => .error err
    | .ok db' =>
      .ok { st with taxi_set := aupdate st.taxi_set tid t', db := db' }

/-- The arrival branch of `Taxi.drive`: pop the head schedule node; an
origin node of a WAITING query boards it (and leaves the dispatcher's
waiting map), an origin node of a non-WAITING (cancelled) query deletes
the query's destination node instead; a destination node drops the query
off and logs completion. Then recompute the route and notify the index. -/
def drive_arrival (G : Geo) (rn : RoadNetwork) (fuel : Nat) (timestamp : ℚ)
    (st : SimState) (tid : Nat) (t : Taxi) : Except PyError SimState :=
  match t.schedule with
  | [] => .error .indexError
  | node :: restSched =>
    let t := { t with schedule := restSched }
    match alookup st.query_set node.query_id with
    | none => .error .keyError
    | some q =>
      if node.is_origin then
        if q.status = .waiting then
          match t.serve_query q with
          | (t', q') =>
            if q'.id ∈ st.dispatcher.waiting_queries then
              let disp := { st.dispatcher with waiting_queries := st.dispatcher.waiting_queries.erase q'.id }
              let st' := { st with query_set := aupdate st.query_set node.query_id q', dispatcher := disp }
              drive_finish G rn fuel timestamp st' tid t' node
            else .error .keyError
        else
          drive_finish G rn fuel timestamp st tid
            { t with schedule := remove_first_node t.schedule q.id } node
      else
        match t.satisfy_query q with
        | .error _ => .error .keyError
        | .ok (t', q') =>
          let disp := { st.dispatcher with completed_queries := st.dispatcher.completed_queries ++ [q'.id] }
          let st' := { st with query_set := aupdate st.query_set node.query_id q', dispatcher := disp }
          drive_finish G rn fuel timestamp st' tid t' node

/-- `Taxi.drive(timestamp, road_network, dispatcher, query_set, database)`
for the taxi stored under `tid`. -/
def drive (G : Geo) (rn : RoadNetwork) (fuel : Nat) (timestamp : ℚ)
    (st : SimState) (tid : Nat) : Except PyError SimState :=
  match alookup st.taxi_set tid with
  | none => .error .keyError
  | some t0 =>
    match t0.route with
    | none => .ok st
    | some route =>
      if route.edge_list.length = 0 then .ok st
      else
        let d := t0.speed * TIME_STEP
        let t := { t0 with driving_distance := t0.driving_distance + d }
        match rn.get_edge t.e_id with
        | none => .error .attributeError
        | some cur_edge =>
          match rn.get_vertex cur_edge.end_vid with
          | none => .error .attributeError
          | some to_vertex =>
            let to_location := to_vertex.location
            let theta := G.bearingOf t.location to_location
            let next_pos := end_pos G t.location theta d
            match rn.get_vertex cur_edge.start_vid with
            | none => .error .attributeError
            | some e_start_vertex =>
              let edge_offset := G.dist e_start_vertex.location next_pos
              if edge_offset < cur_edge.weight then
                match t.update_pos timestamp next_pos st.db with
                | .error err => .error err
                | .ok (t', db') =>
                  .ok { st with taxi_set := aupdate st.taxi_set tid t', db := db' }
              else
                match t.update_pos timestamp to_location st.db with
                | .error err => .error err
                | .ok (t1, db1) =>
                  let t2 := { t1 with v_id := some cur_edge.end_vid }
                  match t2.get_next_eid route with
                  | .error err => .error err
                  | .ok (some next_eid) =>
                    let t3 := { t2 with e_id := next_eid, eid_index := t2.eid_index.map (· + 1) }
                    .ok { st with taxi_set := aupdate st.taxi_set tid t3, db := db1 }
                  | .ok none =>
                    drive_arrival G rn fuel timestamp { st with db := db1 } tid t2

/-- `Dispatcher.dispatch_taxi(timestamp, query, database, taxi_set,
road_network)`: candidate search, scheduling, and bookkeeping into the
waiting map or the failed queue. -/
def dispatch_taxi (G : Geo) (rn : RoadNetwork) (fuel : Nat) (timestamp : ℚ)
    (st : SimState) (qid : Nat) : Except PyError SimState :=
  match alookup st.query_set qid with
  | none => .error .keyError
  | some q =>
    match single_side_search timestamp q st.db with
    | .error err => .error err
    | .ok candi =>
      match dispatcher_schedule G rn fuel q candi st.taxi_set with
      | .error err => .error err
      | .ok (flag, q', taxis') =>
        let st' := { st with query_set := aupdate st.query_set qid q', taxi_set := taxis' }
        if flag then
          let disp := { st'.dispatcher with waiting_queries := setAdd st'.dispatcher.waiting_queries q'.id }
          .ok { st' with dispatcher := disp }
        else
          let disp := { st'.dispatcher with failed_queries := st'.dispatcher.failed_queries ++ [q'.id] }
          .ok { st' with dispatcher := disp }

/-- The arrival drain of `Simulation.run`: pop the queue while the head's
timestamp equals the current time; the first other query is pushed back
and the loop breaks. -/
def drain_arrivals (query_set : List (Nat × Query)) (timestamp : ℚ) :
    Nat → List (ℚ × Nat) → List (ℚ × Nat) →
    Except PyError (List (ℚ × Nat) × List (ℚ × Nat))
  | 0, _, _ => .error .outOfFuel
  | fuel + 1, queue, work =>
    match pq_get queue with
    | none => .ok (queue, work)
    | some ((_, qid), rest) =>
      match alookup query_set qid with
      | none => .error .keyError
      | some q =>
        if q.timestamp = timestamp then
          drain_arrivals query_set timestamp fuel rest (work ++ [(q.timestamp, qid)])
        else
          .ok (rest ++ [(q.timestamp, qid)], work)

/-- The failed-query drain of `Simulation.run` (FIFO into the per-step
work queue, keyed by each query's own timestamp). -/
def move_failed (query_set : List (Nat × Query)) :
    List Nat → List (ℚ × Nat) → Except PyError (List (ℚ × Nat))
  | [], work => .ok work
  | qid :: rest, work =>
    match alookup query_set qid with
    | none => .error .keyError
    | some q => move_failed query_set rest (work ++ [(q.timestamp, qid)])

/-- The processing loop of `Simulation.run`: pop the work queue; record a
cancellation, or dispatch. -/
def process_work (G : Geo) (rn : RoadNetwork) (fuel : Nat) (timestamp : ℚ) :
    Nat → List (ℚ × Nat) → SimState → Except PyError SimState
  | 0, _, _ => .error .outOfFuel
  | wf + 1, work, st =>
    match pq_get work with
    | none => .ok st
    | some ((_, qid), rest) =>
      match alookup st.query_set qid with
      | none => .error .keyError
      | some q =>
        if q.status = .cancelled then
          let disp := { st.dispatcher with cancelled_queries := st.dispatcher.cancelled_queries ++ [qid] }
          process_work G rn fuel timestamp wf rest { st with dispatcher := disp }
        else
          match dispatch_taxi G rn fuel timestamp st qid with
          | .error err => .error err
          | .ok st' => process_work G rn fuel timestamp wf rest st'

/-- The status-update pass of `Simulation.run`: every WAITING query that
has arrived ages (and may get cancelled). -/
def update_statuses (timestamp : ℚ) (qs : List (Nat × Query)) :
    List (Nat × Query) :=
  qs.map (fun p =>
    if p.2.timestamp ≤ timestamp ∧ p.2.status = .waiting then
      (p.1, p.2.update_status timestamp)
    else p)

/-- The motion pass of `Simulation.run`: drive every taxi once, in taxi-set
order. -/
def drive_all (G : Geo) (rn : RoadNetwork) (fuel : Nat) (timestamp : ℚ) :
    List Nat → SimState → Except PyError SimState
  | [], st => .ok st
  | tid :: rest, st =>
    match drive G rn fuel timestamp st tid with
    | .error err => .error err
    | .ok st' => drive_all G rn fuel timestamp rest st'

/-- One timestep of `Simulation.run`: drain this step's arrivals and the
failed queue into the work queue, process it (dispatching), update query
statuses, then move every taxi. -/
def sim_step (G : Geo) (rn : RoadNetwork) (fuel : Nat) (timestamp : ℚ)
    (st : SimState) : Except PyError SimState :=
  match drain_arrivals st.query_set timestamp (st.query_queue.length + 1)
      st.query_queue [] with
  | .error err => .error err
  | .ok (queue', work) =>
    match move_failed st.query_set st.dispatcher.failed_queries work with
    | .error err => .error err
    | .ok work' =>
      let st1 := { st with query_queue := queue', dispatcher := { st.dispatcher with failed_queries := [] } }
      match process_work G rn fuel timestamp (work'.length + 1) work' st1 with
      | .error err => .error err
      | .ok st2 =>
        let st3 := { st2 with query_set := update_statuses timestamp st2.query_set }
        drive_all G rn fuel timestamp (st3.taxi_set.map (·.1)) st3

/-! ## Run invariants of the simulation

The schedule of a taxi is always a sequence of adjacent (origin,
destination) pairs — `__schedule` appends both nodes of one query
consecutively — possibly preceded by the destination node of the single
onboard query whose origin was already popped. These shapes, together
with "every serving query is RIDING", "serving sets are pairwise
disjoint" and the well-formedness of the query heap, are preserved by a
simulation step and are what claims C2, C4 and C8 rest on. -/

/-- Adjacent (origin, destination) pairs of single queries. -/
def Paired : List ScheduleNode → Bool
  | [] => true
  | [_] => false
  | o :: d :: rest =>
    o.is_origin && !d.is_origin && decide (o.query_id = d.query_id) && Paired rest

/-- The schedule/serving shape of one taxi: no rider and a paired
schedule, or exactly one rider whose destination node heads the
schedule. -/
def scheduleShape (t : Taxi) : Bool :=
  match t.serving_queries, t.schedule with
  | [], sched => Paired sched
  | [qid], d :: rest => !d.is_origin && decide (d.query_id = qid) && Paired rest
  | _, _ => false

/-- Every query a taxi is serving is present and RIDING. -/
def servingRiding (qs : List (Nat × Query)) (serving : List Nat) : Bool :=
  serving.all (fun qid =>
    match alookup qs qid with
    | some q => decide (q.status = .riding)
    | none => false)

/-- Per-taxi invariant. -/
def taxiWF (qs : List (Nat × Query)) (t : Taxi) : Bool :=
  decide (1 ≤ t.capacity) &&
  decide (t.num_riders = (t.serving_queries.length : ℤ)) &&
  scheduleShape t && servingRiding qs t.serving_queries

/-- Serving sets of distinct taxis are pairwise disjoint. -/
def disjointServing : List (Nat × Taxi) → Bool
  | [] => true
  | p :: rest =>
    rest.all (fun p' =>
      p.2.serving_queries.all (fun qid => decide (qid ∉ p'.2.serving_queries))) &&
    disjointServing rest

/-- Query-heap well-formedness: keys match ids and the two map-matched
schedule nodes carry the query's id and the right origin flag. -/
def queryWF (p : Nat × Query) : Bool :=
  decide (p.2.id = p.1) && p.2.o_schedule_node.is_origin &&
  decide (p.2.o_schedule_node.query_id = p.2.id) &&
  !p.2.d_schedule_node.is_origin && decide (p.2.d_schedule_node.query_id = p.2.id)

/-- The core invariant over a query heap and a taxi set. -/
def InvQT (qs : List (Nat × Query)) (ts : List (Nat × Taxi)) : Bool :=
  ts.all (fun p => taxiWF qs p.2) && disjointServing ts && qs.all queryWF

/-- The simulation-state invariant (established by construction —
`gen_taxi` creates idle taxis and `load_query` WAITING queries — and
preserved by every simulation step). -/
def Inv (st : SimState) : Bool := InvQT st.query_set st.taxi_set

/-- The reflexive-transitive closure of the status lifecycle
WAITING → RIDING → SATISFIED, WAITING → CANCELLED. It is a partial
order, so no status is ever revisited. -/
def lifecycleLE : QStatus → QStatus → Bool
  | .waiting, _ => true
  | .riding, .riding => true
  | .riding, .satisfied => true
  | .satisfied, .satisfied => true
  | .cancelled, .cancelled => true
  | _, _ => false

/-- Statuses in the query heap only move along the lifecycle. -/
def StatusEvolves (s s' : List (Nat × Query)) : Prop :=
  ∀ k q, alookup s k = some q →
    ∃ q', alookup s' k = some q' ∧ lifecycleLE q.status q'.status = true

theorem StatusEvolves_refl (s : List (Nat × Query)) : StatusEvolves s s := by
  intro k q hq
  refine ⟨q, hq, ?_⟩
  cases q.status <;> rfl

theorem StatusEvolves_trans {a b c : List (Nat × Query)}
    (h1 : StatusEvolves a b) (h2 : StatusEvolves b c) : StatusEvolves a c := by
  intro k q hq
  obtain ⟨q1, hq1, hl1⟩ := h1 k q hq
  obtain ⟨q2, hq2, hl2⟩ := h2 k q1 hq1
  refine ⟨q2, hq2, ?_⟩
  cases hs : q.status <;> cases hs1 : q1.status <;> cases hs2 : q2.status <;>
    simp_all [lifecycleLE]

/-- A generic accessor: an `all`-true association list gives its predicate
at any looked-up binding (under the queried key). -/
theorem alookup_all {κ α : Type} [DecidableEq κ] (P : κ × α → Bool) :
    ∀ (l : List (κ × α)) (k : κ) (v : α),
      l.all P = true → alookup l k = some v → P (k, v) = true
  | [], k, v => by intro _ h; simp [alookup] at h
  | (k', v') :: rest, k, v => by
    intro hall h
    simp only [List.all_cons, Bool.and_eq_true] at hall
    by_cases hk : k' = k
    · subst hk
      simp [alookup] at h
      subst h
      exact hall.1
    · simp [alookup, hk] at h
      exact alookup_all P rest k v hall.2 h

/-- Under the invariant, a query that is not RIDING is in no taxi's
serving set. -/
theorem not_serving_of_not_riding (st : SimState) (hInv : Inv st = true)
    (qid : Nat) (q : Query) (hq : alookup st.query_set qid = some q)
    (hnr : ¬ q.status = .riding) :
    ∀ p ∈ st.taxi_set, qid ∉ p.2.serving_queries := by
  intro p hp hmem
  have htw : taxiWF st.query_set p.2 = true := by
    have h1 : st.taxi_set.all (fun p => taxiWF st.query_set p.2) = true := by
      unfold Inv InvQT at hInv
      simp only [Bool.and_eq_true] at hInv
      exact hInv.1.1
    exact (List.all_eq_true.mp h1) p hp
  unfold taxiWF at htw
  simp only [Bool.and_eq_true] at htw
  have hsr := htw.2
  unfold servingRiding at hsr
  have := (List.all_eq_true.mp hsr) qid hmem
  rw [hq] at this
  simp at this
  exact hnr this

/-! ## Claim C4: destination node popped while the query is not RIDING -/

/-- C4, amended: (i) under the run invariant a non-RIDING query is in no
serving set; (ii) `satisfy_query` on an unregistered query raises
KeyError at `serving_queries.pop` — the program aborts with that
uncaught-exception diagnostic and `num_riders` is NOT decremented, but the
write `query.status = SATISFIED` has already executed when the pop
raises; (iii) consequently `Taxi.drive`'s arrival branch on a destination
node of such a query aborts with the KeyError. -/
theorem C4_destination_not_riding :
    (∀ (st : SimState) (qid : Nat) (q : Query), Inv st = true →
      alookup st.query_set qid = some q → ¬ q.status = .riding →
      ∀ p ∈ st.taxi_set, qid ∉ p.2.serving_queries) ∧
    (∀ (t : Taxi) (q : Query), q.id ∉ t.serving_queries →
      t.satisfy_query q = .error (t, { q with status := .satisfied })) ∧
    (∀ (G : Geo) (rn : RoadNetwork) (fuel : Nat) (timestamp : ℚ)
      (st : SimState) (tid : Nat) (t : Taxi) (node : ScheduleNode)
      (restSched : List ScheduleNode) (q : Query),
      t.schedule = node :: restSched → node.is_origin = false →
      alookup st.query_set node.query_id = some q →
      q.id ∉ t.serving_queries →
      drive_arrival G rn fuel timestamp st tid t = .error .keyError) := by
  refine ⟨fun st qid q hInv hq hnr => not_serving_of_not_riding st hInv qid q hq hnr, ?_, ?_⟩
  · intro t q hns
    unfold Taxi.satisfy_query
    rw [if_neg hns]
  · intro G rn fuel timestamp st tid t node restSched q hsched horig hq hns
    unfold drive_arrival
    rw [hsched]
    simp only
    rw [hq]
    simp only
    rw [if_neg (by simp [horig])]
    have hsq : Taxi.satisfy_query { t with schedule := restSched } q =
        .error ({ t with schedule := restSched }, { q with status := .satisfied }) := by
      unfold Taxi.satisfy_query
      rw [if_neg hns]
    rw [hsq]

/-- Concrete taxi and query for the C4 counterexample: the taxi serves
nobody, the query is WAITING. -/
def c4t : Taxi := mkTaxi 3 loc0

def c4q : Query := wq

/-- C4 counterexample: when the destination's query is not RIDING (here
WAITING, hence unregistered), `satisfy_query` raises — but the state at
the raise already has `status = SATISFIED`: the abort does not happen
*instead of* marking the query SATISFIED, only instead of decrementing
`num_riders`. -/
theorem C4_satisfied_before_abort_cex :
    c4t.satisfy_query c4q = .error (c4t, { c4q with status := .satisfied }) ∧
    c4t.num_riders = 0 := by
  refine ⟨by decide, by decide⟩

/-- Concrete state for the C4 witness: taxi 3's schedule heads with the
destination node of the WAITING query 7. -/
def c4t2 : Taxi := { mkTaxi 3 loc0 with schedule := [node0d] }

def c4st : SimState := ⟨[], [(7, c4q)], [(3, c4t2)], ⟨0, [], []⟩, ⟨[], [], [], []⟩⟩

/-- Witness for C4 at the concrete state. -/
theorem C4_destination_not_riding_witness :
    drive_arrival geo0 RoadNetwork.empty 5 0 c4st 3 c4t2 = .error .keyError :=
  C4_destination_not_riding.2.2 geo0 RoadNetwork.empty 5 0 c4st 3 c4t2 node0d []
    c4q (by decide) (by decide) (by decide) (by decide)

/-! ## Claim C1: the dispatch/scheduling decision -/

theorem update_route_fields (G : Geo) (rn : RoadNetwork) (fuel : Nat)
    (t : Taxi) (n : Option ScheduleNode) (t' : Taxi)
    (h : t.update_route G rn fuel n = .ok t') :
    t'.schedule = t.schedule ∧ t'.serving_queries = t.serving_queries ∧
    t'.num_riders = t.num_riders ∧ t'.capacity = t.capacity ∧ t'.id = t.id ∧
    t'.location = t.location ∧ t'.geohash = t.geohash ∧ t'.speed = t.speed := by
  unfold Taxi.update_route at h
  cases hs : t.schedule with
  | nil =>
    rw [hs] at h
    simp only at h
    cases h
    exact ⟨rfl, rfl, rfl, rfl, rfl, rfl, rfl, rfl⟩
  | cons first rest =>
    rw [hs] at h
    simp only at h
    cases hf : (match n with | none => t.v_id | some nn => nn.matched_vid) with
    | none => rw [hf] at h; exact absurd h (by simp)
    | some f =>
      rw [hf] at h
      cases hm : first.matched_vid with
      | none => rw [hm] at h; exact absurd h (by simp)
      | some tv =>
        rw [hm] at h
        simp only at h
        cases hp : get_shortest_path G rn f tv fuel with
        | error err => rw [hp] at h; exact absurd h (by simp)
        | ok path =>
          rw [hp] at h
          simp only at h
          cases hel : path.edge_list with
          | nil =>
            rw [hel] at h
            cases h
            exact ⟨rfl, rfl, rfl, rfl, rfl, rfl, rfl, rfl⟩
          | cons e0 erest =>
            rw [hel] at h
            cases h
            exact ⟨rfl, rfl, rfl, rfl, rfl, rfl, rfl, rfl⟩

/-- The selection loop of `__schedule`, characterized: either no available
taxi in the list strictly beats `min_dis` and the running pick is
returned, or an available minimum-distance taxi of the list (strictly
below `min_dis`) is returned. -/
theorem schedule_pick_spec (G : Geo) (q : Query) (taxi_set : List (Nat × Taxi)) :
    ∀ (lst : List Nat) (picked : Nat) (min_dis : ℚ) (r : Nat),
      schedule_pick G q taxi_set lst picked min_dis = .ok r →
      ((∀ tid ∈ lst, ∀ tx, alookup taxi_set tid = some tx →
          tx.is_available = true → ¬ G.dist tx.location q.origin < min_dis) ∧
        r = picked) ∨
      (∃ tx, alookup taxi_set r = some tx ∧ tx.is_available = true ∧ r ∈ lst ∧
        G.dist tx.location q.origin < min_dis ∧
        ∀ tid ∈ lst, ∀ tx', alookup taxi_set tid = some tx' →
          tx'.is_available = true →
          G.dist tx.location q.origin ≤ G.dist tx'.location q.origin)
  | [], picked, min_dis, r => by
    intro h
    simp [schedule_pick] at h
    exact Or.inl ⟨by simp, h.symm⟩
  | tid0 :: rest, picked, min_dis, r => by
    intro h
    simp only [schedule_pick] at h
    cases htx : alookup taxi_set tid0 with
    | none => rw [htx] at h; exact absurd h (by simp)
    | some tx0 =>
      rw [htx] at h
      simp only at h
      by_cases hav : tx0.is_available = true
      · rw [if_pos hav] at h
        by_cases hlt : G.dist tx0.location q.origin < min_dis
        · rw [if_pos hlt] at h
          rcases schedule_pick_spec G q taxi_set rest tid0 _ r h with
            ⟨hall, hr⟩ | ⟨tx, ha, hb, hc, hd, he⟩
          · subst hr
            right
            refine ⟨tx0, htx, hav, by simp, hlt, ?_⟩
            intro tid htid tx' htx' hav'
            rcases List.mem_cons.mp htid with htid | htid
            · subst htid
              rw [htx] at htx'
              cases htx'
              exact le_refl _
            · exact le_of_not_lt (hall tid htid tx' htx' hav')
          · right
            refine ⟨tx, ha, hb, List.mem_cons_of_mem _ hc, lt_trans hd hlt, ?_⟩
            intro tid htid tx' htx' hav'
            rcases List.mem_cons.mp htid with htid | htid
            · subst htid
              rw [htx] at htx'
              cases htx'
              exact le_of_lt hd
            · exact he tid htid tx' htx' hav'
        · rw [if_neg hlt] at h
          rcases schedule_pick_spec G q taxi_set rest picked min_dis r h with
            ⟨hall, hr⟩ | ⟨tx, ha, hb, hc, hd, he⟩
          · left
            refine ⟨?_, hr⟩
            intro tid htid tx' htx' hav'
            rcases List.mem_cons.mp htid with htid | htid
            · subst htid
              rw [htx] at htx'
              cases htx'
              exact hlt
            · exact hall tid htid tx' htx' hav'
          · right
            refine ⟨tx, ha, hb, List.mem_cons_of_mem _ hc, hd, ?_⟩
            intro tid htid tx' htx' hav'
            rcases List.mem_cons.mp htid with htid | htid
            · subst htid
              rw [htx] at htx'
              cases htx'
              exact le_of_lt (lt_of_lt_of_le hd (not_lt.mp hlt))
            · exact he tid htid tx' htx' hav'
      · rw [if_neg hav] at h
        rcases schedule_pick_spec G q taxi_set rest picked min_dis r h with
          ⟨hall, hr⟩ | ⟨tx, ha, hb, hc, hd, he⟩
        · left
          refine ⟨?_, hr⟩
          intro tid htid tx' htx' hav'
          rcases List.mem_cons.mp htid with htid | htid
          · subst htid
            rw [htx] at htx'
            cases htx'
            exact absurd hav' hav
          · exact hall tid htid tx' htx' hav'
        · right
          refine ⟨tx, ha, hb, List.mem_cons_of_mem _ hc, hd, ?_⟩
          intro tid htid tx' htx' hav'
          rcases List.mem_cons.mp htid with htid | htid
          · subst htid
            rw [htx] at htx'
            cases htx'
            exact absurd hav' hav
          · exact he tid htid tx' htx' hav'

/-- C1, amended: (i) with an empty candidate list `dispatch_taxi` fails,
the query goes to `failed_queries`, and the taxi set is untouched; (ii)
the selection loop picks an available candidate of minimum great-circle
distance to the origin whenever some available candidate lies strictly
below `MAX_INT`, and otherwise returns its starting pick — the FIRST
candidate, available or not; (iii) therefore every non-empty candidate
list leads to success: `matched_taxi` is set and the picked taxi's
schedule is extended by the query's (origin, destination) pair even when
no candidate is available. -/
theorem C1_schedule_decision (G : Geo) (rn : RoadNetwork) (fuel : Nat)
    (timestamp : ℚ) :
    (∀ (st : SimState) (qid : Nat) (q : Query),
      alookup st.query_set qid = some q →
      single_side_search timestamp q st.db = .ok [] →
      dispatch_taxi G rn fuel timestamp st qid =
        .ok { st with query_set := aupdate st.query_set qid q, dispatcher := { st.dispatcher with failed_queries := st.dispatcher.failed_queries ++ [q.id] } }) ∧
    (∀ (q : Query) (taxi_set : List (Nat × Taxi)) (lst : List Nat)
      (picked : Nat) (min_dis : ℚ) (r : Nat),
      schedule_pick G q taxi_set lst picked min_dis = .ok r →
      ((∀ tid ∈ lst, ∀ tx, alookup taxi_set tid = some tx →
          tx.is_available = true → ¬ G.dist tx.location q.origin < min_dis) ∧
        r = picked) ∨
      (∃ tx, alookup taxi_set r = some tx ∧ tx.is_available = true ∧ r ∈ lst ∧
        G.dist tx.location q.origin < min_dis ∧
        ∀ tid ∈ lst, ∀ tx', alookup taxi_set tid = some tx' →
          tx'.is_available = true →
          G.dist tx.location q.origin ≤ G.dist tx'.location q.origin)) ∧
    (∀ (q : Query) (candi : List Nat) (taxi_set : List (Nat × Taxi))
      (res : Bool × Query × List (Nat × Taxi)), candi ≠ [] →
      dispatcher_schedule G rn fuel q candi taxi_set = .ok res →
      res.1 = true ∧ res.2.1.matched_taxi.isSome ∧
      ∃ picked tx tx', alookup taxi_set picked = some tx ∧
        res.2.1 = { q with matched_taxi := some picked } ∧
        alookup res.2.2 picked = some tx' ∧
        tx'.schedule = tx.schedule ++ [q.o_schedule_node, q.d_schedule_node]) := by
  refine ⟨?_, fun q ts lst picked m r h => schedule_pick_spec G q ts lst picked m r h, ?_⟩
  · intro st qid q hq hsearch
    unfold dispatch_taxi
    rw [hq]
    simp only
    rw [hsearch]
    simp only
    unfold dispatcher_schedule
    simp only
    rfl
  · intro q candi taxi_set res hne hres
    unfold dispatcher_schedule at hres
    cases candi with
    | nil => exact absurd rfl hne
    | cons first crest =>
      simp only at hres
      cases hpick : schedule_pick G q taxi_set (first :: crest) first MAX_INT with
      | error err => rw [hpick] at hres; exact absurd hres (by simp)
      | ok picked =>
        rw [hpick] at hres
        simp only at hres
        cases htx : alookup taxi_set picked with
        | none => rw [htx] at hres; exact absurd hres (by simp)
        | some tx =>
          rw [htx] at hres
          simp only at hres
          cases hur : Taxi.update_route G rn fuel { tx with schedule := tx.schedule ++ [q.o_schedule_node, q.d_schedule_node] } none with
          | error err => rw [hur] at hres; exact absurd hres (by simp)
          | ok tx' =>
            rw [hur] at hres
            cases hres
            refine ⟨rfl, by simp, picked, tx, tx', htx, rfl, ?_, ?_⟩
            · exact alookup_aupdate_self taxi_set picked tx'
            · have := (update_route_fields G rn fuel _ none tx' hur).1
              rw [this]

/-- One-vertex road network for the C1 counterexample (the taxi's route
recomputation is a trivial A* from vertex 0 to itself). -/
def c1rn : RoadNetwork := RoadNetwork.empty.add_vertex 0 (some 0) (some 0)

/-- The only candidate taxi: full (1 rider of capacity 1, serving query 5)
with a non-trivial schedule — NOT available. -/
def c1taxi : Taxi :=
  ⟨9, 7, 1, loc0, "7zzzz", 1, [⟨5, false, some 0⟩], none, [5], some 0, none,
   none, 0⟩

/-- Database whose origin cell lists taxi 9 with a feasible ETA. -/
def c1db : SpatioTemporalDatabase :=
  ⟨1, [("g0", ⟨"g0", loc0, none, [0], [], [("g0", 0)], [(9, 0)]⟩)], []⟩

/-- State for the C1 counterexample: WAITING query 7, the full taxi 9. -/
def c1st : SimState := ⟨[], [(7, wq)], [(9, c1taxi)], c1db, ⟨[], [], [], []⟩⟩

/-- C1 counterexample: the candidate list is non-empty but contains no
available taxi, yet `dispatch_taxi` SUCCEEDS: the query is put in
`waiting_queries` (not `failed_queries`), its `matched_taxi` is set to the
unavailable taxi 9, and taxi 9's schedule grows from 1 to 3 nodes —
refuting "when the candidate list ... contains no available taxi it
returns failed ... and no taxi's schedule or matched_taxi field is
modified". -/
theorem C1_all_unavailable_dispatched_cex :
    c1taxi.is_available = false ∧
    (dispatch_taxi geo0 c1rn 9 0 c1st 7).toOption.map (fun st' =>
      (st'.dispatcher.failed_queries, st'.dispatcher.waiting_queries,
       (alookup st'.taxi_set 9).map (fun tx => tx.schedule.length),
       (alookup st'.query_set 7).map (fun q => q.matched_taxi))) =
      some ([], [7], some 3, some (some 9)) := by
  refine ⟨by decide, by decide⟩

/-- State for the C1 witness: same query, but the origin cell lists no
taxi at all, so the candidate search returns the empty list. -/
def c1st2 : SimState :=
  ⟨[], [(7, wq)], [(9, c1taxi)],
   ⟨1, [("g0", ⟨"g0", loc0, none, [0], [], [("g0", 0)], []⟩)], []⟩,
   ⟨[], [], [], []⟩⟩

/-- Witness for C1 at the empty-candidate state: the dispatch fails into
`failed_queries` and modifies nothing else. -/
theorem C1_schedule_decision_witness :
    dispatch_taxi geo0 c1rn 9 0 c1st2 7 =
      .ok { c1st2 with query_set := aupdate c1st2.query_set 7 wq, dispatcher := { c1st2.dispatcher with failed_queries := c1st2.dispatcher.failed_queries ++ [wq.id] } } :=
  (C1_schedule_decision geo0 c1rn 9 0).1 c1st2 7 wq (by decide) (by decide)

/-! ## Helper lemmas for the preservation of the run invariant (C2, C8) -/

theorem aupdate_self_eq {κ α : Type} [DecidableEq κ] :
    ∀ (l : List (κ × α)) (k : κ) (v : α), alookup l k = some v →
      aupdate l k v = l
  | [], k, v => by intro h; simp [alookup] at h
  | (k', v') :: rest, k, v => by
    intro h
    by_cases hk : k' = k
    · subst hk
      have h' : v' = v := by simpa [alookup] using h
      subst h'
      simp [aupdate]
    · simp only [alookup, if_neg hk] at h
      simp [aupdate, hk, aupdate_self_eq rest k v h]

theorem all_aupdate {κ α : Type} [DecidableEq κ] (P : κ × α → Bool) :
    ∀ (l : List (κ × α)) (k : κ) (v : α),
      l.all P = true → P (k, v) = true → (aupdate l k v).all P = true
  | [], k, v => by
    intro _ hp
    simpa [aupdate] using hp
  | (k', v') :: rest, k, v => by
    intro hall hp
    simp only [List.all_cons, Bool.and_eq_true] at hall
    by_cases hk : k' = k
    · subst hk
      have he : aupdate ((k', v') :: rest) k' v = (k', v) :: rest := by
        simp [aupdate]
      rw [he, List.all_cons, Bool.and_eq_true]
      exact ⟨hp, hall.2⟩
    · simp only [aupdate, if_neg hk, List.all_cons, Bool.and_eq_true]
      exact ⟨hall.1, all_aupdate P rest k v hall.2 hp⟩

theorem lifecycleLE_refl (s : QStatus) : lifecycleLE s s = true := by
  cases s <;> rfl

/-- Updating one query along the lifecycle makes the heap evolve. -/
theorem StatusEvolves_aupdate (qs : List (Nat × Query)) (k : Nat) (q q' : Query)
    (hq : alookup qs k = some q) (hle : lifecycleLE q.status q'.status = true) :
    StatusEvolves qs (aupdate qs k q') := by
  intro k' q0 h0
  by_cases hk : k' = k
  · subst hk
    rw [h0] at hq
    injection hq with hq
    subst hq
    exact ⟨q', alookup_aupdate_self qs k' q', hle⟩
  · refine ⟨q0, ?_, lifecycleLE_refl _⟩
    rw [alookup_aupdate_ne qs k k' q' (fun he => hk he.symm)]
    exact h0

theorem servingRiding_aupdate_riding (qs : List (Nat × Query)) (serving : List Nat)
    (k : Nat) (q' : Query) (h : servingRiding qs serving = true)
    (hq' : q'.status = .riding) :
    servingRiding (aupdate qs k q') serving = true := by
  unfold servingRiding at h ⊢
  rw [List.all_eq_true] at h ⊢
  intro qid hmem
  by_cases hk : qid = k
  · subst hk
    rw [alookup_aupdate_self]
    simp [hq']
  · rw [alookup_aupdate_ne qs k qid q' (fun he => hk he.symm)]
    exact h qid hmem

theorem servingRiding_aupdate_not_mem (qs : List (Nat × Query)) (serving : List Nat)
    (k : Nat) (q' : Query) (h : servingRiding qs serving = true)
    (hk : k ∉ serving) :
    servingRiding (aupdate qs k q') serving = true := by
  unfold servingRiding at h ⊢
  rw [List.all_eq_true] at h ⊢
  intro qid hmem
  have hne : k ≠ qid := fun he => hk (he ▸ hmem)
  rw [alookup_aupdate_ne qs k qid q' hne]
  exact h qid hmem

theorem servingRiding_aupdate_same_status (qs : List (Nat × Query))
    (serving : List Nat) (k : Nat) (q q' : Query)
    (h : servingRiding qs serving = true)
    (hq : alookup qs k = some q) (hs : q'.status = q.status) :
    servingRiding (aupdate qs k q') serving = true := by
  unfold servingRiding at h ⊢
  rw [List.all_eq_true] at h ⊢
  intro qid hmem
  by_cases hk : qid = k
  · subst hk
    have hprev := h qid hmem
    rw [hq] at hprev
    simp only at hprev
    rw [alookup_aupdate_self]
    simp only
    rw [hs]
    exact hprev
  · rw [alookup_aupdate_ne qs k qid q' (fun he => hk he.symm)]
    exact h qid hmem

theorem taxiWF_fields (qs : List (Nat × Query)) (t t' : Taxi)
    (hcap : t'.capacity = t.capacity) (hnr : t'.num_riders = t.num_riders)
    (hsch : t'.schedule = t.schedule)
    (hserv : t'.serving_queries = t.serving_queries)
    (h : taxiWF qs t = true) : taxiWF qs t' = true := by
  unfold taxiWF at h ⊢
  have hshape : scheduleShape t' = scheduleShape t := by
    unfold scheduleShape
    rw [hsch, hserv]
  rw [hcap, hnr, hserv, hshape]
  exact h

theorem taxiWF_qs_aupdate_not_mem (qs : List (Nat × Query)) (k : Nat)
    (q' : Query) (t : Taxi) (hk : k ∉ t.serving_queries)
    (h : taxiWF qs t = true) : taxiWF (aupdate qs k q') t = true := by
  unfold taxiWF at h ⊢
  simp only [Bool.and_eq_true] at h ⊢
  exact ⟨h.1, servingRiding_aupdate_not_mem qs t.serving_queries k q' h.2 hk⟩

theorem taxiWF_qs_aupdate_riding (qs : List (Nat × Query)) (k : Nat)
    (q' : Query) (t : Taxi) (hq' : q'.status = .riding)
    (h : taxiWF qs t = true) : taxiWF (aupdate qs k q') t = true := by
  unfold taxiWF at h ⊢
  simp only [Bool.and_eq_true] at h ⊢
  exact ⟨h.1, servingRiding_aupdate_riding qs t.serving_queries k q' h.2 hq'⟩

theorem taxiWF_qs_aupdate_same_status (qs : List (Nat × Query)) (k : Nat)
    (q q' : Query) (t : Taxi) (hq : alookup qs k = some q)
    (hs : q'.status = q.status)
    (h : taxiWF qs t = true) : taxiWF (aupdate qs k q') t = true := by
  unfold taxiWF at h ⊢
  simp only [Bool.and_eq_true] at h ⊢
  exact ⟨h.1,
    servingRiding_aupdate_same_status qs t.serving_queries k q q' h.2 hq hs⟩

theorem not_serving_of_not_riding_qt (qs : List (Nat × Query))
    (ts : List (Nat × Taxi))
    (hall : ts.all (fun p => taxiWF qs p.2) = true)
    (qid : Nat) (q : Query) (hq : alookup qs qid = some q)
    (hnr : ¬ q.status = .riding) :
    ∀ p ∈ ts, qid ∉ p.2.serving_queries := by
  intro p hp hmem
  have htw : taxiWF qs p.2 = true := (List.all_eq_true.mp hall) p hp
  simp only [taxiWF, Bool.and_eq_true] at htw
  have hsr := htw.2
  unfold servingRiding at hsr
  have hthis := (List.all_eq_true.mp hsr) qid hmem
  rw [hq] at hthis
  simp only at hthis
  exact hnr (of_decide_eq_true hthis)

theorem queryWF_fields (k : Nat) (q q' : Query)
    (hid : q'.id = q.id) (ho : q'.o_schedule_node = q.o_schedule_node)
    (hd : q'.d_schedule_node = q.d_schedule_node)
    (h : queryWF (k, q) = true) : queryWF (k, q') = true := by
  simp only [queryWF, Bool.and_eq_true] at h ⊢
  rw [hid, ho, hd]
  exact h

theorem Paired_append (o d : ScheduleNode)
    (ho : o.is_origin = true) (hd : d.is_origin = false)
    (hqid : o.query_id = d.query_id) :
    ∀ l, Paired l = true → Paired (l ++ [o, d]) = true
  | [] => by
    intro _
    simp [Paired, ho, hd, hqid]
  | [x] => by
    intro h
    simp [Paired] at h
  | x :: y :: rest => by
    intro h
    simp only [Paired, Bool.and_eq_true] at h
    obtain ⟨⟨⟨hx, hy⟩, hq⟩, hrest⟩ := h
    simp only [List.cons_append, Paired, Bool.and_eq_true]
    exact ⟨⟨⟨hx, hy⟩, hq⟩, Paired_append o d ho hd hqid rest hrest⟩

theorem scheduleShape_fields (t t' : Taxi) (hs : t'.schedule = t.schedule)
    (hv : t'.serving_queries = t.serving_queries) :
    scheduleShape t' = scheduleShape t := by
  unfold scheduleShape
  rw [hs, hv]

theorem scheduleShape_append_pair (t : Taxi) (o d : ScheduleNode)
    (ho : o.is_origin = true) (hd : d.is_origin = false)
    (hqid : o.query_id = d.query_id)
    (h : scheduleShape t = true) :
    scheduleShape { t with schedule := t.schedule ++ [o, d] } = true := by
  unfold scheduleShape at h ⊢
  dsimp only
  cases hs : t.serving_queries with
  | nil =>
    rw [hs] at h
    simp only at h ⊢
    exact Paired_append o d ho hd hqid _ h
  | cons a as =>
    cases as with
    | nil =>
      rw [hs] at h
      cases hsch : t.schedule with
      | nil => rw [hsch] at h; simp at h
      | cons d0 rest =>
        rw [hsch] at h
        simp only [Bool.and_eq_true] at h
        obtain ⟨⟨h1, h2⟩, h3⟩ := h
        simp only [List.cons_append, Bool.and_eq_true]
        exact ⟨⟨h1, h2⟩, Paired_append o d ho hd hqid rest h3⟩
    | cons b bs =>
      rw [hs] at h
      cases t.schedule with
      | nil => simp at h
      | cons n ns => simp at h

theorem serving_len_le_one (t : Taxi) (h : scheduleShape t = true) :
    t.serving_queries.length ≤ 1 := by
  unfold scheduleShape at h
  cases hs : t.serving_queries with
  | nil => simp
  | cons a as =>
    cases as with
    | nil => simp
    | cons b bs =>
      rw [hs] at h
      cases t.schedule with
      | nil => simp at h
      | cons n ns => simp at h

theorem disjointServing_aupdate_fresh :
    ∀ (ts : List (Nat × Taxi)) (k : Nat) (t0 t' : Taxi),
      disjointServing ts = true → alookup ts k = some t0 →
      (∀ x ∈ t'.serving_queries, x ∈ t0.serving_queries ∨
        ∀ p ∈ ts, x ∉ p.2.serving_queries) →
      disjointServing (aupdate ts k t') = true
  | [], k, t0, t' => by
    intro _ h0 _
    simp [alookup] at h0
  | (k0, s) :: rest, k, t0, t' => by
    intro hd h0 hfresh
    simp only [disjointServing, List.all_eq_true, Bool.and_eq_true,
      decide_eq_true_eq] at hd
    obtain ⟨hhead, htail⟩ := hd
    by_cases hk : k0 = k
    · subst hk
      have h0' : s = t0 := by simpa [alookup] using h0
      subst h0'
      have he : aupdate ((k0, s) :: rest) k0 t' = (k0, t') :: rest := by
        simp [aupdate]
      rw [he]
      simp only [disjointServing, List.all_eq_true, Bool.and_eq_true,
        decide_eq_true_eq]
      refine ⟨?_, htail⟩
      intro p' hp' x hx
      rcases hfresh x hx with hin | hnone
      · exact hhead p' hp' x hin
      · exact hnone p' (List.mem_cons_of_mem _ hp')
    · simp only [alookup, if_neg hk] at h0
      simp only [aupdate, if_neg hk, disjointServing, List.all_eq_true,
        Bool.and_eq_true, decide_eq_true_eq]
      constructor
      · intro p' hp' x hx
        rcases mem_aupdate rest k t' p' hp' with hpm | hpt
        · exact hhead p' hpm x hx
        · intro hxt
          rcases hfresh x (hpt ▸ hxt) with hin | hnone
          · exact hhead (k, t0) (alookup_mem rest k t0 h0) x hx hin
          · exact hnone (k0, s) (List.mem_cons_self _ _) hx
      · refine disjointServing_aupdate_fresh rest k t0 t' htail h0 ?_
        intro x hx
        rcases hfresh x hx with hin | hnone
        · exact Or.inl hin
        · exact Or.inr (fun p hp => hnone p (List.mem_cons_of_mem _ hp))

theorem disjoint_entries_after_update :
    ∀ (ts : List (Nat × Taxi)) (k : Nat) (t0 t' : Taxi) (x : Nat),
      disjointServing ts = true → alookup ts k = some t0 →
      x ∈ t0.serving_queries →
      ∀ p ∈ aupdate ts k t', p.2 = t' ∨ (p ∈ ts ∧ x ∉ p.2.serving_queries)
  | [], k, t0, t', x => by
    intro _ h0 _
    simp [alookup] at h0
  | (k0, s) :: rest, k, t0, t', x => by
    intro hd h0 hx
    simp only [disjointServing, List.all_eq_true, Bool.and_eq_true,
      decide_eq_true_eq] at hd
    obtain ⟨hhead, htail⟩ := hd
    by_cases hk : k0 = k
    · subst hk
      have h0' : s = t0 := by simpa [alookup] using h0
      subst h0'
      intro p hp
      have he : aupdate ((k0, s) :: rest) k0 t' = (k0, t') :: rest := by
        simp [aupdate]
      rw [he] at hp
      rcases List.mem_cons.mp hp with rfl | hp
      · exact Or.inl rfl
      · exact Or.inr ⟨List.mem_cons_of_mem _ hp, hhead p hp x hx⟩
    · simp only [alookup, if_neg hk] at h0
      intro p hp
      simp only [aupdate, if_neg hk] at hp
      rcases List.mem_cons.mp hp with rfl | hp
      · refine Or.inr ⟨List.mem_cons_self _ _, ?_⟩
        intro hxs
        exact hhead (k, t0) (alookup_mem rest k t0 h0) x hxs hx
      · rcases disjoint_entries_after_update rest k t0 t' x htail h0 hx p hp with
          ht | ⟨hpm, hnm⟩
        · exact Or.inl ht
        · exact Or.inr ⟨List.mem_cons_of_mem _ hpm, hnm⟩

theorem all_taxiWF_aupdate_not_serving (qs : List (Nat × Query))
    (ts : List (Nat × Taxi)) (k : Nat) (q' : Query)
    (hall : ts.all (fun p => taxiWF qs p.2) = true)
    (hns : ∀ p ∈ ts, k ∉ p.2.serving_queries) :
    ts.all (fun p => taxiWF (aupdate qs k q') p.2) = true := by
  rw [List.all_eq_true] at hall ⊢
  intro p hp
  exact taxiWF_qs_aupdate_not_mem qs k q' p.2 (hns p hp) (hall p hp)

theorem all_taxiWF_aupdate_same_status (qs : List (Nat × Query))
    (ts : List (Nat × Taxi)) (k : Nat) (q q' : Query)
    (hall : ts.all (fun p => taxiWF qs p.2) = true)
    (hq : alookup qs k = some q) (hs : q'.status = q.status) :
    ts.all (fun p => taxiWF (aupdate qs k q') p.2) = true := by
  rw [List.all_eq_true] at hall ⊢
  intro p hp
  exact taxiWF_qs_aupdate_same_status qs k q q' p.2 hq hs (hall p hp)

theorem all_taxiWF_aupdate_combined (qs : List (Nat × Query))
    (ts : List (Nat × Taxi)) (k : Nat) (t0 t' : Taxi) (kq : Nat) (q' : Query)
    (hall : ts.all (fun p => taxiWF qs p.2) = true)
    (hdisj : disjointServing ts = true)
    (h0 : alookup ts k = some t0)
    (hkq : kq ∈ t0.serving_queries)
    (htw : taxiWF (aupdate qs kq q') t' = true) :
    (aupdate ts k t').all (fun p => taxiWF (aupdate qs kq q') p.2) = true := by
  rw [List.all_eq_true]
  intro p hp
  rcases disjoint_entries_after_update ts k t0 t' kq hdisj h0 hkq p hp with
    ht | ⟨hpm, hnm⟩
  · show taxiWF (aupdate qs kq q') p.2 = true
    rw [ht]
    exact htw
  · exact taxiWF_qs_aupdate_not_mem qs kq q' p.2 hnm
      ((List.all_eq_true.mp hall) p hpm)

theorem remove_first_node_head (d : ScheduleNode) (rest : List ScheduleNode)
    (qid : Nat) (h : d.query_id = qid) :
    remove_first_node (d :: rest) qid = rest := by
  simp [remove_first_node, h]

theorem update_pos_fields (t : Taxi) (timestamp : ℚ) (new_pos : Location)
    (db : SpatioTemporalDatabase) (t' : Taxi) (db' : SpatioTemporalDatabase)
    (h : t.update_pos timestamp new_pos db = .ok (t', db')) :
    t'.id = t.id ∧ t'.capacity = t.capacity ∧ t'.num_riders = t.num_riders ∧
    t'.schedule = t.schedule ∧ t'.serving_queries = t.serving_queries ∧
    t'.route = t.route ∧ t'.speed = t.speed ∧ t'.e_id = t.e_id ∧
    t'.eid_index = t.eid_index ∧ t'.v_id = t.v_id := by
  unfold Taxi.update_pos at h
  by_cases hg : geo_encode new_pos.lat new_pos.lon PRECISION = t.geohash
  · rw [if_pos hg] at h
    simp only [Except.ok.injEq, Prod.mk.injEq] at h
    obtain ⟨h1, _⟩ := h
    subst h1
    exact ⟨rfl, rfl, rfl, rfl, rfl, rfl, rfl, rfl, rfl, rfl⟩
  · rw [if_neg hg] at h
    cases hoc : alookup db.grid t.geohash with
    | none => rw [hoc] at h; exact absurd h (by simp)
    | some oc =>
      rw [hoc] at h
      simp only at h
      cases hrm : oc.remove_taxi t.id with
      | error e => rw [hrm] at h; exact absurd h (by simp)
      | ok oc' =>
        rw [hrm] at h
        simp only at h
        cases hnc : alookup (aupdate db.grid t.geohash oc')
            (geo_encode new_pos.lat new_pos.lon PRECISION) with
        | none => rw [hnc] at h; exact absurd h (by simp)
        | some nc =>
          rw [hnc] at h
          simp only [Except.ok.injEq, Prod.mk.injEq] at h
          obtain ⟨h1, _⟩ := h
          subst h1
          exact ⟨rfl, rfl, rfl, rfl, rfl, rfl, rfl, rfl, rfl, rfl⟩

/-- `drive_finish` in the success case: the route is recomputed on the
given taxi and only the taxi set (at `tid`) and the database change. -/
theorem drive_finish_shape (G : Geo) (rn : RoadNetwork) (fuel : Nat)
    (timestamp : ℚ) (st : SimState) (tid : Nat) (t : Taxi)
    (node : ScheduleNode) (st' : SimState)
    (h : drive_finish G rn fuel timestamp st tid t node = .ok st') :
    ∃ t' db', t.update_route G rn fuel (some node) = .ok t' ∧
      st' = { st with taxi_set := aupdate st.taxi_set tid t', db := db' } := by
  unfold drive_finish at h
  cases hur : t.update_route G rn fuel (some node) with
  | error e => rw [hur] at h; exact absurd h (by simp)
  | ok t' =>
    rw [hur] at h
    simp only at h
    cases hul : st.db.update_taxi_list timestamp t'.id t'.route rn with
    | error e => rw [hul] at h; exact absurd h (by simp)
    | ok db' =>
      rw [hul] at h
      simp only at h
      cases h
      exact ⟨t', db', rfl, rfl⟩

/-- The arrival branch of `Taxi.drive` preserves the invariant, and the
query statuses move only along the lifecycle. The taxi `u` handed to the
branch agrees with the stored taxi `t0` on every invariant-relevant
field. -/
theorem drive_arrival_preserves (G : Geo) (rn : RoadNetwork) (fuel : Nat)
    (timestamp : ℚ) (st : SimState) (tid : Nat) (u t0 : Taxi) (st' : SimState)
    (hInv : InvQT st.query_set st.taxi_set = true)
    (h0 : alookup st.taxi_set tid = some t0)
    (hucap : u.capacity = t0.capacity) (hunr : u.num_riders = t0.num_riders)
    (husch : u.schedule = t0.schedule)
    (huserv : u.serving_queries = t0.serving_queries)
    (h : drive_arrival G rn fuel timestamp st tid u = .ok st') :
    InvQT st'.query_set st'.taxi_set = true ∧
    StatusEvolves st.query_set st'.query_set := by
  unfold InvQT at hInv
  simp only [Bool.and_eq_true] at hInv
  obtain ⟨⟨hall, hdisj⟩, hqwf⟩ := hInv
  have ht0 : taxiWF st.query_set t0 = true :=
    alookup_all _ st.taxi_set tid t0 hall h0
  simp only [taxiWF, Bool.and_eq_true, decide_eq_true_eq] at ht0
  obtain ⟨⟨⟨hcap1, hlen⟩, hshape⟩, hride⟩ := ht0
  unfold drive_arrival at h
  cases husched : u.schedule with
  | nil => rw [husched] at h; exact absurd h (by simp)
  | cons node restSched =>
  rw [husched] at h
  simp only at h
  cases hlq : alookup st.query_set node.query_id with
  | none => rw [hlq] at h; exact absurd h (by simp)
  | some q =>
  rw [hlq] at h
  simp only at h
  have hqw0 : queryWF (node.query_id, q) = true :=
    alookup_all queryWF st.query_set node.query_id q hqwf hlq
  have hqw := hqw0
  simp only [queryWF, Bool.and_eq_true, decide_eq_true_eq] at hqw
  obtain ⟨⟨⟨⟨hqid, _⟩, _⟩, _⟩, _⟩ := hqw
  have hts : t0.schedule = node :: restSched := husch.symm.trans husched
  by_cases hio : node.is_origin = true
  · rw [if_pos hio] at h
    cases hserv0 : t0.serving_queries with
    | cons a as =>
      exfalso
      unfold scheduleShape at hshape
      rw [hserv0, hts] at hshape
      cases as with
      | nil => simp [hio] at hshape
      | cons b bs => simp at hshape
    | nil =>
    have hlen0 : t0.num_riders = 0 := by rw [hlen, hserv0]; simp
    have hpair : Paired (node :: restSched) = true := by
      unfold scheduleShape at hshape
      rw [hserv0, hts] at hshape
      simp only at hshape
      exact hshape
    cases restSched with
    | nil =>
      exfalso
      simp [Paired] at hpair
    | cons d rest2 =>
    simp only [Paired, Bool.and_eq_true, decide_eq_true_eq] at hpair
    obtain ⟨⟨⟨_, hdno⟩, hdq⟩, hp2⟩ := hpair
    by_cases hqs : q.status = QStatus.waiting
    · rw [if_pos hqs] at h
      simp only [Taxi.serve_query] at h
      by_cases hwq : q.id ∈ st.dispatcher.waiting_queries
      · rw [if_pos hwq] at h
        obtain ⟨t2, db2, hur, hst'⟩ :=
          drive_finish_shape G rn fuel timestamp _ tid _ node st' h
        subst hst'
        obtain ⟨hsch2, hserv2, hnr2, hcap2, _⟩ :=
          update_route_fields G rn fuel _ (some node) t2 hur
        have hserve_set : t2.serving_queries = [q.id] := by
          rw [hserv2]
          show setAdd u.serving_queries q.id = [q.id]
          rw [huserv, hserv0]
          simp [setAdd]
        have hnr2' : t2.num_riders = 1 := by
          rw [hnr2]
          show u.num_riders + 1 = 1
          rw [hunr, hlen0, zero_add]
        have hsch2' : t2.schedule = d :: rest2 := by rw [hsch2]
        have htw2 : taxiWF
            (aupdate st.query_set node.query_id { q with status := QStatus.riding })
            t2 = true := by
          simp only [taxiWF, Bool.and_eq_true, decide_eq_true_eq]
          refine ⟨⟨⟨?_, ?_⟩, ?_⟩, ?_⟩
          · rw [hcap2]
            show (1 : ℤ) ≤ u.capacity
            rw [hucap]
            exact hcap1
          · rw [hnr2', hserve_set]
            rfl
          · unfold scheduleShape
            rw [hserve_set, hsch2']
            simp only [Bool.and_eq_true, decide_eq_true_eq]
            exact ⟨⟨hdno, (hqid.trans hdq).symm⟩, hp2⟩
          · unfold servingRiding
            rw [hserve_set]
            simp only [List.all_cons, List.all_nil, Bool.and_true]
            rw [hqid, alookup_aupdate_self]
            simp
        have hns : ∀ p ∈ st.taxi_set, node.query_id ∉ p.2.serving_queries :=
          not_serving_of_not_riding_qt st.query_set st.taxi_set hall
            node.query_id q hlq (by simp [hqs])
        refine ⟨?_, ?_⟩
        · show InvQT
            (aupdate st.query_set node.query_id { q with status := QStatus.riding })
            (aupdate st.taxi_set tid t2) = true
          unfold InvQT
          simp only [Bool.and_eq_true]
          refine ⟨⟨?_, ?_⟩, ?_⟩
          · exact all_aupdate _ st.taxi_set tid t2
              (all_taxiWF_aupdate_not_serving st.query_set st.taxi_set
                node.query_id _ hall hns) htw2
          · refine disjointServing_aupdate_fresh st.taxi_set tid t0 t2 hdisj h0 ?_
            intro x hx
            rw [hserve_set] at hx
            simp only [List.mem_singleton] at hx
            subst hx
            right
            intro p hp
            rw [hqid]
            exact hns p hp
          · exact all_aupdate queryWF st.query_set node.query_id _ hqwf
              (queryWF_fields node.query_id q _ rfl rfl rfl hqw0)
        · show StatusEvolves st.query_set
            (aupdate st.query_set node.query_id { q with status := QStatus.riding })
          refine StatusEvolves_aupdate st.query_set node.query_id q _ hlq ?_
          have hq' : ({ q with status := QStatus.riding }).status = QStatus.riding := rfl
          rw [hq', hqs]
          rfl
      · rw [if_neg hwq] at h
        exact absurd h (by simp)
    · rw [if_neg hqs] at h
      obtain ⟨t2, db2, hur, hst'⟩ :=
        drive_finish_shape G rn fuel timestamp st tid _ node st' h
      subst hst'
      obtain ⟨hsch2, hserv2, hnr2, hcap2, _⟩ :=
        update_route_fields G rn fuel _ (some node) t2 hur
      have hsch2' : t2.schedule = rest2 := by
        rw [hsch2]
        show remove_first_node (d :: rest2) q.id = rest2
        exact remove_first_node_head d rest2 q.id (hqid.trans hdq).symm
      have hserv2' : t2.serving_queries = [] := by
        rw [hserv2]
        show u.serving_queries = []
        rw [huserv, hserv0]
      have hnr2' : t2.num_riders = 0 := by
        rw [hnr2]
        show u.num_riders = 0
        rw [hunr, hlen0]
      have htw2 : taxiWF st.query_set t2 = true := by
        simp only [taxiWF, Bool.and_eq_true, decide_eq_true_eq]
        refine ⟨⟨⟨?_, ?_⟩, ?_⟩, ?_⟩
        · rw [hcap2]
          show (1 : ℤ) ≤ u.capacity
          rw [hucap]
          exact hcap1
        · rw [hnr2', hserv2']
          rfl
        · unfold scheduleShape
          rw [hserv2', hsch2']
          exact hp2
        · unfold servingRiding
          rw [hserv2']
          rfl
      refine ⟨?_, ?_⟩
      · show InvQT st.query_set (aupdate st.taxi_set tid t2) = true
        unfold InvQT
        simp only [Bool.and_eq_true]
        refine ⟨⟨all_aupdate _ st.taxi_set tid t2 hall htw2, ?_⟩, hqwf⟩
        refine disjointServing_aupdate_fresh st.taxi_set tid t0 t2 hdisj h0 ?_
        intro x hx
        rw [hserv2'] at hx
        simp at hx
      · show StatusEvolves st.query_set st.query_set
        exact StatusEvolves_refl _
  · rw [if_neg hio] at h
    have hio' : node.is_origin = false := by
      cases hi : node.is_origin
      · rfl
      · exact absurd hi hio
    cases hserv0 : t0.serving_queries with
    | nil =>
      exfalso
      unfold scheduleShape at hshape
      rw [hserv0, hts] at hshape
      simp only at hshape
      cases restSched with
      | nil => simp [Paired] at hshape
      | cons d rest2 =>
        simp only [Paired, Bool.and_eq_true] at hshape
        rw [hio'] at hshape
        simp at hshape
    | cons a as =>
    cases as with
    | cons b bs =>
      exfalso
      unfold scheduleShape at hshape
      rw [hserv0, hts] at hshape
      simp at hshape
    | nil =>
    unfold scheduleShape at hshape
    rw [hserv0, hts] at hshape
    simp only at hshape
    simp only [Bool.and_eq_true, decide_eq_true_eq] at hshape
    obtain ⟨⟨_, hna⟩, hpr⟩ := hshape
    have haq : a = q.id := (hqid.trans hna).symm
    have hqr : q.status = QStatus.riding := by
      unfold servingRiding at hride
      rw [hserv0] at hride
      simp only [List.all_cons, List.all_nil, Bool.and_true] at hride
      rw [haq, hqid, hlq] at hride
      simp only at hride
      exact of_decide_eq_true hride
    simp only [Taxi.satisfy_query] at h
    have hmem : q.id ∈ u.serving_queries := by
      rw [huserv, hserv0, haq]
      exact List.mem_singleton.mpr rfl
    rw [if_pos hmem] at h
    simp only at h
    obtain ⟨t2, db2, hur, hst'⟩ :=
      drive_finish_shape G rn fuel timestamp _ tid _ node st' h
    subst hst'
    obtain ⟨hsch2, hserv2, hnr2, hcap2, _⟩ :=
      update_route_fields G rn fuel _ (some node) t2 hur
    have hserv2' : t2.serving_queries = [] := by
      rw [hserv2]
      show u.serving_queries.erase q.id = []
      rw [huserv, hserv0, haq]
      exact List.erase_cons_head _ _
    have hnr2' : t2.num_riders = 0 := by
      rw [hnr2]
      show u.num_riders - 1 = 0
      rw [hunr, hlen, hserv0]
      rfl
    have hsch2' : t2.schedule = restSched := by rw [hsch2]
    have htw2 : taxiWF
        (aupdate st.query_set node.query_id { q with status := QStatus.satisfied })
        t2 = true := by
      simp only [taxiWF, Bool.and_eq_true, decide_eq_true_eq]
      refine ⟨⟨⟨?_, ?_⟩, ?_⟩, ?_⟩
      · rw [hcap2]
        show (1 : ℤ) ≤ u.capacity
        rw [hucap]
        exact hcap1
      · rw [hnr2', hserv2']
        rfl
      · unfold scheduleShape
        rw [hserv2', hsch2']
        exact hpr
      · unfold servingRiding
        rw [hserv2']
        rfl
    refine ⟨?_, ?_⟩
    · show InvQT
        (aupdate st.query_set node.query_id { q with status := QStatus.satisfied })
        (aupdate st.taxi_set tid t2) = true
      unfold InvQT
      simp only [Bool.and_eq_true]
      refine ⟨⟨?_, ?_⟩, ?_⟩
      · refine all_taxiWF_aupdate_combined st.query_set st.taxi_set tid t0 t2
          node.query_id _ hall hdisj h0 ?_ htw2
        rw [hserv0, hna]
        exact List.mem_singleton.mpr rfl
      · refine disjointServing_aupdate_fresh st.taxi_set tid t0 t2 hdisj h0 ?_
        intro x hx
        rw [hserv2'] at hx
        simp at hx
      · exact all_aupdate queryWF st.query_set node.query_id _ hqwf
          (queryWF_fields node.query_id q _ rfl rfl rfl hqw0)
    · show StatusEvolves st.query_set
        (aupdate st.query_set node.query_id { q with status := QStatus.satisfied })
      refine StatusEvolves_aupdate st.query_set node.query_id q _ hlq ?_
      have hq' : ({ q with status := QStatus.satisfied }).status = QStatus.satisfied := rfl
      rw [hq', hqr]
      rfl

/-- Replacing a stored taxi by one with the same invariant-relevant fields
preserves the invariant. -/
theorem InvQT_replace_taxi (qs : List (Nat × Query)) (ts : List (Nat × Taxi))
    (k : Nat) (t0 t' : Taxi) (hInv : InvQT qs ts = true)
    (h0 : alookup ts k = some t0)
    (hcap : t'.capacity = t0.capacity) (hnr : t'.num_riders = t0.num_riders)
    (hsch : t'.schedule = t0.schedule)
    (hserv : t'.serving_queries = t0.serving_queries) :
    InvQT qs (aupdate ts k t') = true := by
  unfold InvQT at hInv ⊢
  simp only [Bool.and_eq_true] at hInv ⊢
  obtain ⟨⟨hall, hdisj⟩, hq⟩ := hInv
  refine ⟨⟨?_, ?_⟩, hq⟩
  · have ht0 : taxiWF qs t0 = true := alookup_all _ ts k t0 hall h0
    exact all_aupdate _ ts k t' hall (taxiWF_fields qs t0 t' hcap hnr hsch hserv ht0)
  · refine disjointServing_aupdate_fresh ts k t0 t' hdisj h0 ?_
    intro x hx
    exact Or.inl (hserv ▸ hx)

/-- One `Taxi.drive` call preserves the invariant and only moves statuses
along the lifecycle. -/
theorem drive_preserves (G : Geo) (rn : RoadNetwork) (fuel : Nat)
    (timestamp : ℚ) (st : SimState) (tid : Nat) (st' : SimState)
    (hInv : InvQT st.query_set st.taxi_set = true)
    (h : drive G rn fuel timestamp st tid = .ok st') :
    InvQT st'.query_set st'.taxi_set = true ∧
    StatusEvolves st.query_set st'.query_set := by
  unfold drive at h
  cases h0 : alookup st.taxi_set tid with
  | none => rw [h0] at h; exact absurd h (by simp)
  | some t0 =>
  rw [h0] at h
  simp only at h
  cases hr : t0.route with
  | none =>
    rw [hr] at h
    simp only at h
    cases h
    exact ⟨hInv, StatusEvolves_refl _⟩
  | some route =>
  rw [hr] at h
  simp only at h
  split at h
  · cases h
    exact ⟨hInv, StatusEvolves_refl _⟩
  · split at h
    · exact absurd h (by simp)
    · rename_i cur_edge hge
      split at h
      · exact absurd h (by simp)
      · rename_i to_vertex hve
        split at h
        · exact absurd h (by simp)
        · rename_i e_start_vertex hsv
          split at h
          · split at h
            · exact absurd h (by simp)
            · rename_i t' db' hup
              cases h
              obtain ⟨_, hcapf, hnrf, hschf, hservf, _⟩ :=
                update_pos_fields _ _ _ _ _ _ hup
              refine ⟨?_, StatusEvolves_refl _⟩
              show InvQT st.query_set (aupdate st.taxi_set tid t') = true
              exact InvQT_replace_taxi st.query_set st.taxi_set tid t0 t' hInv h0
                (hcapf.trans rfl) (hnrf.trans rfl) (hschf.trans rfl)
                (hservf.trans rfl)
          · split at h
            · exact absurd h (by simp)
            · rename_i t1 db1 hup
              obtain ⟨_, hcapf, hnrf, hschf, hservf, _⟩ :=
                update_pos_fields _ _ _ _ _ _ hup
              split at h
              · exact absurd h (by simp)
              · rename_i onid next_eid hnext
                cases h
                refine ⟨?_, StatusEvolves_refl _⟩
                show InvQT st.query_set (aupdate st.taxi_set tid _) = true
                refine InvQT_replace_taxi st.query_set st.taxi_set tid t0 _
                  hInv h0 ?_ ?_ ?_ ?_
                · show t1.capacity = t0.capacity
                  exact hcapf.trans rfl
                · show t1.num_riders = t0.num_riders
                  exact hnrf.trans rfl
                · show t1.schedule = t0.schedule
                  exact hschf.trans rfl
                · show t1.serving_queries = t0.serving_queries
                  exact hservf.trans rfl
              · rename_i onid hnext
                refine drive_arrival_preserves G rn fuel timestamp
                  { st with db := db1 } tid _ t0 st' hInv h0 ?_ ?_ ?_ ?_ h
                · show t1.capacity = t0.capacity
                  exact hcapf.trans rfl
                · show t1.num_riders = t0.num_riders
                  exact hnrf.trans rfl
                · show t1.schedule = t0.schedule
                  exact hschf.trans rfl
                · show t1.serving_queries = t0.serving_queries
                  exact hservf.trans rfl

/-- `__schedule` in the success case: the query keeps its identity fields
and status; the taxi set is unchanged (empty candidates) or one stored
taxi gets the query's (origin, destination) pair appended to its
schedule, with riders/serving/capacity untouched. -/
theorem dispatcher_schedule_spec (G : Geo) (rn : RoadNetwork) (fuel : Nat)
    (q : Query) (candi : List Nat) (ts : List (Nat × Taxi))
    (flag : Bool) (q' : Query) (taxis' : List (Nat × Taxi))
    (h : dispatcher_schedule G rn fuel q candi ts = .ok (flag, q', taxis')) :
    q'.id = q.id ∧ q'.status = q.status ∧
    q'.o_schedule_node = q.o_schedule_node ∧
    q'.d_schedule_node = q.d_schedule_node ∧
    (taxis' = ts ∨
      ∃ k t0 t1, alookup ts k = some t0 ∧ taxis' = aupdate ts k t1 ∧
        t1.capacity = t0.capacity ∧ t1.num_riders = t0.num_riders ∧
        t1.serving_queries = t0.serving_queries ∧
        t1.schedule = t0.schedule ++ [q.o_schedule_node, q.d_schedule_node]) := by
  unfold dispatcher_schedule at h
  cases candi with
  | nil =>
    simp only [Except.ok.injEq, Prod.mk.injEq] at h
    obtain ⟨_, h2, h3⟩ := h
    subst h2
    subst h3
    exact ⟨rfl, rfl, rfl, rfl, Or.inl rfl⟩
  | cons first rest =>
    simp only at h
    cases hp : schedule_pick G q ts (first :: rest) first MAX_INT with
    | error e => rw [hp] at h; exact absurd h (by simp)
    | ok picked =>
    rw [hp] at h
    simp only at h
    cases hlt : alookup ts picked with
    | none => rw [hlt] at h; exact absurd h (by simp)
    | some pt =>
    rw [hlt] at h
    simp only at h
    cases hur : Taxi.update_route G rn fuel
        { pt with schedule := pt.schedule ++
          [({ q with matched_taxi := some picked }).o_schedule_node,
           ({ q with matched_taxi := some picked }).d_schedule_node] } none with
    | error e => rw [hur] at h; exact absurd h (by simp)
    | ok pt2 =>
    rw [hur] at h
    simp only [Except.ok.injEq, Prod.mk.injEq] at h
    obtain ⟨_, h2, h3⟩ := h
    subst h2
    subst h3
    obtain ⟨hsch2, hserv2, hnr2, hcap2, _⟩ :=
      update_route_fields G rn fuel _ none pt2 hur
    refine ⟨rfl, rfl, rfl, rfl, Or.inr ⟨picked, pt, pt2, hlt, rfl, ?_, ?_, ?_, ?_⟩⟩
    · exact hcap2.trans rfl
    · exact hnr2.trans rfl
    · exact hserv2.trans rfl
    · exact hsch2.trans rfl

/-- `dispatch_taxi` preserves the invariant; no query status changes. -/
theorem dispatch_taxi_preserves (G : Geo) (rn : RoadNetwork) (fuel : Nat)
    (timestamp : ℚ) (st : SimState) (qid : Nat) (st' : SimState)
    (hInv : InvQT st.query_set st.taxi_set = true)
    (h : dispatch_taxi G rn fuel timestamp st qid = .ok st') :
    InvQT st'.query_set st'.taxi_set = true ∧
    StatusEvolves st.query_set st'.query_set := by
  unfold InvQT at hInv
  simp only [Bool.and_eq_true] at hInv
  obtain ⟨⟨hall, hdisj⟩, hqwf⟩ := hInv
  unfold dispatch_taxi at h
  cases hlq : alookup st.query_set qid with
  | none => rw [hlq] at h; exact absurd h (by simp)
  | some q =>
  rw [hlq] at h
  simp only at h
  cases hss : single_side_search timestamp q st.db with
  | error e => rw [hss] at h; exact absurd h (by simp)
  | ok candi =>
  rw [hss] at h
  simp only at h
  cases hds : dispatcher_schedule G rn fuel q candi st.taxi_set with
  | error e => rw [hds] at h; exact absurd h (by simp)
  | ok r =>
  obtain ⟨flag, q', taxis'⟩ := r
  rw [hds] at h
  simp only at h
  obtain ⟨hid', hst', ho', hd', hcase⟩ :=
    dispatcher_schedule_spec G rn fuel q candi st.taxi_set flag q' taxis' hds
  have hqw0 : queryWF (qid, q) = true :=
    alookup_all queryWF st.query_set qid q hqwf hlq
  have hqw := hqw0
  simp only [queryWF, Bool.and_eq_true, decide_eq_true_eq] at hqw
  obtain ⟨⟨⟨⟨hqid, hoor⟩, hoq⟩, hdor⟩, hdq⟩ := hqw
  have hq'wf : queryWF (qid, q') = true :=
    queryWF_fields qid q q' hid' ho' hd' hqw0
  have hqsall : (aupdate st.query_set qid q').all queryWF = true :=
    all_aupdate queryWF st.query_set qid q' hqwf hq'wf
  have htsall : st.taxi_set.all
      (fun p => taxiWF (aupdate st.query_set qid q') p.2) = true :=
    all_taxiWF_aupdate_same_status st.query_set st.taxi_set qid q q' hall hlq hst'
  have hmain : InvQT (aupdate st.query_set qid q') taxis' = true := by
    rcases hcase with rfl | ⟨k, pt, t1, hlt, rfl, hc1, hc2, hc3, hc4⟩
    · unfold InvQT
      simp only [Bool.and_eq_true]
      exact ⟨⟨htsall, hdisj⟩, hqsall⟩
    · have hptwf : taxiWF st.query_set pt = true :=
        alookup_all _ st.taxi_set k pt hall hlt
      simp only [taxiWF, Bool.and_eq_true, decide_eq_true_eq] at hptwf
      obtain ⟨⟨⟨hpc, hpl⟩, hps⟩, hpr⟩ := hptwf
      have ht1wf : taxiWF (aupdate st.query_set qid q') t1 = true := by
        simp only [taxiWF, Bool.and_eq_true, decide_eq_true_eq]
        refine ⟨⟨⟨?_, ?_⟩, ?_⟩, ?_⟩
        · rw [hc1]
          exact hpc
        · rw [hc2, hc3]
          exact hpl
        · have hsf : scheduleShape t1 =
              scheduleShape { pt with schedule :=
                pt.schedule ++ [q.o_schedule_node, q.d_schedule_node] } :=
            scheduleShape_fields
              { pt with schedule :=
                pt.schedule ++ [q.o_schedule_node, q.d_schedule_node] } t1 hc4 hc3
          rw [hsf]
          refine scheduleShape_append_pair pt q.o_schedule_node q.d_schedule_node
            hoor ?_ ?_ hps
          · simpa using hdor
          · rw [hoq, hdq]
        · rw [hc3]
          exact servingRiding_aupdate_same_status st.query_set pt.serving_queries
            qid q q' hpr hlq hst'
      unfold InvQT
      simp only [Bool.and_eq_true]
      refine ⟨⟨all_aupdate _ st.taxi_set k t1 htsall ht1wf, ?_⟩, hqsall⟩
      refine disjointServing_aupdate_fresh st.taxi_set k pt t1 hdisj hlt ?_
      intro x hx
      exact Or.inl (hc3 ▸ hx)
  have hevo : StatusEvolves st.query_set (aupdate st.query_set qid q') := by
    refine StatusEvolves_aupdate st.query_set qid q q' hlq ?_
    rw [hst']
    exact lifecycleLE_refl _
  split at h
  · cases h
    exact ⟨hmain, hevo⟩
  · cases h
    exact ⟨hmain, hevo⟩

/-- The work-processing loop preserves the invariant; statuses move only
along the lifecycle. -/
theorem process_work_preserves (G : Geo) (rn : RoadNetwork) (fuel : Nat)
    (timestamp : ℚ) :
    ∀ (wf : Nat) (work : List (ℚ × Nat)) (st st' : SimState),
      InvQT st.query_set st.taxi_set = true →
      process_work G rn fuel timestamp wf work st = .ok st' →
      InvQT st'.query_set st'.taxi_set = true ∧
      StatusEvolves st.query_set st'.query_set
  | 0, work, st, st' => by
    intro _ h
    simp [process_work] at h
  | wf + 1, work, st, st' => by
    intro hInv h
    unfold process_work at h
    cases hpg : pq_get work with
    | none =>
      rw [hpg] at h
      simp only at h
      cases h
      exact ⟨hInv, StatusEvolves_refl _⟩
    | some r =>
    obtain ⟨⟨pr, qid⟩, rest⟩ := r
    rw [hpg] at h
    simp only at h
    cases hlq : alookup st.query_set qid with
    | none => rw [hlq] at h; exact absurd h (by simp)
    | some q =>
    rw [hlq] at h
    simp only at h
    by_cases hc : q.status = QStatus.cancelled
    · rw [if_pos hc] at h
      exact process_work_preserves G rn fuel timestamp wf rest
        { st with dispatcher := { st.dispatcher with
          cancelled_queries := st.dispatcher.cancelled_queries ++ [qid] } }
        st' hInv h
    · rw [if_neg hc] at h
      cases hdp : dispatch_taxi G rn fuel timestamp st qid with
      | error e => rw [hdp] at h; exact absurd h (by simp)
      | ok st1 =>
      rw [hdp] at h
      simp only at h
      obtain ⟨hI1, hE1⟩ := dispatch_taxi_preserves G rn fuel timestamp st qid st1 hInv hdp
      obtain ⟨hI2, hE2⟩ := process_work_preserves G rn fuel timestamp wf rest st1 st' hI1 h
      exact ⟨hI2, StatusEvolves_trans hE1 hE2⟩

/-- `Query.update_status` keeps the identity fields. -/
theorem update_status_fields (q : Query) (timestamp : ℚ) :
    (q.update_status timestamp).id = q.id ∧
    (q.update_status timestamp).o_schedule_node = q.o_schedule_node ∧
    (q.update_status timestamp).d_schedule_node = q.d_schedule_node := by
  unfold Query.update_status
  by_cases h : q.status = QStatus.waiting
  · rw [if_pos h]
    by_cases hl : q.pickup_window.late < timestamp
    · rw [if_pos hl]
      exact ⟨rfl, rfl, rfl⟩
    · rw [if_neg hl]
      exact ⟨rfl, rfl, rfl⟩
  · rw [if_neg h]
    exact ⟨rfl, rfl, rfl⟩

/-- `Query.update_status` on a WAITING query leaves it WAITING or
cancels it. -/
theorem update_status_status (q : Query) (timestamp : ℚ)
    (h : q.status = QStatus.waiting) :
    (q.update_status timestamp).status = QStatus.waiting ∨
    (q.update_status timestamp).status = QStatus.cancelled := by
  unfold Query.update_status
  rw [if_pos h]
  by_cases hl : q.pickup_window.late < timestamp
  · rw [if_pos hl]
    exact Or.inr rfl
  · rw [if_neg hl]
    exact Or.inl h

/-- Lookup through the status-update pass. -/
theorem alookup_update_statuses (timestamp : ℚ) :
    ∀ (qs : List (Nat × Query)) (k : Nat),
      alookup (update_statuses timestamp qs) k =
        (alookup qs k).map (fun q =>
          if q.timestamp ≤ timestamp ∧ q.status = QStatus.waiting then
            q.update_status timestamp
          else q)
  | [], k => rfl
  | (k', q') :: rest, k => by
    have hcons : update_statuses timestamp ((k', q') :: rest) =
        (if q'.timestamp ≤ timestamp ∧ q'.status = QStatus.waiting then
          (k', q'.update_status timestamp) else (k', q')) ::
          update_statuses timestamp rest := rfl
    rw [hcons]
    by_cases hc : q'.timestamp ≤ timestamp ∧ q'.status = QStatus.waiting
    · rw [if_pos hc]
      by_cases hk : k' = k
      · subst hk
        have hl : alookup ((k', q'.update_status timestamp) ::
            update_statuses timestamp rest) k' =
            some (q'.update_status timestamp) := by simp [alookup]
        have hr : alookup ((k', q') :: rest) k' = some q' := by simp [alookup]
        rw [hl, hr]
        simp only [Option.map]
        rw [if_pos hc]
      · have hl : alookup ((k', q'.update_status timestamp) ::
            update_statuses timestamp rest) k =
            alookup (update_statuses timestamp rest) k := by simp [alookup, hk]
        have hr : alookup ((k', q') :: rest) k = alookup rest k := by
          simp [alookup, hk]
        rw [hl, hr]
        exact alookup_update_statuses timestamp rest k
    · rw [if_neg hc]
      by_cases hk : k' = k
      · subst hk
        have hl : alookup ((k', q') :: update_statuses timestamp rest) k' =
            some q' := by simp [alookup]
        have hr : alookup ((k', q') :: rest) k' = some q' := by simp [alookup]
        rw [hl, hr]
        simp only [Option.map]
        rw [if_neg hc]
      · have hl : alookup ((k', q') :: update_statuses timestamp rest) k =
            alookup (update_statuses timestamp rest) k := by
          simp [alookup, hk]
        have hr : alookup ((k', q') :: rest) k = alookup rest k := by
          simp [alookup, hk]
        rw [hl, hr]
        exact alookup_update_statuses timestamp rest k

theorem servingRiding_update_statuses (timestamp : ℚ)
    (qs : List (Nat × Query)) (serving : List Nat)
    (h : servingRiding qs serving = true) :
    servingRiding (update_statuses timestamp qs) serving = true := by
  unfold servingRiding at h ⊢
  rw [List.all_eq_true] at h ⊢
  intro qid hmem
  have hprev := h qid hmem
  rw [alookup_update_statuses]
  cases hlq : alookup qs qid with
  | none => rw [hlq] at hprev; simp at hprev
  | some qr =>
    rw [hlq] at hprev
    simp only at hprev
    have hr : qr.status = QStatus.riding := of_decide_eq_true hprev
    simp only [Option.map]
    rw [if_neg (by simp [hr])]
    exact hprev

theorem taxiWF_update_statuses (timestamp : ℚ) (qs : List (Nat × Query))
    (t : Taxi) (h : taxiWF qs t = true) :
    taxiWF (update_statuses timestamp qs) t = true := by
  simp only [taxiWF, Bool.and_eq_true] at h ⊢
  exact ⟨h.1, servingRiding_update_statuses timestamp qs t.serving_queries h.2⟩

theorem queryWF_update_statuses (timestamp : ℚ) (qs : List (Nat × Query))
    (h : qs.all queryWF = true) :
    (update_statuses timestamp qs).all queryWF = true := by
  unfold update_statuses
  rw [List.all_eq_true] at h ⊢
  intro p hp
  rw [List.mem_map] at hp
  obtain ⟨p0, hp0, rfl⟩ := hp
  by_cases hc : p0.2.timestamp ≤ timestamp ∧ p0.2.status = QStatus.waiting
  · rw [if_pos hc]
    obtain ⟨hid, ho, hd⟩ := update_status_fields p0.2 timestamp
    exact queryWF_fields p0.1 p0.2 _ hid ho hd (h p0 hp0)
  · rw [if_neg hc]
    exact h p0 hp0

/-- The status-update pass preserves the invariant; every change is a
lifecycle step (WAITING stays WAITING or becomes CANCELLED). -/
theorem update_statuses_preserves (timestamp : ℚ) (qs : List (Nat × Query))
    (ts : List (Nat × Taxi)) (hInv : InvQT qs ts = true) :
    InvQT (update_statuses timestamp qs) ts = true ∧
    StatusEvolves qs (update_statuses timestamp qs) := by
  unfold InvQT at hInv
  simp only [Bool.and_eq_true] at hInv
  obtain ⟨⟨hall, hdisj⟩, hqwf⟩ := hInv
  constructor
  · unfold InvQT
    simp only [Bool.and_eq_true]
    refine ⟨⟨?_, hdisj⟩, queryWF_update_statuses timestamp qs hqwf⟩
    rw [List.all_eq_true] at hall ⊢
    intro p hp
    exact taxiWF_update_statuses timestamp qs p.2 (hall p hp)
  · intro k q hq
    rw [alookup_update_statuses, hq]
    simp only [Option.map]
    by_cases hc : q.timestamp ≤ timestamp ∧ q.status = QStatus.waiting
    · rw [if_pos hc]
      refine ⟨_, rfl, ?_⟩
      rcases update_status_status q timestamp hc.2 with h | h <;>
        rw [h, hc.2] <;> rfl
    · rw [if_neg hc]
      exact ⟨q, rfl, lifecycleLE_refl _⟩

/-- Driving every taxi in a list preserves the invariant; statuses move
only along the lifecycle. -/
theorem drive_all_preserves (G : Geo) (rn : RoadNetwork) (fuel : Nat)
    (timestamp : ℚ) :
    ∀ (tids : List Nat) (st st' : SimState),
      InvQT st.query_set st.taxi_set = true →
      drive_all G rn fuel timestamp tids st = .ok st' →
      InvQT st'.query_set st'.taxi_set = true ∧
      StatusEvolves st.query_set st'.query_set
  | [], st, st' => by
    intro hInv h
    simp only [drive_all, Except.ok.injEq] at h
    subst h
    exact ⟨hInv, StatusEvolves_refl _⟩
  | tid :: rest, st, st' => by
    intro hInv h
    simp only [drive_all] at h
    cases hd : drive G rn fuel timestamp st tid with
    | error e => rw [hd] at h; exact absurd h (by simp)
    | ok st1 =>
    rw [hd] at h
    simp only at h
    obtain ⟨hI1, hE1⟩ := drive_preserves G rn fuel timestamp st tid st1 hInv hd
    obtain ⟨hI2, hE2⟩ := drive_all_preserves G rn fuel timestamp rest st1 st' hI1 h
    exact ⟨hI2, StatusEvolves_trans hE1 hE2⟩

/-- One full simulation timestep preserves the invariant; statuses move
only along the lifecycle. -/
theorem sim_step_preserves (G : Geo) (rn : RoadNetwork) (fuel : Nat)
    (timestamp : ℚ) (st st' : SimState)
    (hInv : Inv st = true) (h : sim_step G rn fuel timestamp st = .ok st') :
    Inv st' = true ∧ StatusEvolves st.query_set st'.query_set := by
  unfold Inv at hInv ⊢
  unfold sim_step at h
  cases hda : drain_arrivals st.query_set timestamp (st.query_queue.length + 1)
      st.query_queue [] with
  | error e => rw [hda] at h; exact absurd h (by simp)
  | ok r =>
  obtain ⟨queue1, work⟩ := r
  rw [hda] at h
  simp only at h
  cases hmf : move_failed st.query_set st.dispatcher.failed_queries work with
  | error e => rw [hmf] at h; exact absurd h (by simp)
  | ok work1 =>
  rw [hmf] at h
  simp only at h
  cases hpw : process_work G rn fuel timestamp (work1.length + 1) work1 { st with query_queue := queue1, dispatcher := { st.dispatcher with failed_queries := [] } } with
  | error e => rw [hpw] at h; exact absurd h (by simp)
  | ok st2 =>
  rw [hpw] at h
  simp only at h
  obtain ⟨hI2, hE2⟩ := process_work_preserves G rn fuel timestamp
    (work1.length + 1) work1 { st with query_queue := queue1, dispatcher := { st.dispatcher with failed_queries := [] } } st2 hInv hpw
  obtain ⟨hI3, hE3⟩ := update_statuses_preserves timestamp st2.query_set
    st2.taxi_set hI2
  obtain ⟨hI4, hE4⟩ := drive_all_preserves G rn fuel timestamp _ _ st' hI3 h
  exact ⟨hI4, StatusEvolves_trans (StatusEvolves_trans hE2 hE3) hE4⟩

/-! ## Claim C2: rider-count bounds after every simulation timestep -/

/-- C2: after a successful simulation timestep (arrival draining,
dispatching, status updates and all taxi drive steps) from a state
satisfying the run invariant, every taxi T in the taxi set has
`0 ≤ T.num_riders ≤ T.capacity` and `T.num_riders` equals the number of
entries of `T.serving_queries` (the invariant itself is preserved, so
this holds after every later step as well). -/
theorem C2_rider_bounds (G : Geo) (rn : RoadNetwork) (fuel : Nat)
    (timestamp : ℚ) (st st' : SimState)
    (hInv : Inv st = true)
    (h : sim_step G rn fuel timestamp st = .ok st') :
    ∀ p ∈ st'.taxi_set, 0 ≤ p.2.num_riders ∧ p.2.num_riders ≤ p.2.capacity ∧
      p.2.num_riders = (p.2.serving_queries.length : ℤ) := by
  obtain ⟨hI, _⟩ := sim_step_preserves G rn fuel timestamp st st' hInv h
  intro p hp
  unfold Inv InvQT at hI
  simp only [Bool.and_eq_true] at hI
  have htw : taxiWF st'.query_set p.2 = true :=
    (List.all_eq_true.mp hI.1.1) p hp
  simp only [taxiWF, Bool.and_eq_true, decide_eq_true_eq] at htw
  obtain ⟨⟨⟨hcap, hlen⟩, hshape⟩, _⟩ := htw
  have hle1 : p.2.serving_queries.length ≤ 1 := serving_len_le_one p.2 hshape
  refine ⟨?_, ?_, hlen⟩
  · rw [hlen]
    exact Int.natCast_nonneg _
  · rw [hlen]
    calc (p.2.serving_queries.length : ℤ) ≤ 1 := by exact_mod_cast hle1
      _ ≤ p.2.capacity := hcap

def c2taxi : Taxi := mkTaxi 21 loc0

def c2st : SimState :=
  ⟨[], [], [(21, c2taxi)], SpatioTemporalDatabase.empty, ⟨[], [], [], []⟩⟩

/-- Witness for C2: a one-taxi, no-query state steps to itself and the
bounds hold for its taxi. -/
theorem C2_rider_bounds_witness :
    0 ≤ c2taxi.num_riders ∧ c2taxi.num_riders ≤ c2taxi.capacity ∧
      c2taxi.num_riders = (c2taxi.serving_queries.length : ℤ) :=
  C2_rider_bounds geo0 RoadNetwork.empty 5 0 c2st c2st (by decide) (by decide)
    (21, c2taxi) (by decide)

/-! ## Claim C8: the query-status lifecycle -/

/-- C8: across a successful simulation timestep from an invariant state,
every stored query's status moves only along `lifecycleLE`, the
reflexive-transitive closure of WAITING → RIDING, WAITING → CANCELLED and
RIDING → SATISFIED; `lifecycleLE` is exactly that closure and is
antisymmetric, so no status is ever revisited. -/
theorem C8_status_lifecycle (G : Geo) (rn : RoadNetwork) (fuel : Nat)
    (timestamp : ℚ) (st st' : SimState)
    (hInv : Inv st = true)
    (h : sim_step G rn fuel timestamp st = .ok st') :
    (∀ k q, alookup st.query_set k = some q →
      ∃ q', alookup st'.query_set k = some q' ∧
        lifecycleLE q.status q'.status = true) ∧
    (∀ s s' : QStatus, lifecycleLE s s' = true ↔
      (s = s' ∨ s = QStatus.waiting ∨
        (s = QStatus.riding ∧ s' = QStatus.satisfied))) ∧
    (∀ s s' : QStatus,
      lifecycleLE s s' = true → lifecycleLE s' s = true → s = s') := by
  refine ⟨?_, ?_, ?_⟩
  · exact (sim_step_preserves G rn fuel timestamp st st' hInv h).2
  · intro s s'
    cases s <;> cases s' <;> decide
  · intro s s'
    cases s <;> cases s' <;> decide

def c8q : Query := mkQuery 7 0 loc0 loc0 node0 node0d

def c8taxi : Taxi := mkTaxi 22 loc0

def c8st : SimState :=
  ⟨[], [(7, c8q)], [(22, c8taxi)], SpatioTemporalDatabase.empty,
   ⟨[], [], [], []⟩⟩

def c8st' : SimState :=
  { c8st with query_set := [(7, { c8q with waiting_time := 1 })] }

/-- Witness for C8: one WAITING query ages by a step (status WAITING kept)
and the lifecycle facts hold. -/
theorem C8_status_lifecycle_witness :
    (∀ k q, alookup c8st.query_set k = some q →
      ∃ q', alookup c8st'.query_set k = some q' ∧
        lifecycleLE q.status q'.status = true) ∧
    (∀ s s' : QStatus, lifecycleLE s s' = true ↔
      (s = s' ∨ s = QStatus.waiting ∨
        (s = QStatus.riding ∧ s' = QStatus.satisfied))) ∧
    (∀ s s' : QStatus,
      lifecycleLE s s' = true → lifecycleLE s' s = true → s = s') :=
  C8_status_lifecycle geo0 RoadNetwork.empty 5 0 c8st c8st'
    (by decide) (by decide)

end TaxiSim
